import Mathlib

/-!
# Komodo Terraform provider: provisioning orchestrator

A shallow embedding of `internal/provider/komodo_resource.go`: the control-plane
client, the two readiness pollers, the retry wrapper of the teardown, the
GitHub collaborator, and the `Create`, `Update` and `Delete` hooks built from
them; and of `Configure` in `internal/provider/provider.go`.

The Go code talks to two remote systems (the Komodo control plane over HTTP and
GitHub through the go-github client), sleeps, draws random jitter and reads the
clock.  Here every such effect is an `Event` appended to a chronological trace,
and its outcome is read from a `World`: a record of oracles that answer from
the trace so far and the request.  Functions of the source that return `error`
return `Option String` here (`none` is Go's `nil`, `some e` carries
`err.Error()`).  Durations are whole seconds.
-/

namespace Komodo

/-! ## Values of the plugin framework -/

/-- A `types.String` of the plugin framework: null, unknown or a known value. -/
inductive TfString where
  | null
  | unknown
  | value (s : String)
  deriving DecidableEq, Repr

/-- A `types.Bool` of the plugin framework. -/
inductive TfBool where
  | null
  | unknown
  | value (b : Bool)
  deriving DecidableEq, Repr

/-- `IsNull()` on a framework string. -/
def TfString.IsNull : TfString → Bool
  | .null => true
  | _ => false

/-- `ValueString()`: the known value, and the empty string for null or unknown. -/
def TfString.ValueString : TfString → String
  | .value s => s
  | _ => ""

/-- `IsNull()` on a framework bool. -/
def TfBool.IsNull : TfBool → Bool
  | .null => true
  | _ => false

/-- `ValueBool()`: the known value, and false for null or unknown. -/
def TfBool.ValueBool : TfBool → Bool
  | .value b => b
  | _ => false

/-- The resource state `KomodoModel`. -/
structure KomodoModel where
  Id : TfString
  Name : TfString
  FileContents : TfString
  ServerIP : TfString
  GenerateSSHKeys : TfBool
  deriving DecidableEq, Repr

/-- The receiver `komodoResource` without its HTTP client (the client is the
`World`). -/
structure komodoResource where
  endpoint : String
  apiKey : String
  apiSecret : String
  githubToken : String
  githubOrgname : String
  deriving DecidableEq, Repr

/-- Severity of a diagnostic. -/
inductive Severity where
  | error
  | warning
  deriving DecidableEq, Repr

/-- One diagnostic of `resp.Diagnostics`: `AddError(summary, detail)` or
`AddWarning(summary, detail)`. -/
structure Diag where
  severity : Severity
  summary : String
  detail : String
  deriving DecidableEq, Repr

/-- `Diagnostics.HasError()`. -/
def HasError (ds : List Diag) : Bool :=
  ds.any (fun d => d.severity == Severity.error)

/-! ## Effects -/

/-- A POST to the control plane as `makeAPICall` and the two pollers build it:
URL, body and the two authentication headers. -/
structure Request where
  url : String
  payload : String
  apiKey : String
  apiSecret : String
  deriving DecidableEq, Repr

/-- One effect of the provider, in the order the code performs them.
`post` is one attempt to POST (`http.NewRequest` followed by `client.Do`);
the `gh*` events are the calls on the go-github client; `sleep` is
`time.Sleep` in seconds. -/
inductive Event where
  | post (q : Request)
  | sleep (seconds : Nat)
  | ghCreateRepo (owner name : String)
  | ghGetUser
  | ghCreateKey (owner repo key title : String) (readOnly : Bool)
  | ghGetRepo (owner repo : String)
  | ghGetContents (owner repo path ref : String)
  | ghCreateFile (owner repo path message content branch : String) (sha : Option String)
  | ghDeleteRepo (owner repo : String)
  | generateKey
  deriving DecidableEq, Repr

/-- An HTTP response: `StatusCode`, `Status`, the bytes `io.ReadAll` returns for
the body and the error it returns with them, if any. -/
structure HttpResponse where
  statusCode : Nat
  status : String
  body : String
  readErr : Option String
  deriving DecidableEq, Repr

/-- What one POST attempt comes to: `http.NewRequest` fails, `client.Do` fails,
or a response arrives. -/
inductive CallOutcome where
  | requestError (e : String)
  | transportError (e : String)
  | response (resp : HttpResponse)
  deriving DecidableEq, Repr

/-- A decoded JSON value, as `encoding/json` stores it in an `interface{}`. -/
inductive JsonValue where
  | null
  | bool (b : Bool)
  | number (text : String)
  | string (s : String)
  | array (items : List JsonValue)
  | object (members : List (String × JsonValue))

/-- What `generateSSHKeyPair` gets from the crypto libraries: one of its three
calls fails, or the PEM text of the private key and the authorized-key line of
the public key. -/
inductive KeyMaterial where
  | generateKeyError (e : String)
  | publicKeyError (e : String)
  | marshalError (e : String)
  | keys (privatePEM authorizedKey : String)
  deriving DecidableEq, Repr

/-- What `Repositories.GetContents` comes to for the path of a file: an error,
no file content (the path is a directory), or a file: what `GetContent()`
returns for it, and its SHA. -/
inductive ContentsOutcome where
  | error (e : String)
  | directory
  | file (content : Except String String) (sha : Option String)

/-- The environment of a run.  Each oracle answers from the trace so far (the
first argument) and the request, so the remote side may change its answers over
time.  `jsonUnmarshal` stands for `json.Unmarshal` into a
`map[string]interface{}`: the error text, or the members of the map (none for a
JSON `null`). -/
structure World where
  http : List Event → Request → CallOutcome
  jsonUnmarshal : String → Except String (List (String × JsonValue))
  randIntn : List Event → Nat
  unixNow : List Event → Int
  keyMaterial : List Event → KeyMaterial
  ghCreateRepo : List Event → String → String → Option String
  ghGetUser : List Event → Except String String
  ghCreateKey : List Event → String → String → String → String → Bool → Option String
  ghGetRepo : List Event → String → String → Except String (Option String)
  ghCreateFile : List Event → String → String → String → String → String → String →
    Option String → Option String
  ghDeleteRepo : List Event → String → String → Option String
  ghGetContents : List Event → String → String → String → String → ContentsOutcome :=
    fun _ _ _ _ _ => ContentsOutcome.error "404 Not Found"

/-! ## String helpers of the Go standard library -/

/-- A run of the lower-case mapping: the code points `lo`, `lo + stride`, ...,
`hi` are mapped to `target`, `target + stride`, ... -/
structure LowerRange where
  lo : Nat
  hi : Nat
  stride : Nat
  target : Nat
  deriving DecidableEq, Repr

/-- The simple lower-case mapping of the Unicode Character Database (version
14.0) outside ASCII, which the case tables of package `unicode` hold: every
code point that has a lower-case form other than itself is in exactly one
run. -/
def lowerRanges : List LowerRange :=
  [LowerRange.mk 192 214 1 224, LowerRange.mk 216 222 1 248, LowerRange.mk 256 302 2 257,
    LowerRange.mk 304 304 1 105, LowerRange.mk 306 310 2 307, LowerRange.mk 313 327 2 314,
    LowerRange.mk 330 374 2 331, LowerRange.mk 376 376 1 255, LowerRange.mk 377 381 2 378,
    LowerRange.mk 385 385 1 595, LowerRange.mk 386 388 2 387, LowerRange.mk 390 390 1 596,
    LowerRange.mk 391 391 1 392, LowerRange.mk 393 394 1 598, LowerRange.mk 395 395 1 396,
    LowerRange.mk 398 398 1 477, LowerRange.mk 399 399 1 601, LowerRange.mk 400 400 1 603,
    LowerRange.mk 401 401 1 402, LowerRange.mk 403 403 1 608, LowerRange.mk 404 404 1 611,
    LowerRange.mk 406 406 1 617, LowerRange.mk 407 407 1 616, LowerRange.mk 408 408 1 409,
    LowerRange.mk 412 412 1 623, LowerRange.mk 413 413 1 626, LowerRange.mk 415 415 1 629,
    LowerRange.mk 416 420 2 417, LowerRange.mk 422 422 1 640, LowerRange.mk 423 423 1 424,
    LowerRange.mk 425 425 1 643, LowerRange.mk 428 428 1 429, LowerRange.mk 430 430 1 648,
    LowerRange.mk 431 431 1 432, LowerRange.mk 433 434 1 650, LowerRange.mk 435 437 2 436,
    LowerRange.mk 439 439 1 658, LowerRange.mk 440 440 1 441, LowerRange.mk 444 444 1 445,
    LowerRange.mk 452 452 1 454, LowerRange.mk 453 453 1 454, LowerRange.mk 455 455 1 457,
    LowerRange.mk 456 456 1 457, LowerRange.mk 458 458 1 460, LowerRange.mk 459 475 2 460,
    LowerRange.mk 478 494 2 479, LowerRange.mk 497 497 1 499, LowerRange.mk 498 500 2 499,
    LowerRange.mk 502 502 1 405, LowerRange.mk 503 503 1 447, LowerRange.mk 504 542 2 505,
    LowerRange.mk 544 544 1 414, LowerRange.mk 546 562 2 547, LowerRange.mk 570 570 1 11365,
    LowerRange.mk 571 571 1 572, LowerRange.mk 573 573 1 410, LowerRange.mk 574 574 1 11366,
    LowerRange.mk 577 577 1 578, LowerRange.mk 579 579 1 384, LowerRange.mk 580 580 1 649,
    LowerRange.mk 581 581 1 652, LowerRange.mk 582 590 2 583, LowerRange.mk 880 882 2 881,
    LowerRange.mk 886 886 1 887, LowerRange.mk 895 895 1 1011, LowerRange.mk 902 902 1 940,
    LowerRange.mk 904 906 1 941, LowerRange.mk 908 908 1 972, LowerRange.mk 910 911 1 973,
    LowerRange.mk 913 929 1 945, LowerRange.mk 931 939 1 963, LowerRange.mk 975 975 1 983,
    LowerRange.mk 984 1006 2 985, LowerRange.mk 1012 1012 1 952, LowerRange.mk 1015 1015 1 1016,
    LowerRange.mk 1017 1017 1 1010, LowerRange.mk 1018 1018 1 1019,
    LowerRange.mk 1021 1023 1 891, LowerRange.mk 1024 1039 1 1104,
    LowerRange.mk 1040 1071 1 1072, LowerRange.mk 1120 1152 2 1121,
    LowerRange.mk 1162 1214 2 1163, LowerRange.mk 1216 1216 1 1231,
    LowerRange.mk 1217 1229 2 1218, LowerRange.mk 1232 1326 2 1233,
    LowerRange.mk 1329 1366 1 1377, LowerRange.mk 4256 4293 1 11520,
    LowerRange.mk 4295 4295 1 11559, LowerRange.mk 4301 4301 1 11565,
    LowerRange.mk 5024 5103 1 43888, LowerRange.mk 5104 5109 1 5112,
    LowerRange.mk 7312 7354 1 4304, LowerRange.mk 7357 7359 1 4349,
    LowerRange.mk 7680 7828 2 7681, LowerRange.mk 7838 7838 1 223,
    LowerRange.mk 7840 7934 2 7841, LowerRange.mk 7944 7951 1 7936,
    LowerRange.mk 7960 7965 1 7952, LowerRange.mk 7976 7983 1 7968,
    LowerRange.mk 7992 7999 1 7984, LowerRange.mk 8008 8013 1 8000,
    LowerRange.mk 8025 8031 2 8017, LowerRange.mk 8040 8047 1 8032,
    LowerRange.mk 8072 8079 1 8064, LowerRange.mk 8088 8095 1 8080,
    LowerRange.mk 8104 8111 1 8096, LowerRange.mk 8120 8121 1 8112,
    LowerRange.mk 8122 8123 1 8048, LowerRange.mk 8124 8124 1 8115,
    LowerRange.mk 8136 8139 1 8050, LowerRange.mk 8140 8140 1 8131,
    LowerRange.mk 8152 8153 1 8144, LowerRange.mk 8154 8155 1 8054,
    LowerRange.mk 8168 8169 1 8160, LowerRange.mk 8170 8171 1 8058,
    LowerRange.mk 8172 8172 1 8165, LowerRange.mk 8184 8185 1 8056,
    LowerRange.mk 8186 8187 1 8060, LowerRange.mk 8188 8188 1 8179,
    LowerRange.mk 8486 8486 1 969, LowerRange.mk 8490 8490 1 107, LowerRange.mk 8491 8491 1 229,
    LowerRange.mk 8498 8498 1 8526, LowerRange.mk 8544 8559 1 8560,
    LowerRange.mk 8579 8579 1 8580, LowerRange.mk 9398 9423 1 9424,
    LowerRange.mk 11264 11311 1 11312, LowerRange.mk 11360 11360 1 11361,
    LowerRange.mk 11362 11362 1 619, LowerRange.mk 11363 11363 1 7549,
    LowerRange.mk 11364 11364 1 637, LowerRange.mk 11367 11371 2 11368,
    LowerRange.mk 11373 11373 1 593, LowerRange.mk 11374 11374 1 625,
    LowerRange.mk 11375 11375 1 592, LowerRange.mk 11376 11376 1 594,
    LowerRange.mk 11378 11378 1 11379, LowerRange.mk 11381 11381 1 11382,
    LowerRange.mk 11390 11391 1 575, LowerRange.mk 11392 11490 2 11393,
    LowerRange.mk 11499 11501 2 11500, LowerRange.mk 11506 11506 1 11507,
    LowerRange.mk 42560 42604 2 42561, LowerRange.mk 42624 42650 2 42625,
    LowerRange.mk 42786 42798 2 42787, LowerRange.mk 42802 42862 2 42803,
    LowerRange.mk 42873 42875 2 42874, LowerRange.mk 42877 42877 1 7545,
    LowerRange.mk 42878 42886 2 42879, LowerRange.mk 42891 42891 1 42892,
    LowerRange.mk 42893 42893 1 613, LowerRange.mk 42896 42898 2 42897,
    LowerRange.mk 42902 42920 2 42903, LowerRange.mk 42922 42922 1 614,
    LowerRange.mk 42923 42923 1 604, LowerRange.mk 42924 42924 1 609,
    LowerRange.mk 42925 42925 1 620, LowerRange.mk 42926 42926 1 618,
    LowerRange.mk 42928 42928 1 670, LowerRange.mk 42929 42929 1 647,
    LowerRange.mk 42930 42930 1 669, LowerRange.mk 42931 42931 1 43859,
    LowerRange.mk 42932 42946 2 42933, LowerRange.mk 42948 42948 1 42900,
    LowerRange.mk 42949 42949 1 642, LowerRange.mk 42950 42950 1 7566,
    LowerRange.mk 42951 42953 2 42952, LowerRange.mk 42960 42960 1 42961,
    LowerRange.mk 42966 42968 2 42967, LowerRange.mk 42997 42997 1 42998,
    LowerRange.mk 65313 65338 1 65345, LowerRange.mk 66560 66599 1 66600,
    LowerRange.mk 66736 66771 1 66776, LowerRange.mk 66928 66938 1 66967,
    LowerRange.mk 66940 66954 1 66979, LowerRange.mk 66956 66962 1 66995,
    LowerRange.mk 66964 66965 1 67003, LowerRange.mk 68736 68786 1 68800,
    LowerRange.mk 71840 71871 1 71872, LowerRange.mk 93760 93791 1 93792,
    LowerRange.mk 125184 125217 1 125218]

/-- `unicode.ToLower`: an ASCII capital becomes its small letter, a code point
of a run of the lower-case mapping its image, every other character is left as
it is. -/
def unicodeToLower (c : Char) : Char :=
  if c.toNat < 128 then c.toLower
  else
    match lowerRanges.find? (fun e =>
        decide (e.lo ≤ c.toNat) && decide (c.toNat ≤ e.hi) &&
          (c.toNat - e.lo) % e.stride == 0) with
    | some e => Char.ofNat (e.target + (c.toNat - e.lo))
    | none => c

/-- `strings.ToLower`: `unicode.ToLower` on every character. -/
def toLower (s : String) : String :=
  String.mk (s.data.map unicodeToLower)

/-- `strings.Contains` on character lists. -/
def containsChars (hay needle : List Char) : Bool :=
  hay.tails.any (fun t => needle.isPrefixOf t)

/-- `strings.Contains(s, substr)`. -/
def Contains (s substr : String) : Bool :=
  containsChars s.data substr.data

/-- The characters the regular expression of `sanitizeRepoName` keeps:
ASCII letters, digits, hyphen, underscore and dot. -/
def keptChar (c : Char) : Bool :=
  ('a' ≤ c && c ≤ 'z') || ('A' ≤ c && c ≤ 'Z') || ('0' ≤ c && c ≤ '9') ||
    c == '-' || c == '_' || c == '.'

/-- `sanitizeRepoName`: spaces become hyphens, every character outside
`[a-zA-Z0-9\-_.]` is removed, and the result is lower-cased. -/
def sanitizeRepoName (name : String) : String :=
  let name := String.mk (name.data.map (fun c => if c = ' ' then '-' else c))
  let name := String.mk (name.data.filter keptChar)
  toLower name

/-- `unicode.IsSpace`, the characters `strings.TrimSpace` removes. -/
def isSpace (c : Char) : Bool :=
  c == '\t' || c == '\n' || c.toNat == 0x0B || c.toNat == 0x0C || c == '\r' || c == ' ' ||
    c.toNat == 0x85 || c.toNat == 0xA0 || c.toNat == 0x1680 ||
    (0x2000 ≤ c.toNat && c.toNat ≤ 0x200A) || c.toNat == 0x2028 || c.toNat == 0x2029 ||
    c.toNat == 0x202F || c.toNat == 0x205F || c.toNat == 0x3000

/-- `strings.TrimSpace`. -/
def TrimSpace (s : String) : String :=
  String.mk ((s.data.dropWhile isSpace).reverse.dropWhile isSpace).reverse

/-- `strings.ReplaceAll(s, "\n", "\\n")`: every newline becomes the two
characters backslash and `n`. -/
def escapeNewlines (s : String) : String :=
  String.mk (s.data.flatMap (fun c => if c = '\n' then ['\\', 'n'] else [c]))

/-- `strings.ReplaceAll(s, "\\n", "\n")` on characters: every pair of a
backslash and the letter `n`, from the left and not overlapping, becomes a
newline. -/
def unescapeNewlines : List Char → List Char
  | [] => []
  | [c] => [c]
  | c :: d :: rest =>
    if c = '\\' ∧ d = 'n' then '\n' :: unescapeNewlines rest
    else c :: unescapeNewlines (d :: rest)

/-- `strings.HasSuffix`. -/
def HasSuffix (s suffix : String) : Bool :=
  suffix.data.isSuffixOf s.data

/-! ## The control-plane client -/

/-- `makeAPICall`: one POST of `payload` to `url` with the two API headers; an
error for a request that cannot be built, a transport failure, or any status
other than 200 (the error text then carries `resp.Status` and the body).  The
`post` event records the attempt; when the request cannot be built the code
returns before `client.Do` and nothing goes out (see `sentRequests`). -/
def makeAPICall (w : World) (r : komodoResource) (payload url : String) (t : List Event) :
    Option String × List Event :=
  let q : Request := ⟨url, payload, r.apiKey, r.apiSecret⟩
  let t1 := t ++ [Event.post q]
  match w.http t q with
  | .requestError e => (some ("error creating request: " ++ e), t1)
  | .transportError e => (some ("error sending request: " ++ e), t1)
  | .response resp =>
    if resp.statusCode ≠ 200 then
      (some ("received non-OK HTTP status: " ++ resp.status ++ ", body: " ++ resp.body), t1)
    else
      (none, t1)

/-- The `GetServer` body built in `waitForServerAvailability`. -/
def getServerPayload (serverName : String) : String :=
  "\x7b\n\t\t\t\"type\": \"GetServer\",\n\t\t\t\"params\": \x7b\n\t\t\t\t\"server\": \"" ++ serverName ++ "\"\n\t\t\t\x7d\n\t\t\x7d"

/-- The `GetServerState` body built in `waitForServerStateEnabled`. -/
def getServerStatePayload (serverName : String) : String :=
  "\x7b\n\t\t\t\"type\": \"GetServerState\",\n\t\t\t\"params\": \x7b\n\t\t\t\t\"server\": \"" ++ serverName ++ "\"\n\t\t\t\x7d\n\t\t\x7d"

/-- The readiness test of `waitForServerAvailability` on the decoded body:
`result["config"]` is an object that has an `"address"` member. -/
def hasConfigAddress (result : List (String × JsonValue)) : Bool :=
  match result.lookup "config" with
  | some (.object config) => (config.lookup "address").isSome
  | _ => false

/-- The readiness test of `waitForServerStateEnabled` on the decoded body:
`result["status"]` is the string `"Ok"`. -/
def hasStatusOk (result : List (String × JsonValue)) : Bool :=
  match result.lookup "status" with
  | some (.string status) => status == "Ok"
  | _ => false

/-- The loop of `waitForServerAvailability` with `remaining` attempts left
(`remaining = maxAttempts - attempt + 1`). -/
def waitForServerAvailabilityLoop (w : World) (r : komodoResource) (serverName : String)
    (maxAttempts sleepDuration : Nat) : Nat → List Event → Option String × List Event
  | 0, t =>
    (some ("server " ++ serverName ++ " did not become available after " ++
      toString maxAttempts ++ " attempts"), t)
  | remaining + 1, t =>
    let q : Request := ⟨r.endpoint ++ "read", getServerPayload serverName, r.apiKey, r.apiSecret⟩
    let t1 := t ++ [Event.post q]
    match w.http t q with
    | .requestError e => (some ("error creating request: " ++ e), t1)
    | .transportError _ =>
      waitForServerAvailabilityLoop w r serverName maxAttempts sleepDuration remaining
        (t1 ++ [Event.sleep sleepDuration])
    | .response resp =>
      if resp.statusCode = 200 then
        match resp.readErr with
        | some e => (some ("error reading response body: " ++ e), t1)
        | none =>
          match w.jsonUnmarshal resp.body with
          | .error e => (some ("error parsing response: " ++ e), t1)
          | .ok result =>
            if hasConfigAddress result then (none, t1)
            else
              waitForServerAvailabilityLoop w r serverName maxAttempts sleepDuration remaining
                (t1 ++ [Event.sleep sleepDuration])
      else
        waitForServerAvailabilityLoop w r serverName maxAttempts sleepDuration remaining
          (t1 ++ [Event.sleep sleepDuration])

/-- `waitForServerAvailability(serverName, maxAttempts, sleepDuration)`. -/
def waitForServerAvailability (w : World) (r : komodoResource) (serverName : String)
    (maxAttempts sleepDuration : Nat) (t : List Event) : Option String × List Event :=
  waitForServerAvailabilityLoop w r serverName maxAttempts sleepDuration maxAttempts t

/-- The loop of `waitForServerStateEnabled` with `remaining` attempts left. -/
def waitForServerStateEnabledLoop (w : World) (r : komodoResource) (serverName : String)
    (maxAttempts sleepDuration : Nat) : Nat → List Event → Option String × List Event
  | 0, t =>
    (some ("server " ++ serverName ++ " did not reach OK state after " ++
      toString maxAttempts ++ " attempts"), t)
  | remaining + 1, t =>
    let q : Request :=
      ⟨r.endpoint ++ "read", getServerStatePayload serverName, r.apiKey, r.apiSecret⟩
    let t1 := t ++ [Event.post q]
    match w.http t q with
    | .requestError e => (some ("error creating request: " ++ e), t1)
    | .transportError _ =>
      waitForServerStateEnabledLoop w r serverName maxAttempts sleepDuration remaining
        (t1 ++ [Event.sleep sleepDuration])
    | .response resp =>
      if resp.statusCode = 200 then
        match resp.readErr with
        | some e => (some ("error reading response body: " ++ e), t1)
        | none =>
          match w.jsonUnmarshal resp.body with
          | .error e => (some ("error parsing response: " ++ e), t1)
          | .ok result =>
            if hasStatusOk result then (none, t1)
            else
              waitForServerStateEnabledLoop w r serverName maxAttempts sleepDuration remaining
                (t1 ++ [Event.sleep sleepDuration])
      else
        waitForServerStateEnabledLoop w r serverName maxAttempts sleepDuration remaining
          (t1 ++ [Event.sleep sleepDuration])

/-- `waitForServerStateEnabled(serverName, maxAttempts, sleepDuration)`. -/
def waitForServerStateEnabled (w : World) (r : komodoResource) (serverName : String)
    (maxAttempts sleepDuration : Nat) (t : List Event) : Option String × List Event :=
  waitForServerStateEnabledLoop w r serverName maxAttempts sleepDuration maxAttempts t

/-- The loop of the closure `retryAPICall` of `Delete`: `i` is the loop
counter, `remaining = maxRetries - i`, and `lastErr` the error of the previous
attempt.  The jitter `mathrand.Intn(3)` is the world's draw modulo 3. -/
def retryAPICallLoop (w : World) (r : komodoResource) (payload url : String) :
    Nat → Nat → Option String → List Event → Option String × List Event
  | 0, _, lastErr, t => (lastErr, t)
  | remaining + 1, i, _, t =>
    match makeAPICall w r payload url t with
    | (none, t1) => (none, t1)
    | (some err, t1) =>
      if Contains err "Procedure busy" then
        let sleepTime := 3 * (i + 1) + w.randIntn t1 % 3
        retryAPICallLoop w r payload url remaining (i + 1) (some err)
          (t1 ++ [Event.sleep sleepTime])
      else
        (some err, t1)

/-- The closure `retryAPICall(payload, url, maxRetries)` of `Delete`. -/
def retryAPICall (w : World) (r : komodoResource) (payload url : String) (maxRetries : Nat)
    (t : List Event) : Option String × List Event :=
  retryAPICallLoop w r payload url maxRetries 0 none t

/-! ## The source-control collaborator -/

/-- `generateSSHKeyPair`: the key material of the world, each library failure
under its own message, and the public key trimmed. -/
def generateSSHKeyPair (w : World) (t : List Event) :
    Except String (String × String) × List Event :=
  let t1 := t ++ [Event.generateKey]
  match w.keyMaterial t with
  | .generateKeyError e => (.error ("failed to generate ed25519 key pair: " ++ e), t1)
  | .publicKeyError e => (.error ("failed to convert public key to SSH format: " ++ e), t1)
  | .marshalError e => (.error ("failed to marshal private key: " ++ e), t1)
  | .keys privatePEM authorizedKey => (.ok (privatePEM, TrimSpace authorizedKey), t1)

/-- `uploadDeployKey`: one `Repositories.CreateKey` call. -/
def uploadDeployKey (w : World) (owner repoName publicKey title : String) (readOnly : Bool)
    (t : List Event) : Option String × List Event :=
  let t1 := t ++ [Event.ghCreateKey owner repoName publicKey title readOnly]
  match w.ghCreateKey t owner repoName publicKey title readOnly with
  | some e => (some ("failed to upload deploy key: " ++ e), t1)
  | none => (none, t1)

/-- The literal opening of the pattern `environment = """([^"]*?)"""`. -/
def envOpening : List Char := "environment = \"\"\"".data

/-- A match of `environment = """([^"]*?)"""` at the head of `cs`: the captured
group and the text after the match.  The group holds no double quote, so it is
the run of characters up to the first one, which must begin the closing
triple quote. -/
def matchEnvironment (cs : List Char) : Option (List Char × List Char) :=
  if envOpening.isPrefixOf cs then
    let rest := cs.drop envOpening.length
    let currentEnv := rest.takeWhile (fun c => c != '"')
    let after := rest.dropWhile (fun c => c != '"')
    if ['"', '"', '"'].isPrefixOf after then some (currentEnv, after.drop 3) else none
  else
    none

/-- `ReplaceAllStringFunc` for the environment pattern: leftmost matches, not
overlapping, each replaced by the section with `sshKeysSection` before its
closing quotes.  The first argument bounds the number of steps. -/
def replaceEnvironments (sshKeysSection : List Char) : Nat → List Char → List Char
  | 0, cs => cs
  | fuel + 1, cs =>
    match matchEnvironment cs with
    | some (currentEnv, rest) =>
      envOpening ++ currentEnv ++ sshKeysSection ++ ['"', '"', '"'] ++
        replaceEnvironments sshKeysSection fuel rest
    | none =>
      match cs with
      | [] => []
      | c :: cs1 => c :: replaceEnvironments sshKeysSection fuel cs1

/-- `addSSHKeysToFileContents`. -/
def addSSHKeysToFileContents (fileContents privateKey publicKey : String) : String :=
  let sshKeysSection :=
    "\nSSH_PRIVATE_KEY=" ++ escapeNewlines privateKey ++ "\nSSH_PUBLIC_KEY=" ++ publicKey
  String.mk (replaceEnvironments sshKeysSection.data (fileContents.length + 1) fileContents.data)

/-- The tail of `createGitHubRepository`, from `if fileContents != ""` on. -/
def createRepositoryFile (w : World) (repoOwner sanitizedName fileContents : String)
    (generateSSHKeys : Bool) (privateKey publicKey : String) (t : List Event) :
    Option String × List Event :=
  if fileContents ≠ "" then
    let withKeys := generateSSHKeys && privateKey != "" && publicKey != ""
    let updatedFileContents :=
      if withKeys then addSSHKeysToFileContents fileContents privateKey publicKey
      else fileContents
    let t1 := t ++ [Event.ghGetRepo repoOwner sanitizedName]
    match w.ghGetRepo t repoOwner sanitizedName with
    | .error e => (some ("failed to get repository info: " ++ e), t1)
    | .ok branch =>
      let defaultBranch := branch.getD "main"
      let commitMessage :=
        if withKeys then "Add resources.toml with SSH keys via Terraform"
        else "Add resources.toml via Terraform"
      let t2 := t1 ++ [Event.ghCreateFile repoOwner sanitizedName "resources.toml" commitMessage
        updatedFileContents defaultBranch none]
      match w.ghCreateFile t1 repoOwner sanitizedName "resources.toml" commitMessage
          updatedFileContents defaultBranch none with
      | some e => (some ("failed to create file in repository: " ++ e), t2)
      | none => (none, t2)
  else
    (none, t)

/-- The middle of `createGitHubRepository`: the optional key pair and deploy
key, then the file. -/
def createRepositoryKeys (w : World) (repoOwner sanitizedName fileContents : String)
    (generateSSHKeys : Bool) (t : List Event) : Option String × List Event :=
  if generateSSHKeys then
    match generateSSHKeyPair w t with
    | (.error e, t1) => (some ("failed to generate SSH key pair: " ++ e), t1)
    | (.ok (privateKey, publicKey), t1) =>
      let deployKeyTitle := "terraform-deploy-key-" ++ toString (w.unixNow t1)
      match uploadDeployKey w repoOwner sanitizedName publicKey deployKeyTitle false t1 with
      | (some e, t2) => (some ("failed to upload deploy key: " ++ e), t2)
      | (none, t2) =>
        createRepositoryFile w repoOwner sanitizedName fileContents generateSSHKeys
          privateKey publicKey t2
  else
    createRepositoryFile w repoOwner sanitizedName fileContents generateSSHKeys "" "" t

/-- `createGitHubRepository(repoName, fileContents, generateSSHKeys)`. -/
def createGitHubRepository (w : World) (r : komodoResource) (repoName fileContents : String)
    (generateSSHKeys : Bool) (t : List Event) : Option String × List Event :=
  let sanitizedName := sanitizeRepoName repoName ++ "_syncresources"
  if r.githubToken = "" then
    (some "GitHub token is not set. Please provide it via configuration or GITHUB_TOKEN environment variable", t)
  else
    let owner := r.githubOrgname
    let t1 := t ++ [Event.ghCreateRepo owner sanitizedName]
    match w.ghCreateRepo t owner sanitizedName with
    | some e => (some ("failed to create GitHub repository: " ++ e), t1)
    | none =>
      let t2 := t1 ++ [Event.sleep 2]
      if owner = "" then
        let t3 := t2 ++ [Event.ghGetUser]
        match w.ghGetUser t2 with
        | .error e => (some ("failed to get authenticated user: " ++ e), t3)
        | .ok login =>
          createRepositoryKeys w login sanitizedName fileContents generateSSHKeys t3
      else
        createRepositoryKeys w owner sanitizedName fileContents generateSSHKeys t2

/-- `deleteGitHubRepository(repoName)`. -/
def deleteGitHubRepository (w : World) (r : komodoResource) (repoName : String)
    (t : List Event) : Option String × List Event :=
  let sanitizedName := sanitizeRepoName repoName ++ "_syncresources"
  if r.githubOrgname ≠ "" then
    let owner := r.githubOrgname
    let t1 := t ++ [Event.ghDeleteRepo owner sanitizedName]
    match w.ghDeleteRepo t owner sanitizedName with
    | some e => (some ("failed to delete GitHub repository: " ++ e), t1)
    | none => (none, t1)
  else
    let t1 := t ++ [Event.ghGetUser]
    match w.ghGetUser t with
    | .error e => (some ("failed to get authenticated user: " ++ e), t1)
    | .ok owner =>
      let t2 := t1 ++ [Event.ghDeleteRepo owner sanitizedName]
      match w.ghDeleteRepo t1 owner sanitizedName with
      | some e => (some ("failed to delete GitHub repository: " ++ e), t2)
      | none => (none, t2)

/-- `FindStringSubmatch` for a pattern `label([^\n]+)`: the group of the
leftmost match, which is the longest run of characters other than newline after
the label and holds at least one character. -/
def findKeyLine (label : List Char) : List Char → Option (List Char)
  | [] => none
  | c :: cs =>
    if label.isPrefixOf (c :: cs) then
      let group := ((c :: cs).drop label.length).takeWhile (fun x => x != '\n')
      if group.isEmpty then findKeyLine label cs else some group
    else
      findKeyLine label cs

/-- The keys `updateFileInRepository` takes from the existing file: the groups
of `SSH_PRIVATE_KEY=([^\n]+)` and `SSH_PUBLIC_KEY=([^\n]+)`, the private key
with its backslash-n pairs turned back into newlines; none when one of the two
patterns has no match. -/
def existingSSHKeys (existingContent : String) : Option (String × String) :=
  match findKeyLine "SSH_PRIVATE_KEY=".data existingContent.data,
      findKeyLine "SSH_PUBLIC_KEY=".data existingContent.data with
  | some privateKeyMatch, some publicKeyMatch =>
    some (String.mk (unescapeNewlines privateKeyMatch), String.mk publicKeyMatch)
  | _, _ => none

/-- The block `updateFileInRepository` runs when it has no keys to reuse: a new
key pair, its deploy key, and the file contents with the new keys. -/
def updateWithNewKeys (w : World) (owner repoName fileContents : String) (t : List Event) :
    Except String String × List Event :=
  match generateSSHKeyPair w t with
  | (.error e, t1) => (.error ("failed to generate SSH key pair: " ++ e), t1)
  | (.ok (privateKey, publicKey), t1) =>
    let deployKeyTitle := "terraform-deploy-key-" ++ toString (w.unixNow t1)
    match uploadDeployKey w owner repoName publicKey deployKeyTitle false t1 with
    | (some e, t2) => (.error ("failed to upload deploy key: " ++ e), t2)
    | (none, t2) => (.ok (addSSHKeysToFileContents fileContents privateKey publicKey), t2)

/-- The value of `updatedFileContents` in `updateFileInRepository`, given what
`GetContents` returned: the contents as they are without `generateSSHKeys` or
when the existing file cannot be decoded, the contents with the keys of the
existing file when it holds both, and with new keys otherwise. -/
def updatedFileContents (w : World) (owner repoName fileContents : String)
    (generateSSHKeys : Bool) (contents : ContentsOutcome) (t : List Event) :
    Except String String × List Event :=
  if generateSSHKeys then
    match contents with
    | .file (.ok existingContent) _ =>
      match existingSSHKeys existingContent with
      | some (privateKey, publicKey) =>
        (.ok (addSSHKeysToFileContents fileContents privateKey publicKey), t)
      | none => updateWithNewKeys w owner repoName fileContents t
    | .file (.error _) _ => (.ok fileContents, t)
    | _ => updateWithNewKeys w owner repoName fileContents t
  else
    (.ok fileContents, t)

/-- `updateFileInRepository(repoName, owner, fileContents, generateSSHKeys)`. -/
def updateFileInRepository (w : World) (repoName owner fileContents : String)
    (generateSSHKeys : Bool) (t : List Event) : Option String × List Event :=
  let repoName := repoName ++ "_syncresources"
  let t1 := t ++ [Event.ghGetRepo owner repoName]
  match w.ghGetRepo t owner repoName with
  | .error e => (some ("failed to get repository info: " ++ e), t1)
  | .ok branch =>
    let defaultBranch := branch.getD "main"
    let t2 := t1 ++ [Event.ghGetContents owner repoName "resources.toml" defaultBranch]
    let contents := w.ghGetContents t1 owner repoName "resources.toml" defaultBranch
    match updatedFileContents w owner repoName fileContents generateSSHKeys contents t2 with
    | (.error e, t3) => (some e, t3)
    | (.ok updated, t3) =>
      let sha :=
        match contents with
        | .file _ sha => sha
        | _ => none
      let t4 := t3 ++ [Event.ghCreateFile owner repoName "resources.toml"
        "Update resources.toml via Terraform" updated defaultBranch sha]
      match w.ghCreateFile t3 owner repoName "resources.toml"
          "Update resources.toml via Terraform" updated defaultBranch sha with
      | some e => (some ("failed to update file in repository: " ++ e), t4)
      | none => (none, t4)

/-! ## Diagnostics and responses -/

/-- `Diagnostics.AddError(summary, detail)`. -/
def AddError (ds : List Diag) (summary detail : String) : List Diag :=
  ds ++ [⟨Severity.error, summary, detail⟩]

/-- `Diagnostics.AddWarning(summary, detail)`. -/
def AddWarning (ds : List Diag) (summary detail : String) : List Diag :=
  ds ++ [⟨Severity.warning, summary, detail⟩]

/-- What a CRUD hook leaves behind: the effects it performed, its diagnostics
and the state it stored with `resp.State.Set`, if it did. -/
structure Response where
  trace : List Event
  diags : List Diag
  state : Option KomodoModel
  deriving DecidableEq, Repr

/-! ## Create -/

namespace Create

/-- `createServerPayload` of `Create`. -/
def createServerPayload (serverName serverIP name : String) : String :=
  "\x7b\n\t\t\"type\": \"CreateServer\",\n\t\t\"params\": \x7b\n\t\t\t\"name\": \"" ++ serverName ++ "\",\n\t\t\t\"config\": \x7b\n\t\t\t\t\"address\": \"https://" ++ serverIP ++ ":8120\"\n\t\t\t\x7d,\n\t\t\t\"tags\": [\"" ++ name ++ "\"]\n\t\t\x7d\n\t\x7d"

/-- `deleteServerPayload` of the second cleanup task. -/
def deleteServerPayload (serverName : String) : String :=
  "\x7b\n\t\t\t\"type\": \"DeleteServer\",\n\t\t\t\"params\": \x7b\n\t\t\t\t\"id\": \"" ++ serverName ++ "\"\n\t\t\t\x7d\n\t\t\x7d"

/-- `updateServerPayload` of `Create`. -/
def updateServerPayload (serverName : String) : String :=
  "\x7b\n\t\t\"type\": \"UpdateServer\",\n\t\t\"params\": \x7b\n\t\t\t\"id\": \"" ++ serverName ++ "\",\n\t\t\t\"config\": \x7b\n\t\t\t\t\"enabled\": true\n\t\t\t\x7d\n\t\t\x7d\n\t\x7d"

/-- `createContextWarePayload` of `Create`; its three arguments are the name,
the name again and the lower-cased name. -/
def createContextWarePayload (name1 name2 lowerName : String) : String :=
  "\x7b\n\t\t\"type\": \"CreateResourceSync\",\n\t\t\"params\": \x7b\n\t\t\t\"name\": \"" ++ name1 ++ "_ContextWare\",\n\t\t\t\"config\": \x7b\n\t\t\t\t\"file_contents\": \"[[resource_sync]]\\nname = \\\"" ++ name2 ++ "_ResourceSetup\\\"\\n[resource_sync.config]\\nrepo = \\\"manidaecloud/" ++ lowerName ++ "_syncresources\\\"\\ngit_account = \\\"manidaecloud\\\"\\nresource_path = [\\\"resources.toml\\\"]\"\n\t\t\t\x7d\n\t\t\x7d\n\t\x7d"

/-- `deleteContextWareSyncPayload` of the third cleanup task. -/
def deleteContextWareSyncPayload (name : String) : String :=
  "\x7b\n\t\t\t\"type\": \"DeleteResourceSync\",\n\t\t\t\"params\": \x7b\n\t\t\t\t\"id\": \"" ++ name ++ "_ContextWare\"\n\t\t\t\x7d\n\t\t\x7d"

/-- `runContextWarePayload` of `Create`. -/
def runContextWarePayload (name : String) : String :=
  "\x7b\n\t\t\"type\": \"RunSync\",\n\t\t\"params\": \x7b\n\t\t\t\"sync\": \"" ++ name ++ "_ContextWare\"\n\t\t\x7d\n\t\x7d"

/-- `deleteResourceSetupSyncPayload` of the fourth cleanup task. -/
def deleteResourceSetupSyncPayload (name : String) : String :=
  "\x7b\n\t\t\t\"type\": \"DeleteResourceSync\",\n\t\t\t\"params\": \x7b\n\t\t\t\t\"id\": \"" ++ name ++ "_ResourceSetup\"\n\t\t\t\x7d\n\t\t\x7d"

/-- `runResourceSetupPayload` of `Create`. -/
def runResourceSetupPayload (name : String) : String :=
  "\x7b\n\t\t\"type\": \"RunSync\",\n\t\t\"params\": \x7b\n\t\t\t\"sync\": \"" ++ name ++ "_ResourceSetup\"\n\t\t\x7d\n\t\x7d"

/-- `deleteProcedureApplyPayload` of the fifth cleanup task. -/
def deleteProcedureApplyPayload (name : String) : String :=
  "\x7b\n\t\t\t\"type\": \"DeleteProcedure\",\n\t\t\t\"params\": \x7b\n\t\t\t\t\"id\": \"" ++ name ++ "_ProcedureApply\"\n\t\t\t\x7d\n\t\t\x7d"

/-- `deleteProcedureDestroyPayload` of the fifth cleanup task. -/
def deleteProcedureDestroyPayload (name : String) : String :=
  "\x7b\n\t\t\t\"type\": \"DeleteProcedure\",\n\t\t\t\"params\": \x7b\n\t\t\t\t\"id\": \"" ++ name ++ "_ProcedureDestroy\"\n\t\t\t\x7d\n\t\t\x7d"

/-- `deleteProcedureRestartPayload` of the fifth cleanup task. -/
def deleteProcedureRestartPayload (name : String) : String :=
  "\x7b\n\t\t\t\"type\": \"DeleteProcedure\",\n\t\t\t\"params\": \x7b\n\t\t\t\t\"id\": \"" ++ name ++ "_ProcedureRestart\"\n\t\t\t\x7d\n\t\t\x7d"

/-- `runProcedurePayload` of `Create`. -/
def runProcedurePayload (name : String) : String :=
  "\x7b\n\t\t\"type\": \"RunProcedure\",\n\t\t\"params\": \x7b\n\t\t\t\"procedure\": \"" ++ name ++ "_ProcedureApply\"\n\t\t\x7d\n\t\x7d"

end Create

/-- The five closures `Create` appends to `cleanupTasks`, in the order of the
source text: delete the GitHub repository, the server, the ContextWare sync,
the ResourceSetup sync, and the three procedures. -/
inductive CleanupTask where
  | gitHubRepository
  | server
  | contextWareSync
  | resourceSetupSync
  | procedures
  deriving DecidableEq, Repr

/-- The trace and diagnostics while a hook runs. -/
structure Run where
  trace : List Event
  diags : List Diag
  deriving DecidableEq, Repr

/-- One delete call of a cleanup task: `makeAPICall` on the write path, and a
warning when it fails. -/
def cleanupCall (w : World) (r : komodoResource) (payload failure : String) (s : Run) : Run :=
  match makeAPICall w r payload (r.endpoint ++ "write") s.trace with
  | (some err, t) => ⟨t, AddWarning s.diags "Cleanup Warning" (failure ++ err)⟩
  | (none, t) => ⟨t, s.diags⟩

/-- The body of each cleanup closure; `name` is `state.Name.ValueString()`. -/
def CleanupTask.run (w : World) (r : komodoResource) (name : String) : CleanupTask → Run → Run
  | .gitHubRepository, s =>
    match deleteGitHubRepository w r name s.trace with
    | (some err, t) =>
      ⟨t, AddWarning s.diags "Cleanup Warning"
        ("Failed to delete GitHub repository during cleanup: " ++ err)⟩
    | (none, t) => ⟨t, s.diags⟩
  | .server, s =>
    cleanupCall w r (Create.deleteServerPayload ("server-" ++ toLower name))
      "Failed to delete server during cleanup: " s
  | .contextWareSync, s =>
    cleanupCall w r (Create.deleteContextWareSyncPayload name)
      "Failed to delete ContextWare sync during cleanup: " s
  | .resourceSetupSync, s =>
    cleanupCall w r (Create.deleteResourceSetupSyncPayload name)
      "Failed to delete ResourceSetup sync during cleanup: " s
  | .procedures, s =>
    let s1 := cleanupCall w r (Create.deleteProcedureApplyPayload name)
      "Failed to delete apply procedure during cleanup: " s
    let s2 := cleanupCall w r (Create.deleteProcedureDestroyPayload name)
      "Failed to delete destroy procedure during cleanup: " s1
    cleanupCall w r (Create.deleteProcedureRestartPayload name)
      "Failed to delete restart procedure during cleanup: " s2

/-- Where the body of `Create` stands when it returns: the response so far and
the cleanup tasks appended so far. -/
structure CreateRun where
  trace : List Event
  diags : List Diag
  cleanupTasks : List CleanupTask
  state : Option KomodoModel
  deriving DecidableEq, Repr

/-- The body of `Create` up to its `return` (the deferred function not yet
run).  `state` is the plan, decoded by `req.Plan.Get` without diagnostics. -/
def Create.body (w : World) (r : komodoResource) (state : KomodoModel) : CreateRun :=
  let name := state.Name.ValueString
  let fileContents := if !state.FileContents.IsNull then state.FileContents.ValueString else ""
  let generateSSHKeys :=
    if !state.GenerateSSHKeys.IsNull then state.GenerateSSHKeys.ValueBool else false
  match createGitHubRepository w r name fileContents generateSSHKeys [] with
  | (some err, t0) =>
    ⟨t0, AddError [] "GitHub Error" ("Error creating GitHub repository: " ++ err), [], none⟩
  | (none, t0) =>
  let tasks1 := [CleanupTask.gitHubRepository]
  let serverName := "server-" ++ toLower name
  match makeAPICall w r (Create.createServerPayload serverName state.ServerIP.ValueString name)
      (r.endpoint ++ "write") t0 with
  | (some err, t1) =>
    ⟨t1, AddError [] "API Error" ("Error creating server: " ++ err), tasks1, none⟩
  | (none, t1) =>
  let tasks2 := tasks1 ++ [CleanupTask.server]
  match waitForServerAvailability w r serverName 30 10 t1 with
  | (some err, t2) =>
    ⟨t2, AddError [] "Server Error" ("Error waiting for server to become available: " ++ err),
      tasks2, none⟩
  | (none, t2) =>
  match makeAPICall w r (Create.updateServerPayload serverName) (r.endpoint ++ "write") t2 with
  | (some err, t3) =>
    ⟨t3, AddError [] "API Error" ("Error enabling server: " ++ err), tasks2, none⟩
  | (none, t3) =>
  match waitForServerStateEnabled w r serverName 30 10 t3 with
  | (some err, t4) =>
    ⟨t4, AddError [] "Server Error" ("Error waiting for server to reach OK state: " ++ err),
      tasks2, none⟩
  | (none, t4) =>
  match makeAPICall w r (Create.createContextWarePayload name name (toLower name))
      (r.endpoint ++ "write") t4 with
  | (some err, t5) =>
    ⟨t5, AddError [] "API Error" ("Error creating ContextWare resource sync: " ++ err),
      tasks2, none⟩
  | (none, t5) =>
  let tasks3 := tasks2 ++ [CleanupTask.contextWareSync]
  match makeAPICall w r (Create.runContextWarePayload name) (r.endpoint ++ "execute") t5 with
  | (some err, t6) =>
    ⟨t6, AddError [] "API Error" ("Error running ContextWare sync: " ++ err), tasks3, none⟩
  | (none, t6) =>
  let tasks4 := tasks3 ++ [CleanupTask.resourceSetupSync]
  match makeAPICall w r (Create.runResourceSetupPayload name) (r.endpoint ++ "execute")
      (t6 ++ [Event.sleep 15]) with
  | (some err, t7) =>
    ⟨t7, AddError [] "API Error" ("Error running ResourceSetup sync: " ++ err), tasks4, none⟩
  | (none, t7) =>
  let tasks5 := tasks4 ++ [CleanupTask.procedures]
  match makeAPICall w r (Create.runProcedurePayload name) (r.endpoint ++ "execute")
      (t7 ++ [Event.sleep 15]) with
  | (some err, t8) =>
    ⟨t8, AddError [] "API Error" ("Error running procedure: " ++ err), tasks5, none⟩
  | (none, t8) => ⟨t8, [], tasks5, some state⟩

/-- The loop of the deferred function: the tasks from the last appended to the
first. -/
def Create.runCleanup (w : World) (r : komodoResource) (name : String)
    (cleanupTasks : List CleanupTask) (s : Run) : Run :=
  cleanupTasks.reverse.foldl (fun acc task => task.run w r name acc) s

/-- `Create`: the body, then the deferred function, which runs the cleanup
tasks when the diagnostics hold an error. -/
def Create (w : World) (r : komodoResource) (plan : KomodoModel) : Response :=
  let b := Create.body w r plan
  if HasError b.diags then
    let s := Create.runCleanup w r plan.Name.ValueString b.cleanupTasks ⟨b.trace, b.diags⟩
    ⟨s.trace, s.diags, b.state⟩
  else
    ⟨b.trace, b.diags, b.state⟩

/-! ## Delete -/

namespace Delete

/-- `runDestroyPayload` of `Delete`. -/
def runDestroyPayload (name : String) : String :=
  "\x7b\n\t\t\"type\": \"RunProcedure\",\n\t\t\"params\": \x7b\n\t\t\t\"procedure\": \"" ++ name ++ "_ProcedureDestroy\"\n\t\t\x7d\n\t\x7d"

/-- `deleteProcedureApplyPayload` of `Delete`. -/
def deleteProcedureApplyPayload (name : String) : String :=
  "\x7b\n\t\t\"type\": \"DeleteProcedure\",\n\t\t\"params\": \x7b\n\t\t\t\"id\": \"" ++ name ++ "_ProcedureApply\"\n\t\t\x7d\n\t\x7d"

/-- `deleteProcedureDestroyPayload` of `Delete`. -/
def deleteProcedureDestroyPayload (name : String) : String :=
  "\x7b\n\t\t\"type\": \"DeleteProcedure\",\n\t\t\"params\": \x7b\n\t\t\t\"id\": \"" ++ name ++ "_ProcedureDestroy\"\n\t\t\x7d\n\t\x7d"

/-- `deleteProcedureRestartPayload` of `Delete`. -/
def deleteProcedureRestartPayload (name : String) : String :=
  "\x7b\n\t\t\"type\": \"DeleteProcedure\",\n\t\t\"params\": \x7b\n\t\t\t\"id\": \"" ++ name ++ "_ProcedureRestart\"\n\t\t\x7d\n\t\x7d"

/-- `deleteResourceSetupSyncPayload` of `Delete`. -/
def deleteResourceSetupSyncPayload (name : String) : String :=
  "\x7b\n\t\t\"type\": \"DeleteResourceSync\",\n\t\t\"params\": \x7b\n\t\t\t\"id\": \"" ++ name ++ "_ResourceSetup\"\n\t\t\x7d\n\t\x7d"

/-- `deleteContextWareSyncPayload` of `Delete`. -/
def deleteContextWareSyncPayload (name : String) : String :=
  "\x7b\n\t\t\"type\": \"DeleteResourceSync\",\n\t\t\"params\": \x7b\n\t\t\t\"id\": \"" ++ name ++ "_ContextWare\"\n\t\t\x7d\n\t\x7d"

/-- `deleteServerPayload` of `Delete`. -/
def deleteServerPayload (serverName : String) : String :=
  "\x7b\n\t\t\"type\": \"DeleteServer\",\n\t\t\"params\": \x7b\n\t\t\t\"id\": \"" ++ serverName ++ "\"\n\t\t\x7d\n\t\x7d"

end Delete

/-- The pattern `if err != nil { resp.Diagnostics.AddError(summary, fmt.Sprintf(what + "%s", err)) }`
of `Delete`, which then goes on. -/
def reportError (err : Option String) (summary what : String) (ds : List Diag) : List Diag :=
  match err with
  | some e => AddError ds summary (what ++ e)
  | none => ds

/-- `Delete`.  `data` is the stored state, decoded by `req.State.Get` without
diagnostics.  Every call is made whatever the earlier ones returned; the state
is stored with `Id` and `Name` emptied. -/
def Delete (w : World) (r : komodoResource) (data : KomodoModel) : Response :=
  let name := data.Name.ValueString
  let c1 := makeAPICall w r (Delete.runDestroyPayload name) (r.endpoint ++ "execute") []
  let d1 := reportError c1.1 "API Error" "Error running destroy procedure: " []
  let c2 := retryAPICall w r (Delete.deleteProcedureApplyPayload name) (r.endpoint ++ "write") 5
    (c1.2 ++ [Event.sleep 5])
  let d2 := reportError c2.1 "API Error" "Error deleting apply procedure after retries: " d1
  let c3 := retryAPICall w r (Delete.deleteProcedureDestroyPayload name) (r.endpoint ++ "write") 5
    (c2.2 ++ [Event.sleep 2])
  let d3 := reportError c3.1 "API Error" "Error deleting destroy procedure after retries: " d2
  let c4 := retryAPICall w r (Delete.deleteProcedureRestartPayload name) (r.endpoint ++ "write") 5
    (c3.2 ++ [Event.sleep 2])
  let d4 := reportError c4.1 "API Error" "Error deleting restart procedure after retries: " d3
  let c5 := retryAPICall w r (Delete.deleteResourceSetupSyncPayload name) (r.endpoint ++ "write") 5
    (c4.2 ++ [Event.sleep 2])
  let d5 := reportError c5.1 "API Error" "Error deleting ResourceSetup sync after retries: " d4
  let c6 := retryAPICall w r (Delete.deleteContextWareSyncPayload name) (r.endpoint ++ "write") 5
    (c5.2 ++ [Event.sleep 2])
  let d6 := reportError c6.1 "API Error" "Error deleting ContextWare sync after retries: " d5
  let serverName := "server-" ++ toLower name
  let c7 := retryAPICall w r (Delete.deleteServerPayload serverName) (r.endpoint ++ "write") 3 c6.2
  let d7 := reportError c7.1 "API Error" "Error deleting server after retries: " d6
  let c8 := deleteGitHubRepository w r name c7.2
  let d8 := reportError c8.1 "GitHub Error" "Error deleting GitHub repository: " d7
  ⟨c8.2, d8, some { data with Id := TfString.value "", Name := TfString.value "" }⟩

/-! ## Update -/

namespace Update

/-- `createSyncPayload` of `Update`; its three arguments are the name, the name
again and the lower-cased name. -/
def createSyncPayload (name1 name2 lowerName : String) : String :=
  "\x7b\n\t\t\t\"type\": \"CreateResourceSync\",\n\t\t\t\"params\": \x7b\n\t\t\t\t\"name\": \"" ++ name1 ++ "_ContextWare\",\n\t\t\t\t\"config\": \x7b\n\t\t\t\t\t\"file_contents\": \"[[resource_sync]]\\nname = \\\"" ++ name2 ++ "_ResourceSetup\\\"\\n[resource_sync.config]\\nrepo = \\\"manidaecloud/" ++ lowerName ++ "_syncresources\\\"\\ngit_account = \\\"manidaecloud\\\"\\nresource_path = [\\\"resources.toml\\\"]\"\n\t\t\t\t\x7d\n\t\t\t\x7d\n\t\t\x7d"

/-- `runSyncPayload` of `Update`. -/
def runSyncPayload (name : String) : String :=
  "\x7b\n\t\t\t\"type\": \"RunSync\",\n\t\t\t\"params\": \x7b\n\t\t\t\t\"sync\": \"" ++ name ++ "_ResourceSetup\"\n\t\t\t\x7d\n\t\t\x7d"

/-- `runProcedurePayload` of `Update`. -/
def runProcedurePayload (name : String) : String :=
  "\x7b\n\t\t\t\"type\": \"RunProcedure\",\n\t\t\t\"params\": \x7b\n\t\t\t\t\"procedure\": \"" ++ name ++ "_ProcedureApply\"\n\t\t\t\x7d\n\t\t\x7d"

end Update

/-- The three control-plane calls of `Update` after the file is written. -/
def Update.calls (w : World) (r : komodoResource) (state : KomodoModel) (t : List Event) :
    Response :=
  let name := state.Name.ValueString
  match makeAPICall w r (Update.createSyncPayload name name (toLower name))
      (r.endpoint ++ "write") t with
  | (some err, t1) => ⟨t1, AddError [] "API Error" ("Error updating resource sync: " ++ err), none⟩
  | (none, t1) =>
  match makeAPICall w r (Update.runSyncPayload name) (r.endpoint ++ "execute") t1 with
  | (some err, t2) => ⟨t2, AddError [] "API Error" ("Error running sync: " ++ err), none⟩
  | (none, t2) =>
  match makeAPICall w r (Update.runProcedurePayload name) (r.endpoint ++ "execute") t2 with
  | (some err, t3) => ⟨t3, AddError [] "API Error" ("Error running procedure: " ++ err), none⟩
  | (none, t3) => ⟨t3, [], some state⟩

/-- `Update`, once the owner of the repository is known: the file, then the
three calls. -/
def Update.withOwner (w : World) (r : komodoResource) (state : KomodoModel) (owner : String)
    (t : List Event) : Response :=
  let generateSSHKeys :=
    if !state.GenerateSSHKeys.IsNull then state.GenerateSSHKeys.ValueBool else false
  match updateFileInRepository w (sanitizeRepoName state.Name.ValueString) owner
      state.FileContents.ValueString generateSSHKeys t with
  | (some err, t1) =>
    ⟨t1, AddError [] "GitHub Error" ("Error updating file in repository: " ++ err), none⟩
  | (none, t1) => Update.calls w r state t1

/-- `Update`.  `oldState` and `state` are the stored state and the plan, both
decoded without diagnostics.  Nothing is done unless the file contents are set
and differ from the stored ones. -/
def Update (w : World) (r : komodoResource) (oldState state : KomodoModel) : Response :=
  if !state.FileContents.IsNull && !(state.FileContents == oldState.FileContents) then
    if r.githubOrgname ≠ "" then
      Update.withOwner w r state r.githubOrgname []
    else
      match w.ghGetUser [] with
      | .error e =>
        ⟨[Event.ghGetUser], AddError [] "GitHub Error" ("Failed to get authenticated user: " ++ e),
          none⟩
      | .ok login => Update.withOwner w r state login [Event.ghGetUser]
  else
    ⟨[], [], some state⟩

/-! ## The provider configuration -/

/-- The provider configuration `KomodoProviderModel`. -/
structure KomodoProviderModel where
  Endpoint : TfString
  GithubToken : TfString
  GithubOrgname : TfString
  deriving DecidableEq, Repr

/-- The provider `KomodoProvider` without its HTTP client. -/
structure KomodoProvider where
  endpoint : String
  githubToken : String
  githubOrgname : String
  deriving DecidableEq, Repr

/-- `KomodoProvider.Configure`, the configuration decoded without diagnostics:
the endpoint gets a trailing slash when it has none. -/
def KomodoProvider.Configure (data : KomodoProviderModel) : KomodoProvider :=
  let endpoint := data.Endpoint.ValueString
  let endpoint := if !HasSuffix endpoint "/" then endpoint ++ "/" else endpoint
  ⟨endpoint, data.GithubToken.ValueString, data.GithubOrgname.ValueString⟩

/-- `komodoResource.Configure` on the data of a `KomodoProvider`.  The provider
struct of the source declares no key and no secret; they are parameters here. -/
def komodoResource.Configure (provider : KomodoProvider) (apiKey apiSecret : String) :
    komodoResource :=
  ⟨provider.endpoint, apiKey, apiSecret, provider.githubToken, provider.githubOrgname⟩

/-! ## Vocabulary of the specification -/

/-- The control-plane requests of a trace, each as its URL and body. -/
def requestsOf (t : List Event) : List (String × String) :=
  t.filterMap (fun e => match e with
    | .post q => some (q.url, q.payload)
    | _ => none)

/-- The repository deletions of a trace, each as owner and repository. -/
def repositoryDeletions (t : List Event) : List (String × String) :=
  t.filterMap (fun e => match e with
    | .ghDeleteRepo owner repo => some (owner, repo)
    | _ => none)

/-- The repository names the GitHub calls of a trace address. -/
def repositoryNames (t : List Event) : List String :=
  t.filterMap (fun e => match e with
    | .ghCreateRepo _ name => some name
    | .ghCreateKey _ repo _ _ _ => some repo
    | .ghGetRepo _ repo => some repo
    | .ghGetContents _ repo _ _ => some repo
    | .ghCreateFile _ repo _ _ _ _ _ => some repo
    | .ghDeleteRepo _ repo => some repo
    | _ => none)

/-- A control-plane document that names one entity: its operation `type` and
one parameter `key` holding `id`, laid out as the raw strings of the source
are, with `ind` the indentation of the closing brace. -/
def entityDocument (ind type key id : String) : String :=
  "\x7b\n" ++ ind ++ "\t\"type\": \"" ++ type ++ "\",\n" ++ ind ++ "\t\"params\": \x7b\n" ++
    ind ++ "\t\t\"" ++ key ++ "\": \"" ++ id ++ "\"\n" ++ ind ++ "\t\x7d\n" ++ ind ++ "\x7d"

/-- The steps of `Create` in the order of the source: the repository, then the
eight steps of the provisioning plan. -/
inductive Step where
  | createRepository
  | createServer
  | waitAvailable
  | enableServer
  | waitReady
  | createSyncA
  | runSyncA
  | runSyncB
  | runApply
  deriving DecidableEq, Repr

/-- The steps in execution order. -/
def Step.order : List Step :=
  [.createRepository, .createServer, .waitAvailable, .enableServer, .waitReady,
    .createSyncA, .runSyncA, .runSyncB, .runApply]

/-- The position of a step in the execution order. -/
def Step.index : Step → Nat
  | .createRepository => 0
  | .createServer => 1
  | .waitAvailable => 2
  | .enableServer => 3
  | .waitReady => 4
  | .createSyncA => 5
  | .runSyncA => 6
  | .runSyncB => 7
  | .runApply => 8

/-- The steps strictly before `st`. -/
def Step.before (st : Step) : List Step :=
  Step.order.take st.index

/-- The steps up to and including `st`. -/
def Step.through (st : Step) : List Step :=
  Step.order.take (st.index + 1)

/-- The compensation a step registers once it has succeeded, if it has one. -/
def Step.compensation : Step → Option CleanupTask
  | .createRepository => some .gitHubRepository
  | .createServer => some .server
  | .createSyncA => some .contextWareSync
  | .runSyncA => some .resourceSetupSync
  | .runSyncB => some .procedures
  | _ => none

/-- The compensations registered by the steps before `st`, in the order of
registration. -/
def Step.registeredBefore (st : Step) : List CleanupTask :=
  st.before.filterMap Step.compensation

/-- The error diagnostic `Create` adds when step `st` fails with `err`. -/
def Step.errorDiag : Step → String → Diag
  | .createRepository, err =>
    ⟨.error, "GitHub Error", "Error creating GitHub repository: " ++ err⟩
  | .createServer, err => ⟨.error, "API Error", "Error creating server: " ++ err⟩
  | .waitAvailable, err =>
    ⟨.error, "Server Error", "Error waiting for server to become available: " ++ err⟩
  | .enableServer, err => ⟨.error, "API Error", "Error enabling server: " ++ err⟩
  | .waitReady, err =>
    ⟨.error, "Server Error", "Error waiting for server to reach OK state: " ++ err⟩
  | .createSyncA, err =>
    ⟨.error, "API Error", "Error creating ContextWare resource sync: " ++ err⟩
  | .runSyncA, err => ⟨.error, "API Error", "Error running ContextWare sync: " ++ err⟩
  | .runSyncB, err => ⟨.error, "API Error", "Error running ResourceSetup sync: " ++ err⟩
  | .runApply, err => ⟨.error, "API Error", "Error running procedure: " ++ err⟩

/-- The control-plane requests of one step of `Create` for the plan, when the
first poller makes `n1` polls and the second `n2`. -/
def Step.requests (r : komodoResource) (plan : KomodoModel) (n1 n2 : Nat) :
    Step → List (String × String)
  | .createRepository => []
  | .createServer =>
    [(r.endpoint ++ "write", Create.createServerPayload
      ("server-" ++ toLower plan.Name.ValueString) plan.ServerIP.ValueString
      plan.Name.ValueString)]
  | .waitAvailable =>
    List.replicate n1 (r.endpoint ++ "read",
      entityDocument "\t\t" "GetServer" "server" ("server-" ++ toLower plan.Name.ValueString))
  | .enableServer =>
    [(r.endpoint ++ "write",
      Create.updateServerPayload ("server-" ++ toLower plan.Name.ValueString))]
  | .waitReady =>
    List.replicate n2 (r.endpoint ++ "read",
      entityDocument "\t\t" "GetServerState" "server"
        ("server-" ++ toLower plan.Name.ValueString))
  | .createSyncA =>
    [(r.endpoint ++ "write", Create.createContextWarePayload plan.Name.ValueString
      plan.Name.ValueString (toLower plan.Name.ValueString))]
  | .runSyncA =>
    [(r.endpoint ++ "execute",
      entityDocument "\t" "RunSync" "sync" (plan.Name.ValueString ++ "_ContextWare"))]
  | .runSyncB =>
    [(r.endpoint ++ "execute",
      entityDocument "\t" "RunSync" "sync" (plan.Name.ValueString ++ "_ResourceSetup"))]
  | .runApply =>
    [(r.endpoint ++ "execute",
      entityDocument "\t" "RunProcedure" "procedure"
        (plan.Name.ValueString ++ "_ProcedureApply"))]

/-- The events of `deleteGitHubRepository` after the trace `t`: the deletion
under the configured organisation, or the user lookup and, when it answers,
the deletion under that user. -/
def gitHubDeleteEvents (w : World) (r : komodoResource) (name : String) (t : List Event) :
    List Event :=
  if r.githubOrgname ≠ "" then
    [Event.ghDeleteRepo r.githubOrgname (sanitizeRepoName name ++ "_syncresources")]
  else
    match w.ghGetUser t with
    | .error _ => [Event.ghGetUser]
    | .ok owner =>
      [Event.ghGetUser, Event.ghDeleteRepo owner (sanitizeRepoName name ++ "_syncresources")]

/-- A delete request of a compensation: the write path and the entity. -/
def compensationPost (r : komodoResource) (type id : String) : Event :=
  Event.post ⟨r.endpoint ++ "write", entityDocument "\t\t" type "id" id, r.apiKey, r.apiSecret⟩

/-- The events one compensation performs when it runs after the trace `t`. -/
def CleanupTask.events (w : World) (r : komodoResource) (name : String) (t : List Event) :
    CleanupTask → List Event
  | .gitHubRepository => gitHubDeleteEvents w r name t
  | .server => [compensationPost r "DeleteServer" ("server-" ++ toLower name)]
  | .contextWareSync => [compensationPost r "DeleteResourceSync" (name ++ "_ContextWare")]
  | .resourceSetupSync => [compensationPost r "DeleteResourceSync" (name ++ "_ResourceSetup")]
  | .procedures =>
    [compensationPost r "DeleteProcedure" (name ++ "_ProcedureApply"),
      compensationPost r "DeleteProcedure" (name ++ "_ProcedureDestroy"),
      compensationPost r "DeleteProcedure" (name ++ "_ProcedureRestart")]

/-- The events of running the given compensations one after the other, each
exactly once, starting after the trace `t`. -/
def rollbackEvents (w : World) (r : komodoResource) (name : String) :
    List Event → List CleanupTask → List Event
  | _, [] => []
  | t, task :: rest =>
    task.events w r name t ++ rollbackEvents w r name (t ++ task.events w r name t) rest

/-- The events `c` are control-plane work only: their requests are `reqs`, in
this order, and no GitHub call is among them. -/
def Control (reqs : List (String × String)) (c : List Event) : Prop :=
  requestsOf c = reqs ∧ repositoryDeletions c = [] ∧ repositoryNames c = []

/-- What a poller or a retry loop adds to the trace: `k` posts of one request,
with sleeps between them, and no GitHub call. -/
def Polls (url payload : String) (k : Nat) (ev : List Event) : Prop :=
  Control (List.replicate k (url, payload)) ev

/-- What the repository set-up adds to the trace: no control-plane request, no
repository deletion, and GitHub calls on the repository `repo` only. -/
def Setup (repo : String) (ev : List Event) : Prop :=
  requestsOf ev = [] ∧ repositoryDeletions ev = [] ∧ ∀ n ∈ repositoryNames ev, n = repo

/-- How the body of `Create` can end.  Its trace is the repository set-up `g`
followed by control-plane work `c`; either no step failed, the plan is stored
and every compensation is registered, or some step `st` failed with `err`, its
error is the only diagnostic, the compensations of the steps before `st` are
registered, and the requests stop with those of `st`. -/
def Create.Ended (r : komodoResource) (plan : KomodoModel) (b : CreateRun) : Prop :=
  ∃ g c, b.trace = g ++ c ∧
    Setup (sanitizeRepoName plan.Name.ValueString ++ "_syncresources") g ∧
    ((b.diags = [] ∧ b.state = some plan ∧
        b.cleanupTasks = Step.order.filterMap Step.compensation ∧
        ∃ n1 n2, 1 ≤ n1 ∧ n1 ≤ 30 ∧ 1 ≤ n2 ∧ n2 ≤ 30 ∧
          Control (Step.order.flatMap (Step.requests r plan n1 n2)) c) ∨
      (∃ st err n1 n2, n1 ≤ 30 ∧ n2 ≤ 30 ∧ b.diags = [Step.errorDiag st err] ∧
        b.state = none ∧ b.cleanupTasks = Step.registeredBefore st ∧
        Control ((Step.through st).flatMap (Step.requests r plan n1 n2)) c))

/-! ## The teardown of the specification -/

/-- One step of a teardown plan: the call it makes, the events of the settle
delay after it, and the summary and description of the error diagnostic that
reports its failure. -/
structure TeardownStep where
  run : List Event → Option String × List Event
  settle : List Event
  summary : String
  what : String

/-- Best-effort execution as the specification words it: every step is
attempted, in order, whatever the earlier ones returned; a failure is recorded
as one error diagnostic and the next step follows.  The result is the final
trace and diagnostics, and what each step returned. -/
def attemptAll : List TeardownStep → Run → Run × List (Option String)
  | [], s => (s, [])
  | step :: rest, s =>
    let c := step.run s.trace
    let out := attemptAll rest
      ⟨c.2 ++ step.settle, reportError c.1 step.summary step.what s.diags⟩
    (out.1, c.1 :: out.2)

/-- The teardown plan of the specification for `name`: run the destroy
procedure, delete the three procedures, the two syncs, the server and the
repository. -/
def Delete.steps (w : World) (r : komodoResource) (name : String) : List TeardownStep :=
  [⟨makeAPICall w r (Delete.runDestroyPayload name) (r.endpoint ++ "execute"),
      [Event.sleep 5], "API Error", "Error running destroy procedure: "⟩,
    ⟨retryAPICall w r (Delete.deleteProcedureApplyPayload name) (r.endpoint ++ "write") 5,
      [Event.sleep 2], "API Error", "Error deleting apply procedure after retries: "⟩,
    ⟨retryAPICall w r (Delete.deleteProcedureDestroyPayload name) (r.endpoint ++ "write") 5,
      [Event.sleep 2], "API Error", "Error deleting destroy procedure after retries: "⟩,
    ⟨retryAPICall w r (Delete.deleteProcedureRestartPayload name) (r.endpoint ++ "write") 5,
      [Event.sleep 2], "API Error", "Error deleting restart procedure after retries: "⟩,
    ⟨retryAPICall w r (Delete.deleteResourceSetupSyncPayload name) (r.endpoint ++ "write") 5,
      [Event.sleep 2], "API Error", "Error deleting ResourceSetup sync after retries: "⟩,
    ⟨retryAPICall w r (Delete.deleteContextWareSyncPayload name) (r.endpoint ++ "write") 5,
      [], "API Error", "Error deleting ContextWare sync after retries: "⟩,
    ⟨retryAPICall w r (Delete.deleteServerPayload ("server-" ++ toLower name))
        (r.endpoint ++ "write") 3,
      [], "API Error", "Error deleting server after retries: "⟩,
    ⟨deleteGitHubRepository w r name, [], "GitHub Error", "Error deleting GitHub repository: "⟩]

/-- The six deletion calls `Delete` makes on the control plane. -/
inductive DeleteCall where
  | procedureApply
  | procedureDestroy
  | procedureRestart
  | resourceSetupSync
  | contextWareSync
  | server
  deriving DecidableEq, Repr

/-- The request of a deletion call for `name`. -/
def DeleteCall.request (r : komodoResource) (name : String) : DeleteCall → Request
  | .procedureApply =>
    ⟨r.endpoint ++ "write", Delete.deleteProcedureApplyPayload name, r.apiKey, r.apiSecret⟩
  | .procedureDestroy =>
    ⟨r.endpoint ++ "write", Delete.deleteProcedureDestroyPayload name, r.apiKey, r.apiSecret⟩
  | .procedureRestart =>
    ⟨r.endpoint ++ "write", Delete.deleteProcedureRestartPayload name, r.apiKey, r.apiSecret⟩
  | .resourceSetupSync =>
    ⟨r.endpoint ++ "write", Delete.deleteResourceSetupSyncPayload name, r.apiKey, r.apiSecret⟩
  | .contextWareSync =>
    ⟨r.endpoint ++ "write", Delete.deleteContextWareSyncPayload name, r.apiKey, r.apiSecret⟩
  | .server =>
    ⟨r.endpoint ++ "write", Delete.deleteServerPayload ("server-" ++ toLower name), r.apiKey,
      r.apiSecret⟩

/-- The retry budget `Delete` gives a deletion call. -/
def DeleteCall.budget : DeleteCall → Nat
  | .server => 3
  | _ => 5

/-- The description of the error diagnostic that reports a failed deletion call. -/
def DeleteCall.what : DeleteCall → String
  | .procedureApply => "Error deleting apply procedure after retries: "
  | .procedureDestroy => "Error deleting destroy procedure after retries: "
  | .procedureRestart => "Error deleting restart procedure after retries: "
  | .resourceSetupSync => "Error deleting ResourceSetup sync after retries: "
  | .contextWareSync => "Error deleting ContextWare sync after retries: "
  | .server => "Error deleting server after retries: "

/-- The error text of `makeAPICall` for a response whose status is not 200. -/
def nonOKText (resp : HttpResponse) : String :=
  "received non-OK HTTP status: " ++ resp.status ++ ", body: " ++ resp.body

/-- The definition of sync A that `Create` sends: a CreateResourceSync named
`syncName` whose file contents declare the resource sync `setupName` on the
repository `manidaecloud/<repo>`. -/
def contextWareDocument (syncName setupName repo : String) : String :=
  "\x7b\n\t\t\"type\": \"CreateResourceSync\",\n\t\t\"params\": \x7b\n\t\t\t\"name\": \"" ++
    syncName ++ "\",\n\t\t\t\"config\": \x7b\n\t\t\t\t\"file_contents\": \"[[resource_sync]]\\nname = \\\"" ++
    setupName ++ "\\\"\\n[resource_sync.config]\\nrepo = \\\"manidaecloud/" ++ repo ++
    "\\\"\\ngit_account = \\\"manidaecloud\\\"\\nresource_path = [\\\"resources.toml\\\"]\"\n\t\t\t\x7d\n\t\t\x7d\n\t\x7d"

/-- The derived identifiers of one resource. -/
structure EntityNames where
  server : String
  contextWare : String
  resourceSetup : String
  procedureApply : String
  procedureDestroy : String
  procedureRestart : String
  repository : String
  deriving DecidableEq, Repr

/-- The identifiers the code derives from `name`: the server id is
`server-` and the lower-cased name, the sync and procedure ids are the name
itself and a suffix, the repository is the sanitized name and a suffix. -/
def entityNames (name : String) : EntityNames where
  server := "server-" ++ toLower name
  contextWare := name ++ "_ContextWare"
  resourceSetup := name ++ "_ResourceSetup"
  procedureApply := name ++ "_ProcedureApply"
  procedureDestroy := name ++ "_ProcedureDestroy"
  procedureRestart := name ++ "_ProcedureRestart"
  repository := sanitizeRepoName name ++ "_syncresources"

/-- The control-plane documents of `Create` written over the identifiers `ids`:
the eight requests of the plan, then the six deletions of the compensations. -/
def Create.documents (r : komodoResource) (ids : EntityNames) (serverIP tag repoPath : String) :
    List (String × String) :=
  [(r.endpoint ++ "write", Create.createServerPayload ids.server serverIP tag),
    (r.endpoint ++ "read", entityDocument "\t\t" "GetServer" "server" ids.server),
    (r.endpoint ++ "write", Create.updateServerPayload ids.server),
    (r.endpoint ++ "read", entityDocument "\t\t" "GetServerState" "server" ids.server),
    (r.endpoint ++ "write", contextWareDocument ids.contextWare ids.resourceSetup repoPath),
    (r.endpoint ++ "execute", entityDocument "\t" "RunSync" "sync" ids.contextWare),
    (r.endpoint ++ "execute", entityDocument "\t" "RunSync" "sync" ids.resourceSetup),
    (r.endpoint ++ "execute", entityDocument "\t" "RunProcedure" "procedure" ids.procedureApply),
    (r.endpoint ++ "write", entityDocument "\t\t" "DeleteServer" "id" ids.server),
    (r.endpoint ++ "write", entityDocument "\t\t" "DeleteResourceSync" "id" ids.contextWare),
    (r.endpoint ++ "write", entityDocument "\t\t" "DeleteResourceSync" "id" ids.resourceSetup),
    (r.endpoint ++ "write", entityDocument "\t\t" "DeleteProcedure" "id" ids.procedureApply),
    (r.endpoint ++ "write", entityDocument "\t\t" "DeleteProcedure" "id" ids.procedureDestroy),
    (r.endpoint ++ "write", entityDocument "\t\t" "DeleteProcedure" "id" ids.procedureRestart)]

/-- The control-plane documents of `Delete` written over the identifiers `ids`. -/
def Delete.documents (r : komodoResource) (ids : EntityNames) : List (String × String) :=
  [(r.endpoint ++ "execute",
      entityDocument "\t" "RunProcedure" "procedure" ids.procedureDestroy),
    (r.endpoint ++ "write", entityDocument "\t" "DeleteProcedure" "id" ids.procedureApply),
    (r.endpoint ++ "write", entityDocument "\t" "DeleteProcedure" "id" ids.procedureDestroy),
    (r.endpoint ++ "write", entityDocument "\t" "DeleteProcedure" "id" ids.procedureRestart),
    (r.endpoint ++ "write", entityDocument "\t" "DeleteResourceSync" "id" ids.resourceSetup),
    (r.endpoint ++ "write", entityDocument "\t" "DeleteResourceSync" "id" ids.contextWare),
    (r.endpoint ++ "write", entityDocument "\t" "DeleteServer" "id" ids.server)]

/-- The entities a teardown deletes on the control plane, in the order of
`Delete`, each as the type of the deleting operation and the id. -/
def deletionOrder (name : String) : List (String × String) :=
  [("DeleteProcedure", name ++ "_ProcedureApply"),
    ("DeleteProcedure", name ++ "_ProcedureDestroy"),
    ("DeleteProcedure", name ++ "_ProcedureRestart"),
    ("DeleteResourceSync", name ++ "_ResourceSetup"),
    ("DeleteResourceSync", name ++ "_ContextWare"),
    ("DeleteServer", "server-" ++ toLower name)]

/-! ## Vocabulary of the request bodies: the lexical structure of JSON -/

/-- A token of a JSON text (RFC 8259): the six structural characters, a string
with its escapes decoded, or a scalar literal (a number, `true`, `false` or
`null`) as written. -/
inductive Token where
  | lbrace
  | rbrace
  | lbrack
  | rbrack
  | colon
  | comma
  | string (s : List Char)
  | scalar (s : List Char)
  deriving DecidableEq, Repr

/-- Where the reading of a JSON text stands: between tokens, inside a scalar
literal, inside a string, after a backslash in a string, inside the four hex
digits of a `\u` escape, or failed. -/
inductive LexMode where
  | outside
  | scalar (acc : List Char)
  | string (acc : List Char)
  | escape (acc : List Char)
  | unicode (acc : List Char) (hex : List Char)
  | failed
  deriving DecidableEq, Repr

/-- The tokens read so far and the mode. -/
structure LexState where
  tokens : List Token
  mode : LexMode
  deriving DecidableEq, Repr

/-- A character that may stand unescaped inside a JSON string: not the double
quote, not the backslash and not a control character. -/
def jsonPlain (c : Char) : Bool :=
  c != '"' && c != '\\' && decide (32 ≤ c.toNat)

/-- JSON whitespace. -/
def jsonSpace (c : Char) : Bool :=
  c == ' ' || c == '\t' || c == '\n' || c == '\r'

/-- The structural token a character stands for, if any. -/
def structural (c : Char) : Option Token :=
  if c = '\x7b' then some .lbrace
  else if c = '\x7d' then some .rbrace
  else if c = '[' then some .lbrack
  else if c = ']' then some .rbrack
  else if c = ':' then some .colon
  else if c = ',' then some .comma
  else none

/-- The characters of scalar literals: letters, digits, sign, point. -/
def scalarChar (c : Char) : Bool :=
  c.isAlphanum || c == '-' || c == '+' || c == '.'

/-- The character a two-character escape stands for. -/
def escapeChar (c : Char) : Option Char :=
  if c = '"' then some '"'
  else if c = '\\' then some '\\'
  else if c = '/' then some '/'
  else if c = 'b' then some (Char.ofNat 8)
  else if c = 'f' then some (Char.ofNat 12)
  else if c = 'n' then some '\n'
  else if c = 'r' then some '\r'
  else if c = 't' then some '\t'
  else none

/-- The value of a hex digit. -/
def hexDigit (c : Char) : Option Nat :=
  if '0' ≤ c ∧ c ≤ '9' then some (c.toNat - '0'.toNat)
  else if 'a' ≤ c ∧ c ≤ 'f' then some (c.toNat - 'a'.toNat + 10)
  else if 'A' ≤ c ∧ c ≤ 'F' then some (c.toNat - 'A'.toNat + 10)
  else none

/-- Reading one character between tokens. -/
def lexOutside (tokens : List Token) (c : Char) : LexState :=
  if jsonSpace c then ⟨tokens, .outside⟩
  else
    match structural c with
    | some token => ⟨tokens ++ [token], .outside⟩
    | none =>
      if c = '"' then ⟨tokens, .string []⟩
      else if scalarChar c then ⟨tokens, .scalar [c]⟩
      else ⟨tokens, .failed⟩

/-- Reading one character of a JSON text. -/
def lexStep (s : LexState) (c : Char) : LexState :=
  match s.mode with
  | .failed => s
  | .outside => lexOutside s.tokens c
  | .scalar acc =>
    if scalarChar c then ⟨s.tokens, .scalar (acc ++ [c])⟩
    else lexOutside (s.tokens ++ [.scalar acc]) c
  | .string acc =>
    if c = '"' then ⟨s.tokens ++ [.string acc], .outside⟩
    else if c = '\\' then ⟨s.tokens, .escape acc⟩
    else if c.toNat < 32 then ⟨s.tokens, .failed⟩
    else ⟨s.tokens, .string (acc ++ [c])⟩
  | .escape acc =>
    match escapeChar c with
    | some x => ⟨s.tokens, .string (acc ++ [x])⟩
    | none => if c = 'u' then ⟨s.tokens, .unicode acc []⟩ else ⟨s.tokens, .failed⟩
  | .unicode acc hex =>
    match hexDigit c with
    | none => ⟨s.tokens, .failed⟩
    | some _ =>
      if hex.length = 3 then
        ⟨s.tokens, .string (acc ++
          [Char.ofNat ((hex ++ [c]).foldl (fun n d => 16 * n + (hexDigit d).getD 0) 0)])⟩
      else ⟨s.tokens, .unicode acc (hex ++ [c])⟩

/-- The tokens of a JSON text; none when the text ends inside a string or
holds a character that no token allows. -/
def jsonTokens (text : String) : Option (List Token) :=
  match text.data.foldl lexStep ⟨[], .outside⟩ with
  | ⟨tokens, .outside⟩ => some tokens
  | ⟨tokens, .scalar acc⟩ => some (tokens ++ [.scalar acc])
  | _ => none

/-- The tokens of the document
`{"type": "CreateServer", "params": {"name": serverName, "config": {"address": address}, "tags": [tag]}}`. -/
def createServerTokens (serverName address tag : String) : List Token :=
  [.lbrace, .string "type".data, .colon, .string "CreateServer".data, .comma,
    .string "params".data, .colon, .lbrace,
    .string "name".data, .colon, .string serverName.data, .comma,
    .string "config".data, .colon, .lbrace, .string "address".data, .colon,
    .string address.data, .rbrace, .comma,
    .string "tags".data, .colon, .lbrack, .string tag.data, .rbrack, .rbrace, .rbrace]

/-! ## Vocabulary of the repository file -/

/-- A file read from left to right as environment sections with the text
around them: each part is the text before a section and the value of that
section, `last` is the text after the last section.  The file is each text
followed by `environment = """`, the value, `keys` and the closing triple
quote, and then `last`; the file as given has no keys. -/
def layout (keys : List Char) : List (List Char × List Char) → List Char → List Char
  | [], last => last
  | (text, value) :: rest, last =>
    text ++ envOpening ++ value ++ keys ++ ['"', '"', '"'] ++ layout keys rest last

/-- An environment section stands at the head of `cs`: the opening
`environment = """`, a value without a double quote, and the closing triple
quote. -/
def IsSectionAt (cs : List Char) : Prop :=
  ∃ value rest, '"' ∉ value ∧ cs = envOpening ++ value ++ ['"', '"', '"'] ++ rest

/-- No environment section begins inside `text` when `after` follows it. -/
def NoSectionStarts (text after : List Char) : Prop :=
  ∀ a c b, text = a ++ c :: b → ¬ IsSectionAt (c :: b ++ after)

/-- The parts and the last text are the reading of their file from left to
right: no section begins inside a text, and the value of a section holds no
double quote. -/
def WellRead : List (List Char × List Char) → List Char → Prop
  | [], last => NoSectionStarts last []
  | (text, value) :: rest, last =>
    NoSectionStarts text (envOpening ++ value ++ ['"', '"', '"'] ++ layout [] rest last) ∧
      '"' ∉ value ∧ WellRead rest last

/-! ## Vocabulary of the error reports -/

/-- The body and URL of the call a step of `Create` makes with `makeAPICall`;
none for the repository step and the two pollers. -/
def Step.call (r : komodoResource) (plan : KomodoModel) : Step → Option (String × String)
  | .createServer =>
    some (Create.createServerPayload ("server-" ++ toLower plan.Name.ValueString)
      plan.ServerIP.ValueString plan.Name.ValueString, r.endpoint ++ "write")
  | .enableServer =>
    some (Create.updateServerPayload ("server-" ++ toLower plan.Name.ValueString),
      r.endpoint ++ "write")
  | .createSyncA =>
    some (Create.createContextWarePayload plan.Name.ValueString plan.Name.ValueString
      (toLower plan.Name.ValueString), r.endpoint ++ "write")
  | .runSyncA => some (Create.runContextWarePayload plan.Name.ValueString, r.endpoint ++ "execute")
  | .runSyncB =>
    some (Create.runResourceSetupPayload plan.Name.ValueString, r.endpoint ++ "execute")
  | .runApply => some (Create.runProcedurePayload plan.Name.ValueString, r.endpoint ++ "execute")
  | _ => none

/-- The description with which `Create` reports the failure of a step. -/
def Step.what : Step → String
  | .createRepository => "Error creating GitHub repository: "
  | .createServer => "Error creating server: "
  | .waitAvailable => "Error waiting for server to become available: "
  | .enableServer => "Error enabling server: "
  | .waitReady => "Error waiting for server to reach OK state: "
  | .createSyncA => "Error creating ContextWare resource sync: "
  | .runSyncA => "Error running ContextWare sync: "
  | .runSyncB => "Error running ResourceSetup sync: "
  | .runApply => "Error running procedure: "

/-- The control-plane calls of `Delete` for `name`, in the order of the source:
the description with which a failure of the call is reported, the body and the
URL. -/
def Delete.operations (r : komodoResource) (name : String) : List (String × String × String) :=
  [("Error running destroy procedure: ", Delete.runDestroyPayload name, r.endpoint ++ "execute"),
    ("Error deleting apply procedure after retries: ", Delete.deleteProcedureApplyPayload name,
      r.endpoint ++ "write"),
    ("Error deleting destroy procedure after retries: ",
      Delete.deleteProcedureDestroyPayload name, r.endpoint ++ "write"),
    ("Error deleting restart procedure after retries: ",
      Delete.deleteProcedureRestartPayload name, r.endpoint ++ "write"),
    ("Error deleting ResourceSetup sync after retries: ",
      Delete.deleteResourceSetupSyncPayload name, r.endpoint ++ "write"),
    ("Error deleting ContextWare sync after retries: ",
      Delete.deleteContextWareSyncPayload name, r.endpoint ++ "write"),
    ("Error deleting server after retries: ",
      Delete.deleteServerPayload ("server-" ++ toLower name), r.endpoint ++ "write")]

/-- The requests of the events `events`, performed after the trace `before`,
that went out to the control plane: the posts whose request could be built
(`http.NewRequest` returned no error), each of which is one call of
`client.Do`. -/
def sentFrom (w : World) : List Event → List Event → List Request
  | _, [] => []
  | before, e :: rest =>
    (match e with
      | .post q =>
        match w.http before q with
        | .requestError _ => []
        | _ => [q]
      | _ => []) ++ sentFrom w (before ++ [e]) rest

/-- The requests of a trace that went out to the control plane. -/
def sentRequests (w : World) (t : List Event) : List Request :=
  sentFrom w [] t

/-! ## Vocabulary of the repository names -/

/-- The sanitized form of one character as the specification words it: a space
becomes a hyphen, a character of `[A-Za-z0-9\-_.]` is lower-cased, and every
other character is removed. -/
def sanitizeChar (c : Char) : Option Char :=
  if c = ' ' then some '-' else if keptChar c then some c.toLower else none

/-- The characters `[a-z0-9\-_.]`. -/
def lowerKeptChar (c : Char) : Bool :=
  ('a' ≤ c && c ≤ 'z') || ('0' ≤ c && c ≤ '9') || c == '-' || c == '_' || c == '.'

/-! ## Vocabulary of the retry policy and of the pollers -/

/-- The sleeps of a trace, each as its seconds. -/
def sleepsOf (t : List Event) : List Nat :=
  t.filterMap (fun e => match e with
    | .sleep seconds => some seconds
    | _ => none)

/-- The trace after `k` attempts of `retryAPICall` on the request `q` that all
failed with the transient error, from loop counter `i` and trace `t` on: every
such attempt is the post followed by its backoff sleep. -/
def retryHistory (w : World) (q : Request) : Nat → Nat → List Event → List Event
  | _, 0, t => t
  | i, k + 1, t =>
    retryHistory w q (i + 1) k
      (t ++ [Event.post q] ++ [Event.sleep (3 * (i + 1) + w.randIntn (t ++ [Event.post q]) % 3)])

/-- The two readiness pollers of the source. -/
inductive Poller where
  | availability
  | stateEnabled
  deriving DecidableEq, Repr

/-- The poller as a function: `waitForServerAvailability` or
`waitForServerStateEnabled`. -/
def Poller.wait (p : Poller) (w : World) (r : komodoResource) (serverName : String)
    (maxAttempts sleepDuration : Nat) (t : List Event) : Option String × List Event :=
  match p with
  | .availability => waitForServerAvailability w r serverName maxAttempts sleepDuration t
  | .stateEnabled => waitForServerStateEnabled w r serverName maxAttempts sleepDuration t

/-- The loop of a poller with `remaining` attempts left. -/
def Poller.loop (p : Poller) (w : World) (r : komodoResource) (serverName : String)
    (maxAttempts sleepDuration remaining : Nat) (t : List Event) : Option String × List Event :=
  match p with
  | .availability =>
    waitForServerAvailabilityLoop w r serverName maxAttempts sleepDuration remaining t
  | .stateEnabled =>
    waitForServerStateEnabledLoop w r serverName maxAttempts sleepDuration remaining t

/-- The request a poller posts on every attempt. -/
def Poller.request (p : Poller) (r : komodoResource) (serverName : String) : Request :=
  match p with
  | .availability => ⟨r.endpoint ++ "read", getServerPayload serverName, r.apiKey, r.apiSecret⟩
  | .stateEnabled =>
    ⟨r.endpoint ++ "read", getServerStatePayload serverName, r.apiKey, r.apiSecret⟩

/-- The readiness test a poller applies to the decoded body. -/
def Poller.isReady : Poller → List (String × JsonValue) → Bool
  | .availability => hasConfigAddress
  | .stateEnabled => hasStatusOk

/-- The error a poller returns when its attempts are used up. -/
def Poller.timeoutError (p : Poller) (serverName : String) (maxAttempts : Nat) : String :=
  match p with
  | .availability =>
    "server " ++ serverName ++ " did not become available after " ++ toString maxAttempts ++
      " attempts"
  | .stateEnabled =>
    "server " ++ serverName ++ " did not reach OK state after " ++ toString maxAttempts ++
      " attempts"

/-- The readiness predicate of the specification, read off one attempt of a
poller: `ok true` when the attempt finds the server ready, `ok false` when it
does not (a transport failure, a status other than 200, or a decoded body that
fails the test), and an error when the request cannot be built or the body of
a 200 response cannot be read or decoded. -/
def Poller.verdict (p : Poller) (w : World) : CallOutcome → Except String Bool
  | .requestError e => .error ("error creating request: " ++ e)
  | .transportError _ => .ok false
  | .response resp =>
    if resp.statusCode = 200 then
      match resp.readErr with
      | some e => .error ("error reading response body: " ++ e)
      | none =>
        match w.jsonUnmarshal resp.body with
        | .error e => .error ("error parsing response: " ++ e)
        | .ok result => .ok (p.isReady result)
    else
      .ok false

/-- The trace after `j` attempts of a poller that all found the server not
ready: every such attempt is the post followed by the sleep of the interval. -/
def pollHistory (q : Request) (sleepDuration : Nat) : Nat → List Event → List Event
  | 0, t => t
  | j + 1, t => pollHistory q sleepDuration j (t ++ [Event.post q] ++ [Event.sleep sleepDuration])

/-! ## Sample runs -/

/-- A world in which every call succeeds: each request is answered `200 OK`,
each poll finds the server configured and in state `Ok`, and GitHub accepts
every call. -/
def calmWorld : World where
  http := fun _ _ => .response ⟨200, "200 OK", "", none⟩
  jsonUnmarshal := fun _ =>
    .ok [("config", .object [("address", .string "https://10.0.0.5:8120")]),
      ("status", .string "Ok")]
  randIntn := fun _ => 0
  unixNow := fun _ => 0
  keyMaterial := fun _ => .keys "PRIVATE" "ssh-ed25519 PUBLIC"
  ghCreateRepo := fun _ _ _ => none
  ghGetUser := fun _ => .ok "octocat"
  ghCreateKey := fun _ _ _ _ _ _ => none
  ghGetRepo := fun _ _ _ => .ok (some "main")
  ghCreateFile := fun _ _ _ _ _ _ _ _ => none
  ghDeleteRepo := fun _ _ _ => none

/-- A provider configured with an organisation. -/
def demoResource : komodoResource :=
  ⟨"https://komodo.example/", "key", "secret", "token", "manidaecloud"⟩

/-- The desired state `name: "demo", nodeAddress: "10.0.0.5"` of the
end-to-end scenario. -/
def demoPlan : KomodoModel :=
  ⟨.value "1", .value "demo", .null, .value "10.0.0.5", .null⟩

/-- The calm world, except that the control plane refuses to create sync A. -/
def syncAFailsWorld : World :=
  { calmWorld with
    http := fun _ q =>
      if q.payload = Create.createContextWarePayload "demo" "demo" "demo" then
        .response ⟨500, "500 Internal Server Error", "boom", none⟩
      else
        .response ⟨200, "200 OK", "", none⟩ }

/-- The calm world, except that the control plane refuses to run sync B and,
during the rollback, refuses to delete sync A. -/
def cleanupFailsWorld : World :=
  { calmWorld with
    http := fun _ q =>
      if q.payload = Create.runResourceSetupPayload "demo" then
        .response ⟨500, "500 Internal Server Error", "no such sync", none⟩
      else if q.payload = Create.deleteContextWareSyncPayload "demo" then
        .response ⟨500, "500 Internal Server Error", "sync in use", none⟩
      else
        .response ⟨200, "200 OK", "", none⟩ }

/-- The calm world, except that GitHub refuses to create the file in the new
repository. -/
def fileFailsWorld : World :=
  { calmWorld with ghCreateFile := fun _ _ _ _ _ _ _ _ => some "422 Unprocessable Entity" }

/-- The plan `demo` with contents for `resources.toml`. -/
def filePlan : KomodoModel :=
  ⟨.value "1", .value "demo", .value "[[stack]]", .value "10.0.0.5", .null⟩

/-- A control plane on which nothing exists any more: every request is
answered `404 Not Found`. -/
def goneWorld : World :=
  { calmWorld with http := fun _ _ => .response ⟨404, "404 Not Found", "not found", none⟩ }

/-- The stored state of a resource named `Demo`. -/
def upperPlan : KomodoModel :=
  ⟨.value "1", .value "Demo", .null, .value "10.0.0.5", .null⟩

/-- A stored state with the name of `demoPlan` and every other attribute
different. -/
def otherDemoState : KomodoModel :=
  ⟨.value "42", .value "demo", .value "[[stack]]", .value "192.168.1.9", .value true⟩

/-- A control plane on which every procedure is busy: every request is
answered with status 500 and the text `Procedure busy`. -/
def busyWorld : World :=
  { calmWorld with
    http := fun _ _ => .response ⟨500, "500 Internal Server Error", "Procedure busy", none⟩ }

/-- The calm world, except that the deletion of the apply procedure of `demo`
is answered `Procedure busy` the first two times it is asked. -/
def busyTwiceWorld : World :=
  { calmWorld with
    http := fun t q =>
      if q.payload = Delete.deleteProcedureApplyPayload "demo" ∧
          (requestsOf t).count (q.url, q.payload) < 2 then
        .response ⟨500, "500 Internal Server Error", "Procedure busy", none⟩
      else
        .response ⟨200, "200 OK", "", none⟩ }

/-- A control plane whose server is ready from the third poll on: the first two
answers decode to an object without the members the pollers look for. -/
def readyThirdWorld : World :=
  { calmWorld with
    http := fun t _ =>
      .response ⟨200, "200 OK", if (requestsOf t).length < 2 then "pending" else "ready", none⟩
    jsonUnmarshal := fun body =>
      if body = "ready" then
        .ok [("config", .object [("address", .string "https://10.0.0.5:8120")]),
          ("status", .string "Ok")]
      else
        .ok [] }

/-- A control plane whose server never gets ready: every answer is `200 OK`
with an object that lacks the members the pollers look for. -/
def neverReadyWorld : World :=
  { calmWorld with jsonUnmarshal := fun _ => .ok [] }

/-- A control plane behind a proxy that answers `200 OK` with an HTML page:
the body is not JSON. -/
def malformedWorld : World :=
  { calmWorld with
    http := fun _ _ => .response ⟨200, "200 OK", "<html>", none⟩
    jsonUnmarshal := fun _ => .error "invalid character '<' looking for beginning of value" }

/-- A provider configured with neither API key nor API secret. -/
def keylessResource : komodoResource :=
  ⟨"https://komodo.example/", "", "", "token", "manidaecloud"⟩

/-- A plan whose name has no character that `sanitizeRepoName` keeps. -/
def strippedPlan : KomodoModel :=
  ⟨.value "1", .value "!!!", .null, .value "10.0.0.5", .null⟩

/-- The contents of a `resources.toml` with one stack and one environment
section. -/
def stackToml : String :=
  "[[stack]]\nname = \"demo\"\n[stack.config]\nenvironment = \"\"\"\nA=1\n\"\"\"\n"

/-- The calm world with a repository whose `resources.toml` is `stackToml`
with the keys `PRIVATE` and `ssh-ed25519 PUBLIC` added, as
`createGitHubRepository` wrote it. -/
def keyedWorld : World :=
  { calmWorld with
    ghGetContents := fun _ _ _ _ _ =>
      .file (.ok (addSSHKeysToFileContents stackToml "PRIVATE" "ssh-ed25519 PUBLIC"))
        (some "3b18e512") }

/-- The calm world, except that the control plane refuses to run the apply
procedure. -/
def applyFailsWorld : World :=
  { calmWorld with
    http := fun _ q =>
      if q.payload = Create.runProcedurePayload "demo" then
        .response ⟨500, "500 Internal Server Error", "procedure failed", none⟩
      else
        .response ⟨200, "200 OK", "", none⟩ }

/-- A plan whose name holds double quotes. -/
def quotedPlan : KomodoModel :=
  ⟨.value "1", .value "my \"demo\"", .null, .value "10.0.0.5", .null⟩

/-- A plan whose name ends with a backslash. -/
def backslashPlan : KomodoModel :=
  ⟨.value "1", .value "demo\\", .null, .value "10.0.0.5", .null⟩

/-- The contents `stackToml` read as text and sections: the text up to the
environment section, the value of the section, and the newline after it. -/
def stackTomlParts : List (List Char × List Char) :=
  [("[[stack]]\nname = \"demo\"\n[stack.config]\n".data, "\nA=1\n".data)]

/-- A provider whose endpoint holds a space. -/
def spacedResource : komodoResource :=
  ⟨"https://komodo example/", "key", "secret", "token", "manidaecloud"⟩

/-- The calm world with the URL parser of `http.NewRequest`: no request can be
built for a URL that holds a space. -/
def spacedWorld : World :=
  { calmWorld with
    http := fun _ q =>
      if ' ' ∈ q.url.data then
        .requestError ("parse \"" ++ q.url ++ "\": invalid character \" \" in host name")
      else
        .response ⟨200, "200 OK", "", none⟩ }

/-- A plan whose name holds letters outside ASCII. -/
def ecolePlan : KomodoModel :=
  ⟨.value "1", .value "ÉCOLE", .null, .value "10.0.0.5", .null⟩

/-! ## The payloads as entity documents -/

theorem create_deleteServerPayload_eq (id : String) :
    Create.deleteServerPayload id = entityDocument "\t\t" "DeleteServer" "id" id := by
  apply String.ext
  simp [Create.deleteServerPayload, entityDocument, String.data_append]

theorem create_deleteContextWareSyncPayload_eq (name : String) :
    Create.deleteContextWareSyncPayload name =
      entityDocument "\t\t" "DeleteResourceSync" "id" (name ++ "_ContextWare") := by
  apply String.ext
  simp [Create.deleteContextWareSyncPayload, entityDocument, String.data_append]

theorem create_deleteResourceSetupSyncPayload_eq (name : String) :
    Create.deleteResourceSetupSyncPayload name =
      entityDocument "\t\t" "DeleteResourceSync" "id" (name ++ "_ResourceSetup") := by
  apply String.ext
  simp [Create.deleteResourceSetupSyncPayload, entityDocument, String.data_append]

theorem create_deleteProcedureApplyPayload_eq (name : String) :
    Create.deleteProcedureApplyPayload name =
      entityDocument "\t\t" "DeleteProcedure" "id" (name ++ "_ProcedureApply") := by
  apply String.ext
  simp [Create.deleteProcedureApplyPayload, entityDocument, String.data_append]

theorem create_deleteProcedureDestroyPayload_eq (name : String) :
    Create.deleteProcedureDestroyPayload name =
      entityDocument "\t\t" "DeleteProcedure" "id" (name ++ "_ProcedureDestroy") := by
  apply String.ext
  simp [Create.deleteProcedureDestroyPayload, entityDocument, String.data_append]

theorem create_deleteProcedureRestartPayload_eq (name : String) :
    Create.deleteProcedureRestartPayload name =
      entityDocument "\t\t" "DeleteProcedure" "id" (name ++ "_ProcedureRestart") := by
  apply String.ext
  simp [Create.deleteProcedureRestartPayload, entityDocument, String.data_append]

theorem create_runContextWarePayload_eq (name : String) :
    Create.runContextWarePayload name =
      entityDocument "\t" "RunSync" "sync" (name ++ "_ContextWare") := by
  apply String.ext
  simp [Create.runContextWarePayload, entityDocument, String.data_append]

theorem create_runResourceSetupPayload_eq (name : String) :
    Create.runResourceSetupPayload name =
      entityDocument "\t" "RunSync" "sync" (name ++ "_ResourceSetup") := by
  apply String.ext
  simp [Create.runResourceSetupPayload, entityDocument, String.data_append]

theorem create_runProcedurePayload_eq (name : String) :
    Create.runProcedurePayload name =
      entityDocument "\t" "RunProcedure" "procedure" (name ++ "_ProcedureApply") := by
  apply String.ext
  simp [Create.runProcedurePayload, entityDocument, String.data_append]

theorem getServerPayload_eq (id : String) :
    getServerPayload id = entityDocument "\t\t" "GetServer" "server" id := by
  apply String.ext
  simp [getServerPayload, entityDocument, String.data_append]

theorem getServerStatePayload_eq (id : String) :
    getServerStatePayload id = entityDocument "\t\t" "GetServerState" "server" id := by
  apply String.ext
  simp [getServerStatePayload, entityDocument, String.data_append]

theorem delete_runDestroyPayload_eq (name : String) :
    Delete.runDestroyPayload name =
      entityDocument "\t" "RunProcedure" "procedure" (name ++ "_ProcedureDestroy") := by
  apply String.ext
  simp [Delete.runDestroyPayload, entityDocument, String.data_append]

theorem delete_deleteProcedureApplyPayload_eq (name : String) :
    Delete.deleteProcedureApplyPayload name =
      entityDocument "\t" "DeleteProcedure" "id" (name ++ "_ProcedureApply") := by
  apply String.ext
  simp [Delete.deleteProcedureApplyPayload, entityDocument, String.data_append]

theorem delete_deleteProcedureDestroyPayload_eq (name : String) :
    Delete.deleteProcedureDestroyPayload name =
      entityDocument "\t" "DeleteProcedure" "id" (name ++ "_ProcedureDestroy") := by
  apply String.ext
  simp [Delete.deleteProcedureDestroyPayload, entityDocument, String.data_append]

theorem delete_deleteProcedureRestartPayload_eq (name : String) :
    Delete.deleteProcedureRestartPayload name =
      entityDocument "\t" "DeleteProcedure" "id" (name ++ "_ProcedureRestart") := by
  apply String.ext
  simp [Delete.deleteProcedureRestartPayload, entityDocument, String.data_append]

theorem delete_deleteResourceSetupSyncPayload_eq (name : String) :
    Delete.deleteResourceSetupSyncPayload name =
      entityDocument "\t" "DeleteResourceSync" "id" (name ++ "_ResourceSetup") := by
  apply String.ext
  simp [Delete.deleteResourceSetupSyncPayload, entityDocument, String.data_append]

theorem delete_deleteContextWareSyncPayload_eq (name : String) :
    Delete.deleteContextWareSyncPayload name =
      entityDocument "\t" "DeleteResourceSync" "id" (name ++ "_ContextWare") := by
  apply String.ext
  simp [Delete.deleteContextWareSyncPayload, entityDocument, String.data_append]

theorem delete_deleteServerPayload_eq (id : String) :
    Delete.deleteServerPayload id = entityDocument "\t" "DeleteServer" "id" id := by
  apply String.ext
  simp [Delete.deleteServerPayload, entityDocument, String.data_append]

/-! ## Traces of the primitives -/

theorem requestsOf_append (a b : List Event) :
    requestsOf (a ++ b) = requestsOf a ++ requestsOf b := by
  simp [requestsOf, List.filterMap_append]

theorem repositoryDeletions_append (a b : List Event) :
    repositoryDeletions (a ++ b) = repositoryDeletions a ++ repositoryDeletions b := by
  simp [repositoryDeletions, List.filterMap_append]

theorem repositoryNames_append (a b : List Event) :
    repositoryNames (a ++ b) = repositoryNames a ++ repositoryNames b := by
  simp [repositoryNames, List.filterMap_append]

theorem makeAPICall_trace (w : World) (r : komodoResource) (payload url : String)
    (t : List Event) :
    (makeAPICall w r payload url t).2 = t ++ [Event.post ⟨url, payload, r.apiKey, r.apiSecret⟩] := by
  unfold makeAPICall
  dsimp only
  split
  · rfl
  · rfl
  · split <;> rfl

theorem polls_nil (url payload : String) : Polls url payload 0 [] := by
  simp [Polls, Control, requestsOf, repositoryDeletions, repositoryNames]

theorem polls_one (url payload key secret : String) :
    Polls url payload 1 [Event.post ⟨url, payload, key, secret⟩] := by
  simp [Polls, Control, requestsOf, repositoryDeletions, repositoryNames]

theorem polls_cons_sleep (url payload key secret : String) (d k : Nat) (ev : List Event)
    (h : Polls url payload k ev) :
    Polls url payload (k + 1) ([Event.post ⟨url, payload, key, secret⟩] ++ [Event.sleep d] ++ ev) := by
  obtain ⟨h1, h2, h3⟩ := h
  refine ⟨?_, ?_, ?_⟩
  · rw [requestsOf_append, h1]
    simp [requestsOf, List.replicate_succ]
  · rw [repositoryDeletions_append, h2]
    simp [repositoryDeletions]
  · rw [repositoryNames_append, h3]
    simp [repositoryNames]

theorem waitForServerAvailabilityLoop_trace (w : World) (r : komodoResource) (serverName : String)
    (maxAttempts sleepDuration : Nat) (n : Nat) (t : List Event) :
    ∃ ev k, (waitForServerAvailabilityLoop w r serverName maxAttempts sleepDuration n t).2 = t ++ ev ∧
      k ≤ n ∧ Polls (r.endpoint ++ "read") (getServerPayload serverName) k ev ∧
      ((waitForServerAvailabilityLoop w r serverName maxAttempts sleepDuration n t).1 = none →
        1 ≤ k) := by
  induction n generalizing t with
  | zero =>
    exact ⟨[], 0, by simp [waitForServerAvailabilityLoop], le_refl _, polls_nil _ _,
      by simp [waitForServerAvailabilityLoop]⟩
  | succ n ih =>
    have hrec : ∀ t1 : List Event,
        t1 = t ++ [Event.post ⟨r.endpoint ++ "read", getServerPayload serverName, r.apiKey,
          r.apiSecret⟩] ++ [Event.sleep sleepDuration] →
        ∃ ev k, (waitForServerAvailabilityLoop w r serverName maxAttempts sleepDuration n t1).2 =
            t ++ ev ∧ k ≤ n + 1 ∧ Polls (r.endpoint ++ "read") (getServerPayload serverName) k ev ∧
          ((waitForServerAvailabilityLoop w r serverName maxAttempts sleepDuration n t1).1 = none →
            1 ≤ k) := by
      intro t1 ht1
      obtain ⟨ev, k, h1, h2, h3, _⟩ := ih t1
      refine ⟨_, k + 1, ?_, by omega, polls_cons_sleep _ _ r.apiKey r.apiSecret sleepDuration k ev h3,
        fun _ => by omega⟩
      rw [h1, ht1]
      simp [List.append_assoc]
    have hstop : ∀ res : Option String,
        ∃ ev k, (res, t ++ [Event.post ⟨r.endpoint ++ "read", getServerPayload serverName,
            r.apiKey, r.apiSecret⟩]).2 = t ++ ev ∧ k ≤ n + 1 ∧
          Polls (r.endpoint ++ "read") (getServerPayload serverName) k ev ∧
          ((res, t ++ [Event.post ⟨r.endpoint ++ "read", getServerPayload serverName,
            r.apiKey, r.apiSecret⟩]).1 = none → 1 ≤ k) := by
      intro res
      exact ⟨_, 1, rfl, by omega, polls_one _ _ _ _, fun _ => le_refl _⟩
    unfold waitForServerAvailabilityLoop
    dsimp only
    split
    · exact hstop _
    · exact hrec _ rfl
    · split
      · split
        · exact hstop _
        · split
          · exact hstop _
          · split
            · exact hstop _
            · exact hrec _ rfl
      · exact hrec _ rfl

theorem waitForServerStateEnabledLoop_trace (w : World) (r : komodoResource) (serverName : String)
    (maxAttempts sleepDuration : Nat) (n : Nat) (t : List Event) :
    ∃ ev k, (waitForServerStateEnabledLoop w r serverName maxAttempts sleepDuration n t).2 = t ++ ev ∧
      k ≤ n ∧ Polls (r.endpoint ++ "read") (getServerStatePayload serverName) k ev ∧
      ((waitForServerStateEnabledLoop w r serverName maxAttempts sleepDuration n t).1 = none →
        1 ≤ k) := by
  induction n generalizing t with
  | zero =>
    exact ⟨[], 0, by simp [waitForServerStateEnabledLoop], le_refl _, polls_nil _ _,
      by simp [waitForServerStateEnabledLoop]⟩
  | succ n ih =>
    have hrec : ∀ t1 : List Event,
        t1 = t ++ [Event.post ⟨r.endpoint ++ "read", getServerStatePayload serverName, r.apiKey,
          r.apiSecret⟩] ++ [Event.sleep sleepDuration] →
        ∃ ev k, (waitForServerStateEnabledLoop w r serverName maxAttempts sleepDuration n t1).2 =
            t ++ ev ∧ k ≤ n + 1 ∧ Polls (r.endpoint ++ "read") (getServerStatePayload serverName) k ev ∧
          ((waitForServerStateEnabledLoop w r serverName maxAttempts sleepDuration n t1).1 = none →
            1 ≤ k) := by
      intro t1 ht1
      obtain ⟨ev, k, h1, h2, h3, _⟩ := ih t1
      refine ⟨_, k + 1, ?_, by omega, polls_cons_sleep _ _ r.apiKey r.apiSecret sleepDuration k ev h3,
        fun _ => by omega⟩
      rw [h1, ht1]
      simp [List.append_assoc]
    have hstop : ∀ res : Option String,
        ∃ ev k, (res, t ++ [Event.post ⟨r.endpoint ++ "read", getServerStatePayload serverName,
            r.apiKey, r.apiSecret⟩]).2 = t ++ ev ∧ k ≤ n + 1 ∧
          Polls (r.endpoint ++ "read") (getServerStatePayload serverName) k ev ∧
          ((res, t ++ [Event.post ⟨r.endpoint ++ "read", getServerStatePayload serverName,
            r.apiKey, r.apiSecret⟩]).1 = none → 1 ≤ k) := by
      intro res
      exact ⟨_, 1, rfl, by omega, polls_one _ _ _ _, fun _ => le_refl _⟩
    unfold waitForServerStateEnabledLoop
    dsimp only
    split
    · exact hstop _
    · exact hrec _ rfl
    · split
      · split
        · exact hstop _
        · split
          · exact hstop _
          · split
            · exact hstop _
            · exact hrec _ rfl
      · exact hrec _ rfl

theorem waitForServerAvailability_trace (w : World) (r : komodoResource) (serverName : String)
    (maxAttempts sleepDuration : Nat) (t : List Event) :
    ∃ ev k, (waitForServerAvailability w r serverName maxAttempts sleepDuration t).2 = t ++ ev ∧
      k ≤ maxAttempts ∧ Polls (r.endpoint ++ "read") (getServerPayload serverName) k ev ∧
      ((waitForServerAvailability w r serverName maxAttempts sleepDuration t).1 = none → 1 ≤ k) :=
  waitForServerAvailabilityLoop_trace w r serverName maxAttempts sleepDuration maxAttempts t

theorem waitForServerStateEnabled_trace (w : World) (r : komodoResource) (serverName : String)
    (maxAttempts sleepDuration : Nat) (t : List Event) :
    ∃ ev k, (waitForServerStateEnabled w r serverName maxAttempts sleepDuration t).2 = t ++ ev ∧
      k ≤ maxAttempts ∧ Polls (r.endpoint ++ "read") (getServerStatePayload serverName) k ev ∧
      ((waitForServerStateEnabled w r serverName maxAttempts sleepDuration t).1 = none → 1 ≤ k) :=
  waitForServerStateEnabledLoop_trace w r serverName maxAttempts sleepDuration maxAttempts t

theorem retryAPICallLoop_trace (w : World) (r : komodoResource) (payload url : String)
    (n i : Nat) (lastErr : Option String) (t : List Event) :
    ∃ ev k, (retryAPICallLoop w r payload url n i lastErr t).2 = t ++ ev ∧ k ≤ n ∧
      (0 < n → 1 ≤ k) ∧ Polls url payload k ev := by
  induction n generalizing i lastErr t with
  | zero =>
    exact ⟨[], 0, by simp [retryAPICallLoop], le_refl _, fun h => absurd h (by omega),
      polls_nil _ _⟩
  | succ n ih =>
    have htr := makeAPICall_trace w r payload url t
    rcases hc : makeAPICall w r payload url t with ⟨res, t1⟩
    rw [hc] at htr
    dsimp only at htr
    subst htr
    unfold retryAPICallLoop
    rw [hc]
    cases res with
    | none =>
      exact ⟨_, 1, rfl, by omega, fun _ => le_refl _, polls_one _ _ _ _⟩
    | some err =>
      dsimp only
      split
      · obtain ⟨ev, k, h1, h2, _, h4⟩ := ih (i + 1) (some err)
          (t ++ [Event.post ⟨url, payload, r.apiKey, r.apiSecret⟩] ++
            [Event.sleep (3 * (i + 1) + w.randIntn
              (t ++ [Event.post ⟨url, payload, r.apiKey, r.apiSecret⟩]) % 3)])
        refine ⟨_, k + 1, ?_, by omega, fun _ => by omega,
          polls_cons_sleep _ _ r.apiKey r.apiSecret (3 * (i + 1) + w.randIntn
              (t ++ [Event.post ⟨url, payload, r.apiKey, r.apiSecret⟩]) % 3) k ev h4⟩
        rw [h1]
        simp [List.append_assoc]
      · exact ⟨_, 1, rfl, by omega, fun _ => le_refl _, polls_one _ _ _ _⟩

theorem retryAPICall_trace (w : World) (r : komodoResource) (payload url : String)
    (maxRetries : Nat) (t : List Event) :
    ∃ ev k, (retryAPICall w r payload url maxRetries t).2 = t ++ ev ∧ k ≤ maxRetries ∧
      (0 < maxRetries → 1 ≤ k) ∧ Polls url payload k ev :=
  retryAPICallLoop_trace w r payload url maxRetries 0 none t

/-! ## Traces of the source-control collaborator -/

theorem setup_nil (repo : String) : Setup repo [] := by
  simp [Setup, requestsOf, repositoryDeletions, repositoryNames]

theorem setup_append {repo : String} {a b : List Event} (ha : Setup repo a) (hb : Setup repo b) :
    Setup repo (a ++ b) := by
  obtain ⟨a1, a2, a3⟩ := ha
  obtain ⟨b1, b2, b3⟩ := hb
  refine ⟨by rw [requestsOf_append, a1, b1]; rfl,
    by rw [repositoryDeletions_append, a2, b2]; rfl, ?_⟩
  intro n hn
  rw [repositoryNames_append, List.mem_append] at hn
  rcases hn with hn | hn
  · exact a3 n hn
  · exact b3 n hn

theorem generateSSHKeyPair_trace (w : World) (t : List Event) :
    (generateSSHKeyPair w t).2 = t ++ [Event.generateKey] := by
  unfold generateSSHKeyPair
  dsimp only
  split <;> rfl

theorem uploadDeployKey_trace (w : World) (owner repoName publicKey title : String)
    (readOnly : Bool) (t : List Event) :
    (uploadDeployKey w owner repoName publicKey title readOnly t).2 =
      t ++ [Event.ghCreateKey owner repoName publicKey title readOnly] := by
  unfold uploadDeployKey
  dsimp only
  split <;> rfl

theorem createRepositoryFile_trace (w : World) (repoOwner sanitizedName fileContents : String)
    (generateSSHKeys : Bool) (privateKey publicKey : String) (t : List Event) :
    ∃ ev, (createRepositoryFile w repoOwner sanitizedName fileContents generateSSHKeys
        privateKey publicKey t).2 = t ++ ev ∧ Setup sanitizedName ev := by
  unfold createRepositoryFile
  split
  · dsimp only
    split
    · exact ⟨[_], rfl, by simp [Setup, requestsOf, repositoryDeletions, repositoryNames]⟩
    · split
      · exact ⟨_, by rw [List.append_assoc],
          by simp [Setup, requestsOf, repositoryDeletions, repositoryNames]⟩
      · exact ⟨_, by rw [List.append_assoc],
          by simp [Setup, requestsOf, repositoryDeletions, repositoryNames]⟩
  · exact ⟨[], by simp, setup_nil _⟩

theorem createRepositoryKeys_trace (w : World) (repoOwner sanitizedName fileContents : String)
    (generateSSHKeys : Bool) (t : List Event) :
    ∃ ev, (createRepositoryKeys w repoOwner sanitizedName fileContents generateSSHKeys t).2 =
        t ++ ev ∧ Setup sanitizedName ev := by
  unfold createRepositoryKeys
  split
  · have hg := generateSSHKeyPair_trace w t
    rcases hgen : generateSSHKeyPair w t with ⟨res, t1⟩
    rw [hgen] at hg
    dsimp only at hg
    subst hg
    cases res with
    | error e =>
      exact ⟨[Event.generateKey], rfl,
        by simp [Setup, requestsOf, repositoryDeletions, repositoryNames]⟩
    | ok keys =>
      obtain ⟨privateKey, publicKey⟩ := keys
      dsimp only
      have hu := uploadDeployKey_trace w repoOwner sanitizedName publicKey
        ("terraform-deploy-key-" ++ toString (w.unixNow (t ++ [Event.generateKey]))) false
        (t ++ [Event.generateKey])
      rcases hup : uploadDeployKey w repoOwner sanitizedName publicKey
        ("terraform-deploy-key-" ++ toString (w.unixNow (t ++ [Event.generateKey]))) false
        (t ++ [Event.generateKey]) with ⟨res, t2⟩
      rw [hup] at hu
      dsimp only at hu
      subst hu
      have hpre : Setup sanitizedName [Event.generateKey, Event.ghCreateKey repoOwner sanitizedName
          publicKey ("terraform-deploy-key-" ++ toString (w.unixNow (t ++ [Event.generateKey])))
          false] := by
        simp [Setup, requestsOf, repositoryDeletions, repositoryNames]
      cases res with
      | some e => exact ⟨_, by simp [List.append_assoc], hpre⟩
      | none =>
        dsimp only
        obtain ⟨ev, h1, h2⟩ := createRepositoryFile_trace w repoOwner sanitizedName fileContents
          generateSSHKeys privateKey publicKey (t ++ [Event.generateKey] ++
            [Event.ghCreateKey repoOwner sanitizedName publicKey
              ("terraform-deploy-key-" ++ toString (w.unixNow (t ++ [Event.generateKey]))) false])
        refine ⟨_, ?_, setup_append hpre h2⟩
        rw [h1]
        simp [List.append_assoc]
  · exact createRepositoryFile_trace w repoOwner sanitizedName fileContents generateSSHKeys
      "" "" t

theorem createGitHubRepository_trace (w : World) (r : komodoResource)
    (repoName fileContents : String) (generateSSHKeys : Bool) (t : List Event) :
    ∃ ev, (createGitHubRepository w r repoName fileContents generateSSHKeys t).2 = t ++ ev ∧
      Setup (sanitizeRepoName repoName ++ "_syncresources") ev := by
  unfold createGitHubRepository
  dsimp only
  split
  · exact ⟨[], by simp, setup_nil _⟩
  · have hcreate : Setup (sanitizeRepoName repoName ++ "_syncresources")
        [Event.ghCreateRepo r.githubOrgname (sanitizeRepoName repoName ++ "_syncresources")] := by
      simp [Setup, requestsOf, repositoryDeletions, repositoryNames]
    have hsleep : Setup (sanitizeRepoName repoName ++ "_syncresources") [Event.sleep 2] := by
      simp [Setup, requestsOf, repositoryDeletions, repositoryNames]
    have huser : Setup (sanitizeRepoName repoName ++ "_syncresources") [Event.ghGetUser] := by
      simp [Setup, requestsOf, repositoryDeletions, repositoryNames]
    split
    · exact ⟨_, rfl, hcreate⟩
    · split
      · split
        · exact ⟨_, by rw [List.append_assoc, List.append_assoc],
            setup_append hcreate (setup_append hsleep huser)⟩
        · rename_i login _
          obtain ⟨ev, h1, h2⟩ := createRepositoryKeys_trace w login
            (sanitizeRepoName repoName ++ "_syncresources") fileContents generateSSHKeys
            (t ++ [Event.ghCreateRepo r.githubOrgname
              (sanitizeRepoName repoName ++ "_syncresources")] ++ [Event.sleep 2] ++
              [Event.ghGetUser])
          refine ⟨_, ?_, setup_append hcreate (setup_append hsleep (setup_append huser h2))⟩
          rw [h1]
          simp [List.append_assoc]
      · obtain ⟨ev, h1, h2⟩ := createRepositoryKeys_trace w r.githubOrgname
          (sanitizeRepoName repoName ++ "_syncresources") fileContents generateSSHKeys
          (t ++ [Event.ghCreateRepo r.githubOrgname
            (sanitizeRepoName repoName ++ "_syncresources")] ++ [Event.sleep 2])
        refine ⟨_, ?_, setup_append hcreate (setup_append hsleep h2)⟩
        rw [h1]
        simp [List.append_assoc]

theorem deleteGitHubRepository_trace (w : World) (r : komodoResource) (repoName : String)
    (t : List Event) :
    (deleteGitHubRepository w r repoName t).2 = t ++ gitHubDeleteEvents w r repoName t := by
  unfold deleteGitHubRepository gitHubDeleteEvents
  dsimp only
  split
  · split <;> rfl
  · split
    · rfl
    · split <;> simp [List.append_assoc]

/-! ## The rollback of Create -/

theorem cleanupCall_trace (w : World) (r : komodoResource) (payload failure : String) (s : Run) :
    (cleanupCall w r payload failure s).trace =
      s.trace ++ [Event.post ⟨r.endpoint ++ "write", payload, r.apiKey, r.apiSecret⟩] := by
  have h := makeAPICall_trace w r payload (r.endpoint ++ "write") s.trace
  unfold cleanupCall
  split
  · rename_i heq
    rw [heq] at h
    exact h
  · rename_i heq
    rw [heq] at h
    exact h

theorem cleanupCall_diags (w : World) (r : komodoResource) (payload failure : String) (s : Run) :
    ∃ ws, (cleanupCall w r payload failure s).diags = s.diags ++ ws ∧
      ∀ d ∈ ws, d.severity = Severity.warning := by
  unfold cleanupCall
  split
  · exact ⟨[_], rfl, by simp⟩
  · exact ⟨[], by simp, by simp⟩

theorem CleanupTask.run_trace (w : World) (r : komodoResource) (name : String)
    (task : CleanupTask) (s : Run) :
    (task.run w r name s).trace = s.trace ++ task.events w r name s.trace := by
  cases task with
  | gitHubRepository =>
    have h := deleteGitHubRepository_trace w r name s.trace
    simp only [CleanupTask.run, CleanupTask.events]
    rcases hd : deleteGitHubRepository w r name s.trace with ⟨res, t1⟩
    rw [hd] at h
    cases res <;> exact h
  | server =>
    simp [CleanupTask.run, CleanupTask.events, cleanupCall_trace, compensationPost,
      create_deleteServerPayload_eq]
  | contextWareSync =>
    simp [CleanupTask.run, CleanupTask.events, cleanupCall_trace, compensationPost,
      create_deleteContextWareSyncPayload_eq]
  | resourceSetupSync =>
    simp [CleanupTask.run, CleanupTask.events, cleanupCall_trace, compensationPost,
      create_deleteResourceSetupSyncPayload_eq]
  | procedures =>
    simp [CleanupTask.run, CleanupTask.events, cleanupCall_trace, compensationPost,
      create_deleteProcedureApplyPayload_eq, create_deleteProcedureDestroyPayload_eq,
      create_deleteProcedureRestartPayload_eq]

theorem CleanupTask.run_diags (w : World) (r : komodoResource) (name : String)
    (task : CleanupTask) (s : Run) :
    ∃ ws, (task.run w r name s).diags = s.diags ++ ws ∧
      ∀ d ∈ ws, d.severity = Severity.warning := by
  cases task with
  | gitHubRepository =>
    simp only [CleanupTask.run]
    rcases deleteGitHubRepository w r name s.trace with ⟨res, t1⟩
    cases res with
    | some err => exact ⟨[_], rfl, by simp⟩
    | none => exact ⟨[], by simp, by simp⟩
  | server => exact cleanupCall_diags _ _ _ _ _
  | contextWareSync => exact cleanupCall_diags _ _ _ _ _
  | resourceSetupSync => exact cleanupCall_diags _ _ _ _ _
  | procedures =>
    simp only [CleanupTask.run]
    obtain ⟨w1, h1, g1⟩ := cleanupCall_diags w r (Create.deleteProcedureApplyPayload name)
      "Failed to delete apply procedure during cleanup: " s
    obtain ⟨w2, h2, g2⟩ := cleanupCall_diags w r (Create.deleteProcedureDestroyPayload name)
      "Failed to delete destroy procedure during cleanup: "
      (cleanupCall w r (Create.deleteProcedureApplyPayload name)
        "Failed to delete apply procedure during cleanup: " s)
    obtain ⟨w3, h3, g3⟩ := cleanupCall_diags w r (Create.deleteProcedureRestartPayload name)
      "Failed to delete restart procedure during cleanup: "
      (cleanupCall w r (Create.deleteProcedureDestroyPayload name)
        "Failed to delete destroy procedure during cleanup: "
        (cleanupCall w r (Create.deleteProcedureApplyPayload name)
          "Failed to delete apply procedure during cleanup: " s))
    refine ⟨w1 ++ (w2 ++ w3), ?_, ?_⟩
    · rw [h3, h2, h1]
      simp [List.append_assoc]
    · intro d hd
      simp only [List.mem_append] at hd
      rcases hd with hd | hd | hd
      · exact g1 d hd
      · exact g2 d hd
      · exact g3 d hd

theorem foldl_run_trace (w : World) (r : komodoResource) (name : String)
    (tasks : List CleanupTask) (s : Run) :
    (tasks.foldl (fun acc task => task.run w r name acc) s).trace =
      s.trace ++ rollbackEvents w r name s.trace tasks := by
  induction tasks generalizing s with
  | nil => simp [rollbackEvents]
  | cons task rest ih =>
    rw [List.foldl_cons, ih, CleanupTask.run_trace]
    simp [rollbackEvents, List.append_assoc]

theorem foldl_run_diags (w : World) (r : komodoResource) (name : String)
    (tasks : List CleanupTask) (s : Run) :
    ∃ ws, (tasks.foldl (fun acc task => task.run w r name acc) s).diags = s.diags ++ ws ∧
      ∀ d ∈ ws, d.severity = Severity.warning := by
  induction tasks generalizing s with
  | nil => exact ⟨[], by simp, by simp⟩
  | cons task rest ih =>
    obtain ⟨w1, h1, g1⟩ := CleanupTask.run_diags w r name task s
    obtain ⟨w2, h2, g2⟩ := ih (task.run w r name s)
    refine ⟨w1 ++ w2, ?_, ?_⟩
    · rw [List.foldl_cons, h2, h1, List.append_assoc]
    · intro d hd
      rcases List.mem_append.mp hd with hd | hd
      · exact g1 d hd
      · exact g2 d hd

theorem Create.runCleanup_trace (w : World) (r : komodoResource) (name : String)
    (tasks : List CleanupTask) (s : Run) :
    (Create.runCleanup w r name tasks s).trace =
      s.trace ++ rollbackEvents w r name s.trace tasks.reverse :=
  foldl_run_trace w r name tasks.reverse s

theorem Create.runCleanup_diags (w : World) (r : komodoResource) (name : String)
    (tasks : List CleanupTask) (s : Run) :
    ∃ ws, (Create.runCleanup w r name tasks s).diags = s.diags ++ ws ∧
      ∀ d ∈ ws, d.severity = Severity.warning :=
  foldl_run_diags w r name tasks.reverse s

/-! ## The body of Create -/

theorem control_nil : Control [] [] := by
  simp [Control, requestsOf, repositoryDeletions, repositoryNames]

theorem control_append {a b : List (String × String)} {x y : List Event}
    (hx : Control a x) (hy : Control b y) : Control (a ++ b) (x ++ y) := by
  obtain ⟨a1, a2, a3⟩ := hx
  obtain ⟨b1, b2, b3⟩ := hy
  exact ⟨by rw [requestsOf_append, a1, b1], by rw [repositoryDeletions_append, a2, b2]; rfl,
    by rw [repositoryNames_append, a3, b3]; rfl⟩

theorem control_post (url payload key secret : String) :
    Control [(url, payload)] [Event.post ⟨url, payload, key, secret⟩] := by
  simp [Control, requestsOf, repositoryDeletions, repositoryNames]

theorem control_sleep (d : Nat) : Control [] [Event.sleep d] := by
  simp [Control, requestsOf, repositoryDeletions, repositoryNames]

theorem makeAPICall_of_eq {w : World} {r : komodoResource} {payload url : String}
    {t t1 : List Event} {res : Option String} (h : makeAPICall w r payload url t = (res, t1)) :
    t1 = t ++ [Event.post ⟨url, payload, r.apiKey, r.apiSecret⟩] := by
  have := makeAPICall_trace w r payload url t
  rw [h] at this
  exact this

theorem createGitHubRepository_of_eq {w : World} {r : komodoResource}
    {repoName fileContents : String} {generateSSHKeys : Bool} {t t1 : List Event}
    {res : Option String}
    (h : createGitHubRepository w r repoName fileContents generateSSHKeys t = (res, t1)) :
    ∃ ev, t1 = t ++ ev ∧ Setup (sanitizeRepoName repoName ++ "_syncresources") ev := by
  have := createGitHubRepository_trace w r repoName fileContents generateSSHKeys t
  rw [h] at this
  exact this

theorem waitForServerAvailability_of_eq {w : World} {r : komodoResource} {serverName : String}
    {maxAttempts sleepDuration : Nat} {t t1 : List Event} {res : Option String}
    (h : waitForServerAvailability w r serverName maxAttempts sleepDuration t = (res, t1)) :
    ∃ ev k, t1 = t ++ ev ∧ k ≤ maxAttempts ∧
      Polls (r.endpoint ++ "read") (entityDocument "\t\t" "GetServer" "server" serverName) k ev ∧
      (res = none → 1 ≤ k) := by
  have := waitForServerAvailability_trace w r serverName maxAttempts sleepDuration t
  rw [h, getServerPayload_eq] at this
  exact this

theorem waitForServerStateEnabled_of_eq {w : World} {r : komodoResource} {serverName : String}
    {maxAttempts sleepDuration : Nat} {t t1 : List Event} {res : Option String}
    (h : waitForServerStateEnabled w r serverName maxAttempts sleepDuration t = (res, t1)) :
    ∃ ev k, t1 = t ++ ev ∧ k ≤ maxAttempts ∧
      Polls (r.endpoint ++ "read") (entityDocument "\t\t" "GetServerState" "server" serverName)
        k ev ∧
      (res = none → 1 ≤ k) := by
  have := waitForServerStateEnabled_trace w r serverName maxAttempts sleepDuration t
  rw [h, getServerStatePayload_eq] at this
  exact this

theorem Create.body_ended (w : World) (r : komodoResource) (plan : KomodoModel) :
    Create.Ended r plan (Create.body w r plan) := by
  generalize hb : Create.body w r plan = b
  unfold Create.body at hb
  dsimp only at hb
  split at hb
  · rename_i err t0 h0
    obtain ⟨_, rfl, hg⟩ := createGitHubRepository_of_eq h0
    subst hb
    exact ⟨t0, [], by simp, hg, Or.inr ⟨.createRepository, err, 0, 0, by omega, by omega, rfl,
      rfl, rfl, control_nil⟩⟩
  rename_i t0 h0
  obtain ⟨_, rfl, hg⟩ := createGitHubRepository_of_eq h0
  split at hb
  · rename_i err t1 h1
    have e1 := makeAPICall_of_eq h1
    subst e1
    subst hb
    exact ⟨t0, _, rfl, hg, Or.inr ⟨.createServer, err, 0, 0, by omega, by omega, rfl,
      rfl, rfl, control_post _ _ _ _⟩⟩
  rename_i t1 h1
  have e1 := makeAPICall_of_eq h1
  subst e1
  have c1 := control_post (r.endpoint ++ "write") (Create.createServerPayload
    ("server-" ++ toLower plan.Name.ValueString) plan.ServerIP.ValueString plan.Name.ValueString)
    r.apiKey r.apiSecret
  split at hb
  · rename_i err t2 h2
    obtain ⟨ev1, n1, rfl, hn1, hp1, _⟩ := waitForServerAvailability_of_eq h2
    subst hb
    refine ⟨t0, _, List.append_assoc _ _ _, hg, Or.inr ⟨.waitAvailable, err, n1, 0, hn1, by omega,
      rfl, rfl, rfl, ?_⟩⟩
    have h := control_append c1 hp1
    simpa [Step.through, Step.order, Step.index, Step.requests, List.flatMap] using h
  rename_i t2 h2
  obtain ⟨ev1, n1, rfl, hn1, hp1, hk1⟩ := waitForServerAvailability_of_eq h2
  have hn1' := hk1 rfl
  have c2 := control_append c1 hp1
  split at hb
  · rename_i err t3 h3
    have e3 := makeAPICall_of_eq h3
    subst e3
    subst hb
    refine ⟨t0, _, by simp only [List.append_assoc]; rfl, hg, Or.inr ⟨.enableServer, err, n1, 0, hn1,
      by omega, rfl, rfl, rfl, ?_⟩⟩
    have h := control_append c2 (control_post (r.endpoint ++ "write") (Create.updateServerPayload
      ("server-" ++ toLower plan.Name.ValueString)) r.apiKey r.apiSecret)
    simpa [Step.through, Step.order, Step.index, Step.requests, List.flatMap] using h
  rename_i t3 h3
  have e3 := makeAPICall_of_eq h3
  subst e3
  have c3 := control_append c2 (control_post (r.endpoint ++ "write") (Create.updateServerPayload
    ("server-" ++ toLower plan.Name.ValueString)) r.apiKey r.apiSecret)
  split at hb
  · rename_i err t4 h4
    obtain ⟨ev2, n2, rfl, hn2, hp2, _⟩ := waitForServerStateEnabled_of_eq h4
    subst hb
    refine ⟨t0, _, by simp only [List.append_assoc]; rfl, hg, Or.inr ⟨.waitReady, err, n1, n2,
      hn1, hn2, rfl, rfl, rfl, ?_⟩⟩
    have h := control_append c3 hp2
    simpa [Step.through, Step.order, Step.index, Step.requests, List.flatMap] using h
  rename_i t4 h4
  obtain ⟨ev2, n2, rfl, hn2, hp2, hk2⟩ := waitForServerStateEnabled_of_eq h4
  have hn2' := hk2 rfl
  have c4 := control_append c3 hp2
  split at hb
  · rename_i err t5 h5
    have e5 := makeAPICall_of_eq h5
    subst e5
    subst hb
    refine ⟨t0, _, by simp only [List.append_assoc]; rfl, hg, Or.inr ⟨.createSyncA, err, n1, n2,
      hn1, hn2, rfl, rfl, rfl, ?_⟩⟩
    have h := control_append c4 (control_post (r.endpoint ++ "write") (Create.createContextWarePayload
      plan.Name.ValueString plan.Name.ValueString (toLower plan.Name.ValueString))
      r.apiKey r.apiSecret)
    simpa [Step.through, Step.order, Step.index, Step.requests, List.flatMap] using h
  rename_i t5 h5
  have e5 := makeAPICall_of_eq h5
  subst e5
  have c5 := control_append c4 (control_post (r.endpoint ++ "write") (Create.createContextWarePayload
    plan.Name.ValueString plan.Name.ValueString (toLower plan.Name.ValueString))
    r.apiKey r.apiSecret)
  split at hb
  · rename_i err t6 h6
    have e6 := makeAPICall_of_eq h6
    subst e6
    subst hb
    refine ⟨t0, _, by simp only [List.append_assoc]; rfl, hg, Or.inr ⟨.runSyncA, err, n1, n2,
      hn1, hn2, rfl, rfl, rfl, ?_⟩⟩
    have h := control_append c5 (control_post (r.endpoint ++ "execute")
      (Create.runContextWarePayload plan.Name.ValueString) r.apiKey r.apiSecret)
    simpa [Step.through, Step.order, Step.index, Step.requests, List.flatMap,
      create_runContextWarePayload_eq] using h
  rename_i t6 h6
  have e6 := makeAPICall_of_eq h6
  subst e6
  have c6 := control_append (control_append c5 (control_post (r.endpoint ++ "execute")
    (Create.runContextWarePayload plan.Name.ValueString) r.apiKey r.apiSecret))
    (control_sleep 15)
  split at hb
  · rename_i err t7 h7
    have e7 := makeAPICall_of_eq h7
    subst e7
    subst hb
    refine ⟨t0, _, by simp only [List.append_assoc]; rfl, hg, Or.inr ⟨.runSyncB, err, n1, n2,
      hn1, hn2, rfl, rfl, rfl, ?_⟩⟩
    have h := control_append c6 (control_post (r.endpoint ++ "execute")
      (Create.runResourceSetupPayload plan.Name.ValueString) r.apiKey r.apiSecret)
    simpa [Step.through, Step.order, Step.index, Step.requests, List.flatMap,
      create_runContextWarePayload_eq, create_runResourceSetupPayload_eq] using h
  rename_i t7 h7
  have e7 := makeAPICall_of_eq h7
  subst e7
  have c7 := control_append (control_append c6 (control_post (r.endpoint ++ "execute")
    (Create.runResourceSetupPayload plan.Name.ValueString) r.apiKey r.apiSecret))
    (control_sleep 15)
  have c8 := control_append c7 (control_post (r.endpoint ++ "execute")
    (Create.runProcedurePayload plan.Name.ValueString) r.apiKey r.apiSecret)
  split at hb
  · rename_i err t8 h8
    have e8 := makeAPICall_of_eq h8
    subst e8
    subst hb
    refine ⟨t0, _, by simp only [List.append_assoc]; rfl, hg, Or.inr ⟨.runApply, err, n1, n2,
      hn1, hn2, rfl, rfl, rfl, ?_⟩⟩
    simpa [Step.through, Step.order, Step.index, Step.requests, List.flatMap,
      create_runContextWarePayload_eq, create_runResourceSetupPayload_eq,
      create_runProcedurePayload_eq] using c8
  rename_i t8 h8
  have e8 := makeAPICall_of_eq h8
  subst e8
  subst hb
  refine ⟨t0, _, by simp only [List.append_assoc]; rfl, hg, Or.inl ⟨rfl, rfl, rfl, n1, n2,
    hn1', hn1, hn2', hn2, ?_⟩⟩
  simpa [Step.order, Step.requests, List.flatMap,
    create_runContextWarePayload_eq, create_runResourceSetupPayload_eq,
    create_runProcedurePayload_eq] using c8

/-! ## Claims -/

theorem Step.errorDiag_step {st st' : Step} {e e' : String}
    (h : Step.errorDiag st e = Step.errorDiag st' e') : st = st' := by
  have hd := congrArg (fun d => d.detail.data) h
  cases st <;> cases st' <;>
    first
    | rfl
    | (simp [Step.errorDiag, String.data_append] at hd)

theorem Step.hasError_errorDiag (st : Step) (err : String) :
    HasError [Step.errorDiag st err] = true := by
  cases st <;> simp [HasError, Step.errorDiag]

theorem Create.trace_of_failure (w : World) (r : komodoResource) (plan : KomodoModel)
    (st : Step) (err : String)
    (hfail : (Create.body w r plan).diags = [Step.errorDiag st err]) :
    (Create.body w r plan).cleanupTasks = Step.registeredBefore st ∧
      (Create w r plan).trace = (Create.body w r plan).trace ++
        rollbackEvents w r plan.Name.ValueString (Create.body w r plan).trace
          (Step.registeredBefore st).reverse := by
  have hreg : (Create.body w r plan).cleanupTasks = Step.registeredBefore st := by
    obtain ⟨g, c, _, _, hcase⟩ := Create.body_ended w r plan
    rcases hcase with ⟨hd, _⟩ | ⟨st', err', _, _, _, _, hd, _, htasks, _⟩
    · rw [hd] at hfail
      exact absurd hfail (by simp)
    · rw [hd] at hfail
      have := Step.errorDiag_step (List.singleton_inj.mp hfail)
      rw [← this]
      exact htasks
  refine ⟨hreg, ?_⟩
  have herr : HasError (Create.body w r plan).diags = true := by
    rw [hfail]
    exact Step.hasError_errorDiag st err
  unfold Create
  simp only [herr, if_true]
  rw [Create.runCleanup_trace, hreg]

/-- C1: when step `st` of Create fails (its error is the diagnostic the body
leaves), the compensations registered are those of the steps before `st`, the
rollback performs exactly their events in the reverse of the registration
order, each once, and no compensation of `st` or of a later step is among
them.  For `st` the creation of sync A the rollback is the DeleteServer request
followed by the events of the GitHub repository deletion. -/
theorem create_rollback_reverse_order (w : World) (r : komodoResource) (plan : KomodoModel)
    (st : Step) (err : String)
    (hfail : (Create.body w r plan).diags = [Step.errorDiag st err]) :
    (Create.body w r plan).cleanupTasks = Step.registeredBefore st ∧
      (Create w r plan).trace = (Create.body w r plan).trace ++
        rollbackEvents w r plan.Name.ValueString (Create.body w r plan).trace
          (Step.registeredBefore st).reverse ∧
      (Step.registeredBefore st).reverse.Nodup ∧
      (∀ later task, later ∉ Step.before st → Step.compensation later = some task →
        task ∉ (Step.registeredBefore st).reverse) ∧
      (st = Step.createSyncA →
        (Create w r plan).trace = (Create.body w r plan).trace ++
          [compensationPost r "DeleteServer" ("server-" ++ toLower plan.Name.ValueString)] ++
          gitHubDeleteEvents w r plan.Name.ValueString ((Create.body w r plan).trace ++
            [compensationPost r "DeleteServer" ("server-" ++ toLower plan.Name.ValueString)])) := by
  obtain ⟨hreg, htrace⟩ := Create.trace_of_failure w r plan st err hfail
  refine ⟨hreg, htrace, ?_, ?_, ?_⟩
  · cases st <;> decide
  · intro later task hlater hcomp
    cases st <;> cases later <;>
      simp [Step.before, Step.order, Step.index] at hlater <;>
      simp [Step.compensation] at hcomp <;>
      subst hcomp <;>
      decide
  · intro hst
    subst hst
    rw [htrace]
    simp [Step.registeredBefore, Step.before, Step.order, Step.index, Step.compensation,
      rollbackEvents, CleanupTask.events, List.append_assoc]

set_option maxRecDepth 100000 in
/-- Witness of C1 in the scenario of the specification: creating sync A fails
for `demo`, and the rollback is DeleteServer, then the repository deletion. -/
theorem create_rollback_reverse_order_witness :
    (Create.body syncAFailsWorld demoResource demoPlan).diags =
        [Step.errorDiag Step.createSyncA
          "received non-OK HTTP status: 500 Internal Server Error, body: boom"] ∧
      (Create syncAFailsWorld demoResource demoPlan).trace =
        (Create.body syncAFailsWorld demoResource demoPlan).trace ++
          [compensationPost demoResource "DeleteServer" "server-demo",
            Event.ghDeleteRepo "manidaecloud" "demo_syncresources"] :=
  ⟨by decide,
    ((create_rollback_reverse_order syncAFailsWorld demoResource demoPlan Step.createSyncA
      "received non-OK HTTP status: 500 Internal Server Error, body: boom"
      (by decide)).2.2.2.2 rfl).trans (by decide)⟩

theorem Step.errorDiag_severity (st : Step) (err : String) :
    (Step.errorDiag st err).severity = Severity.error := by
  cases st <;> rfl

theorem Create.body_diags (w : World) (r : komodoResource) (plan : KomodoModel) :
    (Create.body w r plan).diags = [] ∨
      ∃ st err, (Create.body w r plan).diags = [Step.errorDiag st err] := by
  obtain ⟨g, c, _, _, hcase⟩ := Create.body_ended w r plan
  rcases hcase with ⟨hd, _⟩ | ⟨st, err, _, _, _, _, hd, _⟩
  · exact Or.inl hd
  · exact Or.inr ⟨st, err, hd⟩

/-- C2: the rollback of Create never stops at a failing compensation and never
adds an error.  Whatever the world answers to the delete calls, the rollback
performs the events of every registered compensation, last registered first;
what it adds to the diagnostics are warnings only; so the errors Create
reports are exactly the diagnostics of its body, which are none or the single
error of the step that failed. -/
theorem create_rollback_best_effort (w : World) (r : komodoResource) (plan : KomodoModel) :
    (HasError (Create.body w r plan).diags = true →
        (Create w r plan).trace = (Create.body w r plan).trace ++
          rollbackEvents w r plan.Name.ValueString (Create.body w r plan).trace
            (Create.body w r plan).cleanupTasks.reverse) ∧
      (∃ ws, (Create w r plan).diags = (Create.body w r plan).diags ++ ws ∧
        ∀ d ∈ ws, d.severity = Severity.warning) ∧
      ((Create.body w r plan).diags = [] ∨
        ∃ st err, (Create.body w r plan).diags = [Step.errorDiag st err]) ∧
      (Create w r plan).diags.filter (fun d => d.severity == Severity.error) =
        (Create.body w r plan).diags := by
  have hws : ∃ ws, (Create w r plan).diags = (Create.body w r plan).diags ++ ws ∧
      ∀ d ∈ ws, d.severity = Severity.warning := by
    unfold Create
    by_cases herr : HasError (Create.body w r plan).diags = true
    · simp only [herr, if_true]
      exact Create.runCleanup_diags w r plan.Name.ValueString _ ⟨_, _⟩
    · simp only [herr]
      exact ⟨[], by simp, by simp⟩
  refine ⟨?_, hws, Create.body_diags w r plan, ?_⟩
  · intro herr
    unfold Create
    simp only [herr, if_true]
    rw [Create.runCleanup_trace]
  · obtain ⟨ws, hd, hwarn⟩ := hws
    have hnil : ws.filter (fun d => d.severity == Severity.error) = [] := by
      rw [List.filter_eq_nil_iff]
      intro d hdm
      rw [hwarn d hdm]
      decide
    rw [hd, List.filter_append, hnil, List.append_nil]
    rcases Create.body_diags w r plan with h | ⟨st, err, h⟩
    · rw [h]
      rfl
    · rw [h]
      simp [Step.errorDiag_severity]

set_option maxRecDepth 100000 in
/-- Witness of C2: running sync B fails for `demo` with four compensations
registered, and the deletion of sync A fails inside the rollback; the deletions
of the server and of the repository still follow, and the failure is a
warning beside the one error. -/
theorem create_rollback_best_effort_witness :
    (Create cleanupFailsWorld demoResource demoPlan).trace =
        (Create.body cleanupFailsWorld demoResource demoPlan).trace ++
          [compensationPost demoResource "DeleteResourceSync" "demo_ResourceSetup",
            compensationPost demoResource "DeleteResourceSync" "demo_ContextWare",
            compensationPost demoResource "DeleteServer" "server-demo",
            Event.ghDeleteRepo "manidaecloud" "demo_syncresources"] ∧
      (Create cleanupFailsWorld demoResource demoPlan).diags =
        [⟨Severity.error, "API Error", "Error running ResourceSetup sync: received non-OK HTTP status: 500 Internal Server Error, body: no such sync"⟩,
          ⟨Severity.warning, "Cleanup Warning", "Failed to delete ContextWare sync during cleanup: received non-OK HTTP status: 500 Internal Server Error, body: sync in use"⟩] :=
  ⟨((create_rollback_best_effort cleanupFailsWorld demoResource demoPlan).1 (by decide)).trans
    (by decide), by decide⟩

set_option maxRecDepth 100000 in
/-- C3 (the code at the failing input): GitHub creates the repository for
`demo` and then refuses the file; Create ends with the error and its trace
holds the repository creation but no repository deletion. -/
theorem create_leaves_repository_after_late_failure :
    (Create fileFailsWorld demoResource filePlan).trace =
        [Event.ghCreateRepo "manidaecloud" "demo_syncresources", Event.sleep 2,
          Event.ghGetRepo "manidaecloud" "demo_syncresources",
          Event.ghCreateFile "manidaecloud" "demo_syncresources" "resources.toml"
            "Add resources.toml via Terraform" "[[stack]]" "main" none] ∧
      (Create fileFailsWorld demoResource filePlan).diags =
        [⟨Severity.error, "GitHub Error", "Error creating GitHub repository: failed to create file in repository: 422 Unprocessable Entity"⟩] ∧
      repositoryDeletions (Create fileFailsWorld demoResource filePlan).trace = [] := by
  decide

theorem setup_requests {repo : String} {g : List Event} (hg : Setup repo g) (c : List Event) :
    requestsOf (g ++ c) = requestsOf c ∧
      repositoryDeletions (g ++ c) = repositoryDeletions c := by
  obtain ⟨h1, h2, _⟩ := hg
  rw [requestsOf_append, repositoryDeletions_append, h1, h2]
  exact ⟨rfl, rfl⟩

theorem Create.state_eq (w : World) (r : komodoResource) (plan : KomodoModel) :
    (Create w r plan).state = (Create.body w r plan).state := by
  unfold Create
  dsimp only
  split <;> rfl

theorem Create.of_no_error (w : World) (r : komodoResource) (plan : KomodoModel)
    (hok : HasError (Create w r plan).diags = false) :
    (Create.body w r plan).diags = [] ∧ Create w r plan =
      ⟨(Create.body w r plan).trace, [], (Create.body w r plan).state⟩ := by
  rcases Create.body_diags w r plan with h | ⟨st, err, h⟩
  · refine ⟨h, ?_⟩
    unfold Create
    simp [h, HasError]
  · exfalso
    have herr : HasError (Create.body w r plan).diags = true := by
      rw [h]
      exact Step.hasError_errorDiag st err
    unfold Create at hok
    simp only [herr, if_true] at hok
    obtain ⟨ws, hd, _⟩ := Create.runCleanup_diags w r plan.Name.ValueString
      (Create.body w r plan).cleanupTasks ⟨(Create.body w r plan).trace,
        (Create.body w r plan).diags⟩
    rw [hd, h] at hok
    have := Step.errorDiag_severity st err
    simp [HasError, this] at hok

/-- C4: when Create reports no error, its control-plane requests are, in this
order, CreateServer, between 1 and 30 GetServer polls, UpdateServer, between 1
and 30 GetServerState polls, CreateResourceSync for the ContextWare sync,
RunSync of the ContextWare sync, RunSync of the ResourceSetup sync and
RunProcedure of the apply procedure; no repository is deleted and the plan is
stored.  When a step fails, the requests of the body are those of the steps up
to and including the failed one and nothing is stored. -/
theorem create_request_order (w : World) (r : komodoResource) (plan : KomodoModel) :
    (HasError (Create w r plan).diags = false →
        ∃ n1 n2, 1 ≤ n1 ∧ n1 ≤ 30 ∧ 1 ≤ n2 ∧ n2 ≤ 30 ∧
          requestsOf (Create w r plan).trace =
            [(r.endpoint ++ "write", Create.createServerPayload
                ("server-" ++ toLower plan.Name.ValueString) plan.ServerIP.ValueString
                plan.Name.ValueString)] ++
              List.replicate n1 (r.endpoint ++ "read", entityDocument "\t\t" "GetServer" "server"
                ("server-" ++ toLower plan.Name.ValueString)) ++
              [(r.endpoint ++ "write",
                Create.updateServerPayload ("server-" ++ toLower plan.Name.ValueString))] ++
              List.replicate n2 (r.endpoint ++ "read", entityDocument "\t\t" "GetServerState"
                "server" ("server-" ++ toLower plan.Name.ValueString)) ++
              [(r.endpoint ++ "write", Create.createContextWarePayload plan.Name.ValueString
                  plan.Name.ValueString (toLower plan.Name.ValueString)),
                (r.endpoint ++ "execute", entityDocument "\t" "RunSync" "sync"
                  (plan.Name.ValueString ++ "_ContextWare")),
                (r.endpoint ++ "execute", entityDocument "\t" "RunSync" "sync"
                  (plan.Name.ValueString ++ "_ResourceSetup")),
                (r.endpoint ++ "execute", entityDocument "\t" "RunProcedure" "procedure"
                  (plan.Name.ValueString ++ "_ProcedureApply"))] ∧
          repositoryDeletions (Create w r plan).trace = [] ∧
          (Create w r plan).state = some plan) ∧
      (∀ st err, (Create.body w r plan).diags = [Step.errorDiag st err] →
        ∃ n1 n2, n1 ≤ 30 ∧ n2 ≤ 30 ∧
          requestsOf (Create.body w r plan).trace =
            (Step.through st).flatMap (Step.requests r plan n1 n2) ∧
          (Create w r plan).state = none) := by
  constructor
  · intro hok
    obtain ⟨hnil, hcreate⟩ := Create.of_no_error w r plan hok
    obtain ⟨g, c, htrace, hg, hcase⟩ := Create.body_ended w r plan
    rcases hcase with ⟨_, hstate, _, n1, n2, h1, h2, h3, h4, hc⟩ |
      ⟨st, err, _, _, _, _, hd, _⟩
    · refine ⟨n1, n2, h1, h2, h3, h4, ?_, ?_, ?_⟩
      · rw [hcreate]
        dsimp only
        rw [htrace, (setup_requests hg c).1, hc.1]
        simp [Step.order, Step.requests, List.flatMap]
      · rw [hcreate]
        dsimp only
        rw [htrace, (setup_requests hg c).2, hc.2.1]
      · rw [hcreate]
        exact hstate
    · rw [hd] at hnil
      exact absurd hnil (by simp)
  · intro st err hfail
    obtain ⟨g, c, htrace, hg, hcase⟩ := Create.body_ended w r plan
    rcases hcase with ⟨hd, _⟩ | ⟨st', err', n1, n2, h1, h2, hd, hstate, _, hc⟩
    · rw [hd] at hfail
      exact absurd hfail (by simp)
    · rw [hd] at hfail
      have hst := Step.errorDiag_step (List.singleton_inj.mp hfail)
      subst hst
      refine ⟨n1, n2, h1, h2, ?_, ?_⟩
      · rw [htrace, (setup_requests hg c).1, hc.1]
      · rw [Create.state_eq, hstate]

set_option maxRecDepth 100000 in
/-- Witness of C4: in the calm world Create reports no error for `demo`, and
in the world that refuses sync A the body stops at that step. -/
theorem create_request_order_witness :
    HasError (Create calmWorld demoResource demoPlan).diags = false ∧
      (∃ n1 n2, 1 ≤ n1 ∧ n1 ≤ 30 ∧ 1 ≤ n2 ∧ n2 ≤ 30 ∧
        requestsOf (Create calmWorld demoResource demoPlan).trace =
          [("https://komodo.example/write",
              Create.createServerPayload "server-demo" "10.0.0.5" "demo")] ++
            List.replicate n1 ("https://komodo.example/read",
              entityDocument "\t\t" "GetServer" "server" "server-demo") ++
            [("https://komodo.example/write", Create.updateServerPayload "server-demo")] ++
            List.replicate n2 ("https://komodo.example/read",
              entityDocument "\t\t" "GetServerState" "server" "server-demo") ++
            [("https://komodo.example/write",
                Create.createContextWarePayload "demo" "demo" "demo"),
              ("https://komodo.example/execute",
                entityDocument "\t" "RunSync" "sync" "demo_ContextWare"),
              ("https://komodo.example/execute",
                entityDocument "\t" "RunSync" "sync" "demo_ResourceSetup"),
              ("https://komodo.example/execute",
                entityDocument "\t" "RunProcedure" "procedure" "demo_ProcedureApply")] ∧
        repositoryDeletions (Create calmWorld demoResource demoPlan).trace = [] ∧
        (Create calmWorld demoResource demoPlan).state = some demoPlan) ∧
      (∃ n1 n2, n1 ≤ 30 ∧ n2 ≤ 30 ∧
        requestsOf (Create.body syncAFailsWorld demoResource demoPlan).trace =
          (Step.through Step.createSyncA).flatMap (Step.requests demoResource demoPlan n1 n2) ∧
        (Create syncAFailsWorld demoResource demoPlan).state = none) :=
  ⟨by decide, (create_request_order calmWorld demoResource demoPlan).1 (by decide),
    (create_request_order syncAFailsWorld demoResource demoPlan).2 Step.createSyncA
      "received non-OK HTTP status: 500 Internal Server Error, body: boom" (by decide)⟩

/-! ## Delete -/

theorem gitHubDeleteEvents_setup (w : World) (r : komodoResource) (name : String)
    (t : List Event) :
    requestsOf (gitHubDeleteEvents w r name t) = [] ∧
      gitHubDeleteEvents w r name t ≠ [] ∧
      ∀ n ∈ repositoryNames (gitHubDeleteEvents w r name t),
        n = sanitizeRepoName name ++ "_syncresources" := by
  unfold gitHubDeleteEvents
  split
  · simp [requestsOf, repositoryNames]
  · split <;> simp [requestsOf, repositoryNames]

theorem Delete.trace_shape (w : World) (r : komodoResource) (data : KomodoModel) :
    ∃ c k1 k2 k3 k4 k5 k6,
      (Delete w r data).trace = c ++ gitHubDeleteEvents w r data.Name.ValueString c ∧
      (1 ≤ k1 ∧ k1 ≤ 5) ∧ (1 ≤ k2 ∧ k2 ≤ 5) ∧ (1 ≤ k3 ∧ k3 ≤ 5) ∧ (1 ≤ k4 ∧ k4 ≤ 5) ∧
      (1 ≤ k5 ∧ k5 ≤ 5) ∧ (1 ≤ k6 ∧ k6 ≤ 3) ∧
      Control
        ([(r.endpoint ++ "execute", entityDocument "\t" "RunProcedure" "procedure"
            (data.Name.ValueString ++ "_ProcedureDestroy"))] ++
          List.replicate k1 (r.endpoint ++ "write", entityDocument "\t" "DeleteProcedure" "id"
            (data.Name.ValueString ++ "_ProcedureApply")) ++
          List.replicate k2 (r.endpoint ++ "write", entityDocument "\t" "DeleteProcedure" "id"
            (data.Name.ValueString ++ "_ProcedureDestroy")) ++
          List.replicate k3 (r.endpoint ++ "write", entityDocument "\t" "DeleteProcedure" "id"
            (data.Name.ValueString ++ "_ProcedureRestart")) ++
          List.replicate k4 (r.endpoint ++ "write", entityDocument "\t" "DeleteResourceSync" "id"
            (data.Name.ValueString ++ "_ResourceSetup")) ++
          List.replicate k5 (r.endpoint ++ "write", entityDocument "\t" "DeleteResourceSync" "id"
            (data.Name.ValueString ++ "_ContextWare")) ++
          List.replicate k6 (r.endpoint ++ "write", entityDocument "\t" "DeleteServer" "id"
            ("server-" ++ toLower data.Name.ValueString))) c := by
  unfold Delete
  dsimp only
  rw [deleteGitHubRepository_trace, makeAPICall_trace]
  have c0 := control_append (control_post (r.endpoint ++ "execute")
    (Delete.runDestroyPayload data.Name.ValueString) r.apiKey r.apiSecret) (control_sleep 5)
  obtain ⟨a1, k1, h1, hb1, hc1, hp1⟩ := retryAPICall_trace w r
    (Delete.deleteProcedureApplyPayload data.Name.ValueString) (r.endpoint ++ "write") 5
    ([] ++ [Event.post ⟨r.endpoint ++ "execute", Delete.runDestroyPayload data.Name.ValueString,
      r.apiKey, r.apiSecret⟩] ++ [Event.sleep 5])
  rw [h1]
  have c1 := control_append (control_append c0 hp1) (control_sleep 2)
  obtain ⟨a2, k2, h2, hb2, hc2, hp2⟩ := retryAPICall_trace w r
    (Delete.deleteProcedureDestroyPayload data.Name.ValueString) (r.endpoint ++ "write") 5
    ([] ++ [Event.post ⟨r.endpoint ++ "execute", Delete.runDestroyPayload data.Name.ValueString,
      r.apiKey, r.apiSecret⟩] ++ [Event.sleep 5] ++ a1 ++ [Event.sleep 2])
  rw [h2]
  have c2 := control_append (control_append c1 hp2) (control_sleep 2)
  obtain ⟨a3, k3, h3, hb3, hc3, hp3⟩ := retryAPICall_trace w r
    (Delete.deleteProcedureRestartPayload data.Name.ValueString) (r.endpoint ++ "write") 5
    ([] ++ [Event.post ⟨r.endpoint ++ "execute", Delete.runDestroyPayload data.Name.ValueString,
      r.apiKey, r.apiSecret⟩] ++ [Event.sleep 5] ++ a1 ++ [Event.sleep 2] ++ a2 ++
      [Event.sleep 2])
  rw [h3]
  have c3 := control_append (control_append c2 hp3) (control_sleep 2)
  obtain ⟨a4, k4, h4, hb4, hc4, hp4⟩ := retryAPICall_trace w r
    (Delete.deleteResourceSetupSyncPayload data.Name.ValueString) (r.endpoint ++ "write") 5
    ([] ++ [Event.post ⟨r.endpoint ++ "execute", Delete.runDestroyPayload data.Name.ValueString,
      r.apiKey, r.apiSecret⟩] ++ [Event.sleep 5] ++ a1 ++ [Event.sleep 2] ++ a2 ++
      [Event.sleep 2] ++ a3 ++ [Event.sleep 2])
  rw [h4]
  have c4 := control_append (control_append c3 hp4) (control_sleep 2)
  obtain ⟨a5, k5, h5, hb5, hc5, hp5⟩ := retryAPICall_trace w r
    (Delete.deleteContextWareSyncPayload data.Name.ValueString) (r.endpoint ++ "write") 5
    ([] ++ [Event.post ⟨r.endpoint ++ "execute", Delete.runDestroyPayload data.Name.ValueString,
      r.apiKey, r.apiSecret⟩] ++ [Event.sleep 5] ++ a1 ++ [Event.sleep 2] ++ a2 ++
      [Event.sleep 2] ++ a3 ++ [Event.sleep 2] ++ a4 ++ [Event.sleep 2])
  rw [h5]
  have c5 := control_append c4 hp5
  obtain ⟨a6, k6, h6, hb6, hc6, hp6⟩ := retryAPICall_trace w r
    (Delete.deleteServerPayload ("server-" ++ toLower data.Name.ValueString))
    (r.endpoint ++ "write") 3
    ([] ++ [Event.post ⟨r.endpoint ++ "execute", Delete.runDestroyPayload data.Name.ValueString,
      r.apiKey, r.apiSecret⟩] ++ [Event.sleep 5] ++ a1 ++ [Event.sleep 2] ++ a2 ++
      [Event.sleep 2] ++ a3 ++ [Event.sleep 2] ++ a4 ++ [Event.sleep 2] ++ a5)
  rw [h6]
  have c6 := control_append c5 hp6
  refine ⟨_, k1, k2, k3, k4, k5, k6, rfl, ⟨hc1 (by omega), hb1⟩, ⟨hc2 (by omega), hb2⟩,
    ⟨hc3 (by omega), hb3⟩, ⟨hc4 (by omega), hb4⟩, ⟨hc5 (by omega), hb5⟩,
    ⟨hc6 (by omega), hb6⟩, ?_⟩
  simpa [List.append_assoc, delete_runDestroyPayload_eq, delete_deleteProcedureApplyPayload_eq,
    delete_deleteProcedureDestroyPayload_eq, delete_deleteProcedureRestartPayload_eq,
    delete_deleteResourceSetupSyncPayload_eq, delete_deleteContextWareSyncPayload_eq,
    delete_deleteServerPayload_eq, Polls] using c6

/-- C7: whatever the individual calls return, the control-plane requests of
Delete are, in this order, RunProcedure of the destroy procedure, then the
deletions of the apply, destroy and restart procedures, of the ResourceSetup
and ContextWare syncs and of the server; each deletion is repeated by the
retry wrapper at least once and at most its budget (5, and 3 for the server). -/
theorem delete_request_order (w : World) (r : komodoResource) (data : KomodoModel) :
    ∃ k1 k2 k3 k4 k5 k6,
      (1 ≤ k1 ∧ k1 ≤ 5) ∧ (1 ≤ k2 ∧ k2 ≤ 5) ∧ (1 ≤ k3 ∧ k3 ≤ 5) ∧ (1 ≤ k4 ∧ k4 ≤ 5) ∧
      (1 ≤ k5 ∧ k5 ≤ 5) ∧ (1 ≤ k6 ∧ k6 ≤ 3) ∧
      requestsOf (Delete w r data).trace =
        [(r.endpoint ++ "execute", entityDocument "\t" "RunProcedure" "procedure"
            (data.Name.ValueString ++ "_ProcedureDestroy"))] ++
          List.replicate k1 (r.endpoint ++ "write", entityDocument "\t" "DeleteProcedure" "id"
            (data.Name.ValueString ++ "_ProcedureApply")) ++
          List.replicate k2 (r.endpoint ++ "write", entityDocument "\t" "DeleteProcedure" "id"
            (data.Name.ValueString ++ "_ProcedureDestroy")) ++
          List.replicate k3 (r.endpoint ++ "write", entityDocument "\t" "DeleteProcedure" "id"
            (data.Name.ValueString ++ "_ProcedureRestart")) ++
          List.replicate k4 (r.endpoint ++ "write", entityDocument "\t" "DeleteResourceSync" "id"
            (data.Name.ValueString ++ "_ResourceSetup")) ++
          List.replicate k5 (r.endpoint ++ "write", entityDocument "\t" "DeleteResourceSync" "id"
            (data.Name.ValueString ++ "_ContextWare")) ++
          List.replicate k6 (r.endpoint ++ "write", entityDocument "\t" "DeleteServer" "id"
            ("server-" ++ toLower data.Name.ValueString)) := by
  obtain ⟨c, k1, k2, k3, k4, k5, k6, htrace, h1, h2, h3, h4, h5, h6, hc⟩ :=
    Delete.trace_shape w r data
  refine ⟨k1, k2, k3, k4, k5, k6, h1, h2, h3, h4, h5, h6, ?_⟩
  rw [htrace, requestsOf_append, (gitHubDeleteEvents_setup w r _ c).1, List.append_nil]
  exact hc.1

theorem Delete.eq_attemptAll (w : World) (r : komodoResource) (data : KomodoModel) :
    (Delete w r data).trace =
        (attemptAll (Delete.steps w r data.Name.ValueString) ⟨[], []⟩).1.trace ∧
      (Delete w r data).diags =
        (attemptAll (Delete.steps w r data.Name.ValueString) ⟨[], []⟩).1.diags := by
  simp [Delete, Delete.steps, attemptAll]

theorem attemptAll_length (steps : List TeardownStep) (s : Run) :
    (attemptAll steps s).2.length = steps.length := by
  induction steps generalizing s with
  | nil => rfl
  | cons step rest ih => simp [attemptAll, ih]

theorem reportError_spec (err : Option String) (summary what : String) (ds : List Diag) :
    ∃ es, reportError err summary what ds = ds ++ es ∧
      (∀ d ∈ es, d.severity = Severity.error) ∧
      es.length = ([err].filter Option.isSome).length := by
  cases err with
  | none => exact ⟨[], by simp [reportError], by simp, by simp⟩
  | some e => exact ⟨[_], rfl, by simp, by simp⟩

theorem attemptAll_diags (steps : List TeardownStep) (s : Run) :
    ∃ es, (attemptAll steps s).1.diags = s.diags ++ es ∧
      (∀ d ∈ es, d.severity = Severity.error) ∧
      es.length = ((attemptAll steps s).2.filter Option.isSome).length := by
  induction steps generalizing s with
  | nil => exact ⟨[], by simp [attemptAll], by simp, by simp [attemptAll]⟩
  | cons step rest ih =>
    obtain ⟨e1, h1, g1, l1⟩ := reportError_spec (step.run s.trace).1 step.summary step.what s.diags
    obtain ⟨e2, h2, g2, l2⟩ := ih ⟨(step.run s.trace).2 ++ step.settle,
      reportError (step.run s.trace).1 step.summary step.what s.diags⟩
    refine ⟨e1 ++ e2, ?_, ?_, ?_⟩
    · simp only [attemptAll]
      rw [h2]
      dsimp only
      rw [h1, List.append_assoc]
    · intro d hd
      rcases List.mem_append.mp hd with hd | hd
      · exact g1 d hd
      · exact g2 d hd
    · simp only [attemptAll, List.length_append, l1, l2]
      cases (step.run s.trace).1 <;> simp
      omega

theorem Delete.steps_progress (w : World) (r : komodoResource) (name : String)
    (step : TeardownStep) (hstep : step ∈ Delete.steps w r name) (t : List Event) :
    t.length < (step.run t).2.length := by
  have hretry : ∀ payload url n, 0 < n →
      t.length < (retryAPICall w r payload url n t).2.length := by
    intro payload url n hn
    obtain ⟨ev, k, h1, _, hk, hp⟩ := retryAPICall_trace w r payload url n t
    rw [h1, List.length_append]
    have hne : ev ≠ [] := by
      intro h
      have hreq := hp.1
      rw [h] at hreq
      have hk1 := hk hn
      cases k with
      | zero => omega
      | succ k => simp [requestsOf, List.replicate_succ] at hreq
    have := List.length_pos.mpr hne
    omega
  simp only [Delete.steps, List.mem_cons, List.mem_singleton, List.not_mem_nil, or_false] at hstep
  rcases hstep with h | h | h | h | h | h | h | h <;> subst h <;> dsimp only
  · rw [makeAPICall_trace]
    simp
  · exact hretry _ _ 5 (by omega)
  · exact hretry _ _ 5 (by omega)
  · exact hretry _ _ 5 (by omega)
  · exact hretry _ _ 5 (by omega)
  · exact hretry _ _ 5 (by omega)
  · exact hretry _ _ 3 (by omega)
  · rw [deleteGitHubRepository_trace, List.length_append]
    have := List.length_pos.mpr (gitHubDeleteEvents_setup w r name t).2.1
    omega

/-- C8: Delete is the best-effort run of the eight teardown steps: its trace
and diagnostics are those of attempting every step in order whatever the
earlier ones returned; each step, when attempted, performs at least one event;
every diagnostic is an error, and there are exactly as many of them as steps
that returned an error. -/
theorem delete_best_effort (w : World) (r : komodoResource) (data : KomodoModel) :
    (Delete w r data).trace =
        (attemptAll (Delete.steps w r data.Name.ValueString) ⟨[], []⟩).1.trace ∧
      (Delete w r data).diags =
        (attemptAll (Delete.steps w r data.Name.ValueString) ⟨[], []⟩).1.diags ∧
      (attemptAll (Delete.steps w r data.Name.ValueString) ⟨[], []⟩).2.length = 8 ∧
      (∀ step ∈ Delete.steps w r data.Name.ValueString, ∀ t : List Event,
        t.length < (step.run t).2.length) ∧
      (∀ d ∈ (Delete w r data).diags, d.severity = Severity.error) ∧
      (Delete w r data).diags.length =
        ((attemptAll (Delete.steps w r data.Name.ValueString) ⟨[], []⟩).2.filter
          Option.isSome).length := by
  obtain ⟨ht, hd⟩ := Delete.eq_attemptAll w r data
  obtain ⟨es, h1, h2, h3⟩ := attemptAll_diags (Delete.steps w r data.Name.ValueString) ⟨[], []⟩
  refine ⟨ht, hd, ?_, fun step hstep t => Delete.steps_progress w r _ step hstep t, ?_, ?_⟩
  · rw [attemptAll_length]
    rfl
  · rw [hd, h1]
    simpa using h2
  · rw [hd, h1]
    simpa using h3

theorem makeAPICall_refused (w : World) (r : komodoResource) (payload url : String)
    (t : List Event) (resp : HttpResponse)
    (hresp : w.http t ⟨url, payload, r.apiKey, r.apiSecret⟩ = CallOutcome.response resp)
    (hne : resp.statusCode ≠ 200) :
    makeAPICall w r payload url t =
      (some (nonOKText resp), t ++ [Event.post ⟨url, payload, r.apiKey, r.apiSecret⟩]) := by
  unfold makeAPICall
  dsimp only
  rw [hresp]
  simp [hne, nonOKText]

theorem retryAPICall_refused (w : World) (r : komodoResource) (payload url : String)
    (n : Nat) (t : List Event) (resp : HttpResponse)
    (hresp : w.http t ⟨url, payload, r.apiKey, r.apiSecret⟩ = CallOutcome.response resp)
    (hne : resp.statusCode ≠ 200)
    (hbusy : Contains (nonOKText resp) "Procedure busy" = false) :
    (retryAPICall w r payload url (n + 1) t).1 = some (nonOKText resp) := by
  unfold retryAPICall retryAPICallLoop
  rw [makeAPICall_refused w r payload url t resp hresp hne]
  simp [hbusy]

theorem attemptAll_reports (steps : List TeardownStep) (s : Run) (step : TeardownStep)
    (P : String → Prop) (hmem : step ∈ steps)
    (h : ∀ t, ∃ e, (step.run t).1 = some e ∧ P e) :
    ∃ e, P e ∧ (⟨Severity.error, step.summary, step.what ++ e⟩ : Diag) ∈
      (attemptAll steps s).1.diags := by
  induction steps generalizing s with
  | nil => exact absurd hmem (List.not_mem_nil _)
  | cons head rest ih =>
    rcases List.mem_cons.mp hmem with hhead | hrest
    · subst hhead
      obtain ⟨e, he, hP⟩ := h s.trace
      refine ⟨e, hP, ?_⟩
      obtain ⟨es, hes, _, _⟩ := attemptAll_diags rest ⟨(step.run s.trace).2 ++ step.settle,
        reportError (step.run s.trace).1 step.summary step.what s.diags⟩
      simp only [attemptAll]
      rw [hes]
      dsimp only
      rw [he]
      simp [reportError, AddError]
    · obtain ⟨e, hP, hin⟩ := ih ⟨(head.run s.trace).2 ++ head.settle,
        reportError (head.run s.trace).1 head.summary head.what s.diags⟩ hrest
      exact ⟨e, hP, by simpa only [attemptAll] using hin⟩

/-- C9 (amended): no deletion call of Delete tolerates a refusal.  When the
control plane answers a deletion request with a status other than 200 (a
not-found response among them) whose error text does not contain
`Procedure busy`, Delete reports an error diagnostic for that step carrying the
status and the body, and every deletion request is still made. -/
theorem delete_reports_not_found (w : World) (r : komodoResource) (data : KomodoModel)
    (call : DeleteCall)
    (h : ∀ t, ∃ resp, w.http t (call.request r data.Name.ValueString) =
        CallOutcome.response resp ∧ resp.statusCode ≠ 200 ∧
        Contains (nonOKText resp) "Procedure busy" = false) :
    (∃ resp, resp.statusCode ≠ 200 ∧
        (⟨Severity.error, "API Error", call.what ++ nonOKText resp⟩ : Diag) ∈
          (Delete w r data).diags) ∧
      ∀ other : DeleteCall,
        ((other.request r data.Name.ValueString).url,
          (other.request r data.Name.ValueString).payload) ∈
            requestsOf (Delete w r data).trace := by
  constructor
  · rw [(Delete.eq_attemptAll w r data).2]
    have key : ∀ (step : TeardownStep) (payload : String) (n : Nat),
        step ∈ Delete.steps w r data.Name.ValueString →
        step.run = retryAPICall w r payload (r.endpoint ++ "write") (n + 1) →
        step.summary = "API Error" → step.what = call.what →
        call.request r data.Name.ValueString =
          ⟨r.endpoint ++ "write", payload, r.apiKey, r.apiSecret⟩ →
        ∃ resp, resp.statusCode ≠ 200 ∧
          (⟨Severity.error, "API Error", call.what ++ nonOKText resp⟩ : Diag) ∈
            (attemptAll (Delete.steps w r data.Name.ValueString) ⟨[], []⟩).1.diags := by
      intro step payload n hmem hrun hsummary hwhat hreq
      obtain ⟨e, ⟨resp, hne, he⟩, hin⟩ := attemptAll_reports
        (Delete.steps w r data.Name.ValueString) ⟨[], []⟩ step
        (fun e => ∃ resp : HttpResponse, resp.statusCode ≠ 200 ∧ e = nonOKText resp) hmem
        (by
          intro t
          obtain ⟨resp, hresp, hne, hbusy⟩ := h t
          rw [hreq] at hresp
          rw [hrun]
          exact ⟨_, retryAPICall_refused w r payload _ n t resp hresp hne hbusy, resp, hne, rfl⟩)
      rw [hsummary, hwhat, he] at hin
      exact ⟨resp, hne, hin⟩
    cases call with
    | procedureApply =>
      exact key ⟨retryAPICall w r (Delete.deleteProcedureApplyPayload data.Name.ValueString)
        (r.endpoint ++ "write") 5, [Event.sleep 2], "API Error",
        "Error deleting apply procedure after retries: "⟩ _ 4 (by simp [Delete.steps])
        rfl rfl rfl rfl
    | procedureDestroy =>
      exact key ⟨retryAPICall w r (Delete.deleteProcedureDestroyPayload data.Name.ValueString)
        (r.endpoint ++ "write") 5, [Event.sleep 2], "API Error",
        "Error deleting destroy procedure after retries: "⟩ _ 4 (by simp [Delete.steps])
        rfl rfl rfl rfl
    | procedureRestart =>
      exact key ⟨retryAPICall w r (Delete.deleteProcedureRestartPayload data.Name.ValueString)
        (r.endpoint ++ "write") 5, [Event.sleep 2], "API Error",
        "Error deleting restart procedure after retries: "⟩ _ 4 (by simp [Delete.steps])
        rfl rfl rfl rfl
    | resourceSetupSync =>
      exact key ⟨retryAPICall w r (Delete.deleteResourceSetupSyncPayload data.Name.ValueString)
        (r.endpoint ++ "write") 5, [Event.sleep 2], "API Error",
        "Error deleting ResourceSetup sync after retries: "⟩ _ 4 (by simp [Delete.steps])
        rfl rfl rfl rfl
    | contextWareSync =>
      exact key ⟨retryAPICall w r (Delete.deleteContextWareSyncPayload data.Name.ValueString)
        (r.endpoint ++ "write") 5, [], "API Error",
        "Error deleting ContextWare sync after retries: "⟩ _ 4 (by simp [Delete.steps])
        rfl rfl rfl rfl
    | server =>
      exact key ⟨retryAPICall w r
        (Delete.deleteServerPayload ("server-" ++ toLower data.Name.ValueString))
        (r.endpoint ++ "write") 3, [], "API Error",
        "Error deleting server after retries: "⟩ _ 2 (by simp [Delete.steps])
        rfl rfl rfl rfl
  · intro other
    obtain ⟨k1, k2, k3, k4, k5, k6, h1, h2, h3, h4, h5, h6, hreq⟩ :
        ∃ k1 k2 k3 k4 k5 k6,
          (1 ≤ k1 ∧ k1 ≤ 5) ∧ (1 ≤ k2 ∧ k2 ≤ 5) ∧ (1 ≤ k3 ∧ k3 ≤ 5) ∧ (1 ≤ k4 ∧ k4 ≤ 5) ∧
          (1 ≤ k5 ∧ k5 ≤ 5) ∧ (1 ≤ k6 ∧ k6 ≤ 3) ∧
          requestsOf (Delete w r data).trace = _ := by
      obtain ⟨c, k1, k2, k3, k4, k5, k6, htrace, h1, h2, h3, h4, h5, h6, hc⟩ :=
        Delete.trace_shape w r data
      refine ⟨k1, k2, k3, k4, k5, k6, h1, h2, h3, h4, h5, h6, ?_⟩
      rw [htrace, requestsOf_append, (gitHubDeleteEvents_setup w r _ c).1, List.append_nil]
      exact hc.1
    rw [hreq]
    have n1 : k1 ≠ 0 := by omega
    have n2 : k2 ≠ 0 := by omega
    have n3 : k3 ≠ 0 := by omega
    have n4 : k4 ≠ 0 := by omega
    have n5 : k5 ≠ 0 := by omega
    have n6 : k6 ≠ 0 := by omega
    cases other <;>
      simp [DeleteCall.request, List.mem_append, List.mem_replicate, n1, n2, n3, n4, n5, n6,
        delete_deleteProcedureApplyPayload_eq, delete_deleteProcedureDestroyPayload_eq,
        delete_deleteProcedureRestartPayload_eq, delete_deleteResourceSetupSyncPayload_eq,
        delete_deleteContextWareSyncPayload_eq, delete_deleteServerPayload_eq]

set_option maxRecDepth 100000 in
/-- Witness of C9 (amended): on a control plane that answers every request
`404 Not Found`, the deletion of the apply procedure is reported as an error. -/
theorem delete_reports_not_found_witness :
    ∃ resp : HttpResponse, resp.statusCode ≠ 200 ∧
      (⟨Severity.error, "API Error",
        DeleteCall.procedureApply.what ++ nonOKText resp⟩ : Diag) ∈
        (Delete goneWorld demoResource demoPlan).diags :=
  (delete_reports_not_found goneWorld demoResource demoPlan DeleteCall.procedureApply
    (fun _ => ⟨⟨404, "404 Not Found", "not found", none⟩, rfl, by decide, by decide⟩)).1

set_option maxRecDepth 100000 in
/-- C9 (counterexample): Delete for `demo` against a control plane that answers
every request `404 Not Found`, as on a second run; each of the seven
control-plane steps is reported as an error. -/
theorem delete_not_found_is_an_error :
    (Delete goneWorld demoResource demoPlan).diags =
      [⟨Severity.error, "API Error", "Error running destroy procedure: received non-OK HTTP status: 404 Not Found, body: not found"⟩,
        ⟨Severity.error, "API Error", "Error deleting apply procedure after retries: received non-OK HTTP status: 404 Not Found, body: not found"⟩,
        ⟨Severity.error, "API Error", "Error deleting destroy procedure after retries: received non-OK HTTP status: 404 Not Found, body: not found"⟩,
        ⟨Severity.error, "API Error", "Error deleting restart procedure after retries: received non-OK HTTP status: 404 Not Found, body: not found"⟩,
        ⟨Severity.error, "API Error", "Error deleting ResourceSetup sync after retries: received non-OK HTTP status: 404 Not Found, body: not found"⟩,
        ⟨Severity.error, "API Error", "Error deleting ContextWare sync after retries: received non-OK HTTP status: 404 Not Found, body: not found"⟩,
        ⟨Severity.error, "API Error", "Error deleting server after retries: received non-OK HTTP status: 404 Not Found, body: not found"⟩] := by
  decide

/-- C10: the requests and diagnostics of Delete depend on the stored state
through its name only: two states with the same name, in the same world and
under the same provider configuration, give the same trace (URLs, bodies,
sleeps and GitHub calls alike) and the same diagnostics. -/
theorem delete_driven_by_name (w : World) (r : komodoResource) (d1 d2 : KomodoModel)
    (hname : d1.Name.ValueString = d2.Name.ValueString) :
    (Delete w r d1).trace = (Delete w r d2).trace ∧
      (Delete w r d1).diags = (Delete w r d2).diags := by
  unfold Delete
  simp only [hname, and_self]

/-- Witness of C10: two states named `demo` that differ in id, file contents,
server address and key generation. -/
theorem delete_driven_by_name_witness :
    demoPlan ≠ otherDemoState ∧
      (Delete goneWorld demoResource demoPlan).trace =
        (Delete goneWorld demoResource otherDemoState).trace ∧
      (Delete goneWorld demoResource demoPlan).diags =
        (Delete goneWorld demoResource otherDemoState).diags :=
  ⟨by decide, delete_driven_by_name goneWorld demoResource demoPlan otherDemoState rfl⟩

/-! ## Entity names -/

set_option maxRecDepth 10000 in
theorem createContextWarePayload_eq (name1 name2 lowerName : String) :
    Create.createContextWarePayload name1 name2 lowerName =
      contextWareDocument (name1 ++ "_ContextWare") (name2 ++ "_ResourceSetup")
        (lowerName ++ "_syncresources") := by
  apply String.ext
  simp [Create.createContextWarePayload, contextWareDocument, String.data_append]

theorem Create.trace_eq (w : World) (r : komodoResource) (plan : KomodoModel) :
    (Create w r plan).trace = (Create.body w r plan).trace ++
      (if HasError (Create.body w r plan).diags = true then
        rollbackEvents w r plan.Name.ValueString (Create.body w r plan).trace
          (Create.body w r plan).cleanupTasks.reverse
      else []) := by
  unfold Create
  dsimp only
  split
  · rw [Create.runCleanup_trace]
  · simp

theorem Step.requests_documents (r : komodoResource) (plan : KomodoModel) (n1 n2 : Nat)
    (st : Step) (x : String × String) (hx : x ∈ Step.requests r plan n1 n2 st) :
    x ∈ Create.documents r (entityNames plan.Name.ValueString) plan.ServerIP.ValueString
      plan.Name.ValueString (toLower plan.Name.ValueString ++ "_syncresources") := by
  cases st <;>
    simp [Step.requests, List.mem_replicate, createContextWarePayload_eq] at hx <;>
    simp [hx, Create.documents, entityNames]

theorem rollbackEvents_documents (w : World) (r : komodoResource) (plan : KomodoModel)
    (tasks : List CleanupTask) (t : List Event) :
    (∀ x ∈ requestsOf (rollbackEvents w r plan.Name.ValueString t tasks),
        x ∈ Create.documents r (entityNames plan.Name.ValueString) plan.ServerIP.ValueString
          plan.Name.ValueString (toLower plan.Name.ValueString ++ "_syncresources")) ∧
      ∀ n ∈ repositoryNames (rollbackEvents w r plan.Name.ValueString t tasks),
        n = (entityNames plan.Name.ValueString).repository := by
  induction tasks generalizing t with
  | nil => simp [rollbackEvents, requestsOf, repositoryNames]
  | cons task rest ih =>
    obtain ⟨ih1, ih2⟩ := ih (t ++ task.events w r plan.Name.ValueString t)
    have hg := gitHubDeleteEvents_setup w r plan.Name.ValueString t
    constructor
    · intro x hx
      rw [rollbackEvents, requestsOf_append, List.mem_append] at hx
      rcases hx with hx | hx
      · cases task
        · rw [CleanupTask.events, hg.1] at hx
          exact absurd hx (List.not_mem_nil _)
        all_goals
          simp [CleanupTask.events, compensationPost, requestsOf] at hx
          simp [hx, Create.documents, entityNames]
      · exact ih1 x hx
    · intro n hn
      rw [rollbackEvents, repositoryNames_append, List.mem_append] at hn
      rcases hn with hn | hn
      · cases task
        · rw [CleanupTask.events] at hn
          exact hg.2.2 n hn
        all_goals simp [CleanupTask.events, compensationPost, repositoryNames] at hn
      · exact ih2 n hn

theorem Create.create_uses_entityNames (w : World) (r : komodoResource) (plan : KomodoModel) :
    (∀ x ∈ requestsOf (Create w r plan).trace,
        x ∈ Create.documents r (entityNames plan.Name.ValueString) plan.ServerIP.ValueString
          plan.Name.ValueString (toLower plan.Name.ValueString ++ "_syncresources")) ∧
      ∀ n ∈ repositoryNames (Create w r plan).trace,
        n = (entityNames plan.Name.ValueString).repository := by
  obtain ⟨g, c, htrace, hg, hcase⟩ := Create.body_ended w r plan
  have hroll := rollbackEvents_documents w r plan
  have hc : ∃ (steps : List Step) (n1 n2 : Nat),
      Control (steps.flatMap (Step.requests r plan n1 n2)) c := by
    rcases hcase with ⟨_, _, _, n1, n2, _, _, _, _, hc⟩ | ⟨st, _, n1, n2, _, _, _, _, _, hc⟩
    · exact ⟨_, n1, n2, hc⟩
    · exact ⟨_, n1, n2, hc⟩
  obtain ⟨steps, n1, n2, hc1, _, hc3⟩ := hc
  rw [Create.trace_eq, htrace]
  constructor
  · intro x hx
    rw [requestsOf_append, requestsOf_append, hg.1, hc1, List.nil_append,
      List.mem_append] at hx
    rcases hx with hx | hx
    · obtain ⟨st, _, hst⟩ := List.mem_flatMap.mp hx
      exact Step.requests_documents r plan n1 n2 st x hst
    · split at hx
      · exact (hroll _ _).1 x hx
      · exact absurd hx (by simp [requestsOf])
  · intro n hn
    rw [repositoryNames_append, repositoryNames_append, hc3, List.append_nil,
      List.mem_append] at hn
    rcases hn with hn | hn
    · exact hg.2.2 n hn
    · split at hn
      · exact (hroll _ _).2 n hn
      · exact absurd hn (by simp [repositoryNames])

theorem Delete.delete_uses_entityNames (w : World) (r : komodoResource) (data : KomodoModel) :
    (∀ x ∈ requestsOf (Delete w r data).trace,
        x ∈ Delete.documents r (entityNames data.Name.ValueString)) ∧
      ∀ n ∈ repositoryNames (Delete w r data).trace,
        n = (entityNames data.Name.ValueString).repository := by
  obtain ⟨c, k1, k2, k3, k4, k5, k6, htrace, _, _, _, _, _, _, hc1, _, hc3⟩ :=
    Delete.trace_shape w r data
  have hg := gitHubDeleteEvents_setup w r data.Name.ValueString c
  rw [htrace]
  constructor
  · intro x hx
    rw [requestsOf_append, hg.1, List.append_nil, hc1] at hx
    simp only [List.mem_append, List.mem_replicate, List.mem_singleton] at hx
    rcases hx with (((((h | ⟨_, h⟩) | ⟨_, h⟩) | ⟨_, h⟩) | ⟨_, h⟩) | ⟨_, h⟩) | ⟨_, h⟩ <;>
      subst h <;> simp [Delete.documents, entityNames]
  · intro n hn
    rw [repositoryNames_append, hc3, List.nil_append] at hn
    exact hg.2.2 n hn

theorem Delete.requests_complete (w : World) (r : komodoResource) (data : KomodoModel) :
    ∀ x ∈ Delete.documents r (entityNames data.Name.ValueString),
      x ∈ requestsOf (Delete w r data).trace := by
  obtain ⟨c, k1, k2, k3, k4, k5, k6, htrace, h1, h2, h3, h4, h5, h6, hc1, _, _⟩ :=
    Delete.trace_shape w r data
  have hg := gitHubDeleteEvents_setup w r data.Name.ValueString c
  have n1 : k1 ≠ 0 := by omega
  have n2 : k2 ≠ 0 := by omega
  have n3 : k3 ≠ 0 := by omega
  have n4 : k4 ≠ 0 := by omega
  have n5 : k5 ≠ 0 := by omega
  have n6 : k6 ≠ 0 := by omega
  intro x hx
  rw [htrace, requestsOf_append, hg.1, List.append_nil, hc1]
  simp only [Delete.documents, entityNames, List.mem_cons, List.mem_singleton,
    List.not_mem_nil, or_false] at hx
  rcases hx with h | h | h | h | h | h | h <;> subst h <;>
    simp [List.mem_append, List.mem_replicate, n1, n2, n3, n4, n5, n6]

/-- C5: the identifiers are a function of the name alone, shared by Create and
Delete.  There is one assignment `ids` of identifiers to names such that, in
every world, every request of Create (creation, polling and compensation
alike) is a document over `ids name`, every request of Delete is a document
over `ids name` for the same function, Delete issues each of its documents, and
every GitHub call of either addresses the repository `(ids name).repository`. -/
theorem create_delete_same_identifiers :
    ∃ ids : String → EntityNames,
      ∀ (w : World) (r : komodoResource) (state : KomodoModel),
        (∀ x ∈ requestsOf (Create w r state).trace,
          x ∈ Create.documents r (ids state.Name.ValueString) state.ServerIP.ValueString
            state.Name.ValueString (toLower state.Name.ValueString ++ "_syncresources")) ∧
        (∀ n ∈ repositoryNames (Create w r state).trace,
          n = (ids state.Name.ValueString).repository) ∧
        (∀ x ∈ requestsOf (Delete w r state).trace,
          x ∈ Delete.documents r (ids state.Name.ValueString)) ∧
        (∀ x ∈ Delete.documents r (ids state.Name.ValueString),
          x ∈ requestsOf (Delete w r state).trace) ∧
        (∀ n ∈ repositoryNames (Delete w r state).trace,
          n = (ids state.Name.ValueString).repository) :=
  ⟨entityNames, fun w r state =>
    ⟨(Create.create_uses_entityNames w r state).1, (Create.create_uses_entityNames w r state).2,
      (Delete.delete_uses_entityNames w r state).1, Delete.requests_complete w r state,
      (Delete.delete_uses_entityNames w r state).2⟩⟩

set_option maxRecDepth 100000 in
/-- C6 (counterexample): for the name `Demo` Delete asks for the deletion of
the sync `Demo_ContextWare`, and never for that of `demo_ContextWare`, the id
built from the lower-cased name. -/
theorem sync_ids_are_not_lower_cased :
    toLower "Demo" = "demo" ∧
      ("https://komodo.example/write",
        entityDocument "\t" "DeleteResourceSync" "id" "Demo_ContextWare") ∈
          requestsOf (Delete calmWorld demoResource upperPlan).trace ∧
      ("https://komodo.example/write",
        entityDocument "\t" "DeleteResourceSync" "id" (toLower "Demo" ++ "_ContextWare")) ∉
          requestsOf (Delete calmWorld demoResource upperPlan).trace := by
  decide

/-- C6 (amended): only the server id is built from the lower-cased name.  In
every world every request of Create and of Delete is a document over these
identifiers: the server id is `server-` followed by the lower-cased name, and
the sync and procedure ids are the name as given followed by `_ContextWare`,
`_ResourceSetup`, `_ProcedureApply`, `_ProcedureDestroy` and
`_ProcedureRestart`; Delete issues each of its documents. -/
theorem entity_names_affixes (w : World) (r : komodoResource) (state : KomodoModel) :
    (∀ x ∈ requestsOf (Create w r state).trace,
        x ∈ Create.documents r
          ⟨"server-" ++ toLower state.Name.ValueString,
            state.Name.ValueString ++ "_ContextWare",
            state.Name.ValueString ++ "_ResourceSetup",
            state.Name.ValueString ++ "_ProcedureApply",
            state.Name.ValueString ++ "_ProcedureDestroy",
            state.Name.ValueString ++ "_ProcedureRestart",
            sanitizeRepoName state.Name.ValueString ++ "_syncresources"⟩
          state.ServerIP.ValueString state.Name.ValueString
          (toLower state.Name.ValueString ++ "_syncresources")) ∧
      (∀ x ∈ requestsOf (Delete w r state).trace,
        x ∈ Delete.documents r
          ⟨"server-" ++ toLower state.Name.ValueString,
            state.Name.ValueString ++ "_ContextWare",
            state.Name.ValueString ++ "_ResourceSetup",
            state.Name.ValueString ++ "_ProcedureApply",
            state.Name.ValueString ++ "_ProcedureDestroy",
            state.Name.ValueString ++ "_ProcedureRestart",
            sanitizeRepoName state.Name.ValueString ++ "_syncresources"⟩) ∧
      (∀ x ∈ Delete.documents r
          ⟨"server-" ++ toLower state.Name.ValueString,
            state.Name.ValueString ++ "_ContextWare",
            state.Name.ValueString ++ "_ResourceSetup",
            state.Name.ValueString ++ "_ProcedureApply",
            state.Name.ValueString ++ "_ProcedureDestroy",
            state.Name.ValueString ++ "_ProcedureRestart",
            sanitizeRepoName state.Name.ValueString ++ "_syncresources"⟩,
        x ∈ requestsOf (Delete w r state).trace) :=
  ⟨(Create.create_uses_entityNames w r state).1, (Delete.delete_uses_entityNames w r state).1,
    Delete.requests_complete w r state⟩

set_option maxRecDepth 100000 in
theorem delete_lower_cases_beyond_ascii :
    ("https://komodo.example/write", entityDocument "\t" "DeleteServer" "id" "server-école") ∈
        requestsOf (Delete calmWorld demoResource ecolePlan).trace ∧
      ("https://komodo.example/write",
        entityDocument "\t" "DeleteResourceSync" "id" "ÉCOLE_ContextWare") ∈
        requestsOf (Delete calmWorld demoResource ecolePlan).trace := by
  decide

/-! ## The retry policy -/

/-- C11: retryAPICall retries on the transient condition only.  At any point
of its loop with an attempt left, if the attempt fails with an error whose text
does not contain `Procedure busy`, the loop returns that same error with the
one post of the attempt added to the trace: no sleep and no further attempt.
In particular this holds for the first call. -/
theorem retry_stops_on_fatal_error (w : World) (r : komodoResource) (payload url : String)
    (remaining i : Nat) (lastErr : Option String) (t t1 : List Event) (err : String)
    (hcall : makeAPICall w r payload url t = (some err, t1))
    (hfatal : Contains err "Procedure busy" = false) :
    retryAPICallLoop w r payload url (remaining + 1) i lastErr t =
        (some err, t ++ [Event.post ⟨url, payload, r.apiKey, r.apiSecret⟩]) ∧
      retryAPICall w r payload url (remaining + 1) t =
        (some err, t ++ [Event.post ⟨url, payload, r.apiKey, r.apiSecret⟩]) := by
  have ht1 := makeAPICall_of_eq hcall
  subst ht1
  constructor
  · unfold retryAPICallLoop
    rw [hcall]
    simp [hfatal]
  · unfold retryAPICall retryAPICallLoop
    rw [hcall]
    simp [hfatal]

set_option maxRecDepth 100000 in
/-- Witness of C11: the deletion of the apply procedure of `demo` with budget 5
against a control plane that answers `404 Not Found` is one post and the
error. -/
theorem retry_stops_on_fatal_error_witness :
    retryAPICall goneWorld demoResource (Delete.deleteProcedureApplyPayload "demo")
        "https://komodo.example/write" 5 [] =
      (some "received non-OK HTTP status: 404 Not Found, body: not found",
        [Event.post ⟨"https://komodo.example/write", Delete.deleteProcedureApplyPayload "demo",
          "key", "secret"⟩]) :=
  (retry_stops_on_fatal_error goneWorld demoResource (Delete.deleteProcedureApplyPayload "demo")
    "https://komodo.example/write" 4 0 none [] _
    "received non-OK HTTP status: 404 Not Found, body: not found" (by rfl) (by decide)).2

theorem sleepsOf_append (a b : List Event) : sleepsOf (a ++ b) = sleepsOf a ++ sleepsOf b := by
  simp [sleepsOf, List.filterMap_append]

theorem retryHistory_shape (w : World) (q : Request) (k i : Nat) (t : List Event) :
    ∃ ev, retryHistory w q i k t = t ++ ev ∧
      requestsOf ev = List.replicate k (q.url, q.payload) ∧ (sleepsOf ev).length = k := by
  induction k generalizing i t with
  | zero => exact ⟨[], by simp [retryHistory], by simp [requestsOf], by simp [sleepsOf]⟩
  | succ k ih =>
    obtain ⟨ev, h1, h2, h3⟩ := ih (i + 1)
      (t ++ [Event.post q] ++ [Event.sleep (3 * (i + 1) + w.randIntn (t ++ [Event.post q]) % 3)])
    refine ⟨[Event.post q] ++ [Event.sleep (3 * (i + 1) + w.randIntn (t ++ [Event.post q]) % 3)]
      ++ ev, ?_, ?_, ?_⟩
    · rw [retryHistory, h1]
      simp [List.append_assoc]
    · rw [requestsOf_append, h2]
      simp [requestsOf, List.replicate_succ]
    · rw [sleepsOf_append, List.length_append, h3]
      simp [sleepsOf]
      omega

theorem makeAPICall_eq_of_fst (w : World) (r : komodoResource) (payload url : String)
    (t : List Event) (res : Option String) (h : (makeAPICall w r payload url t).1 = res) :
    makeAPICall w r payload url t =
      (res, t ++ [Event.post ⟨url, payload, r.apiKey, r.apiSecret⟩]) := by
  rw [← h, ← makeAPICall_trace w r payload url t]

theorem retryAPICallLoop_after_busy (w : World) (r : komodoResource) (payload url : String)
    (k n i : Nat) (lastErr : Option String) (t : List Event) (hk : k < n)
    (hbusy : ∀ j < k, ∃ err,
      (makeAPICall w r payload url
        (retryHistory w ⟨url, payload, r.apiKey, r.apiSecret⟩ i j t)).1 = some err ∧
      Contains err "Procedure busy" = true)
    (hok : (makeAPICall w r payload url
      (retryHistory w ⟨url, payload, r.apiKey, r.apiSecret⟩ i k t)).1 = none) :
    retryAPICallLoop w r payload url n i lastErr t =
      (none, retryHistory w ⟨url, payload, r.apiKey, r.apiSecret⟩ i k t ++
        [Event.post ⟨url, payload, r.apiKey, r.apiSecret⟩]) := by
  induction k generalizing n i lastErr t with
  | zero =>
    obtain ⟨n, rfl⟩ : ∃ m, n = m + 1 := ⟨n - 1, by omega⟩
    rw [retryHistory] at hok
    unfold retryAPICallLoop
    rw [makeAPICall_eq_of_fst w r payload url t none hok]
    rfl
  | succ k ih =>
    obtain ⟨n, rfl⟩ : ∃ m, n = m + 1 := ⟨n - 1, by omega⟩
    obtain ⟨err, herr, hcontains⟩ := hbusy 0 (by omega)
    rw [retryHistory] at herr
    unfold retryAPICallLoop
    rw [makeAPICall_eq_of_fst w r payload url t (some err) herr]
    simp only [hcontains, if_true]
    rw [retryHistory]
    exact ih n (i + 1) (some err) _ (by omega)
      (fun j hj => hbusy (j + 1) (by omega)) hok

theorem retryAPICallLoop_all_busy (w : World) (r : komodoResource) (payload url : String)
    (n i : Nat) (lastErr : Option String) (t : List Event)
    (hbusy : ∀ j < n + 1, ∃ err,
      (makeAPICall w r payload url
        (retryHistory w ⟨url, payload, r.apiKey, r.apiSecret⟩ i j t)).1 = some err ∧
      Contains err "Procedure busy" = true) :
    retryAPICallLoop w r payload url (n + 1) i lastErr t =
      ((makeAPICall w r payload url
          (retryHistory w ⟨url, payload, r.apiKey, r.apiSecret⟩ i n t)).1,
        retryHistory w ⟨url, payload, r.apiKey, r.apiSecret⟩ i (n + 1) t) := by
  induction n generalizing i lastErr t with
  | zero =>
    obtain ⟨err, herr, hcontains⟩ := hbusy 0 (by omega)
    rw [retryHistory] at herr
    unfold retryAPICallLoop
    rw [makeAPICall_eq_of_fst w r payload url t (some err) herr]
    simp only [hcontains, if_true]
    simp only [retryAPICallLoop, retryHistory]
    rw [herr]
  | succ n ih =>
    obtain ⟨err, herr, hcontains⟩ := hbusy 0 (by omega)
    rw [retryHistory] at herr
    unfold retryAPICallLoop
    rw [makeAPICall_eq_of_fst w r payload url t (some err) herr]
    simp only [hcontains, if_true]
    rw [ih (i + 1) (some err) _ (fun j hj => hbusy (j + 1) (by omega))]
    rfl

/-- C12: if the first `k` attempts of retryAPICall fail with the transient
`Procedure busy` error and attempt `k + 1` succeeds, with `k` below the budget,
then retryAPICall returns success and what it adds to the trace holds exactly
`k + 1` posts of the request and exactly `k` sleeps. -/
theorem retry_succeeds_after_busy (w : World) (r : komodoResource) (payload url : String)
    (maxRetries k : Nat) (t : List Event) (hk : k < maxRetries)
    (hbusy : ∀ j < k, ∃ err,
      (makeAPICall w r payload url
        (retryHistory w ⟨url, payload, r.apiKey, r.apiSecret⟩ 0 j t)).1 = some err ∧
      Contains err "Procedure busy" = true)
    (hok : (makeAPICall w r payload url
      (retryHistory w ⟨url, payload, r.apiKey, r.apiSecret⟩ 0 k t)).1 = none) :
    ∃ ev, retryAPICall w r payload url maxRetries t = (none, t ++ ev) ∧
      requestsOf ev = List.replicate (k + 1) (url, payload) ∧ (sleepsOf ev).length = k := by
  obtain ⟨ev, h1, h2, h3⟩ := retryHistory_shape w ⟨url, payload, r.apiKey, r.apiSecret⟩ k 0 t
  refine ⟨ev ++ [Event.post ⟨url, payload, r.apiKey, r.apiSecret⟩], ?_, ?_, ?_⟩
  · unfold retryAPICall
    rw [retryAPICallLoop_after_busy w r payload url k maxRetries 0 none t hk hbusy hok, h1,
      List.append_assoc]
  · rw [requestsOf_append, h2]
    simp [requestsOf, List.replicate_succ']
  · rw [sleepsOf_append, List.length_append, h3]
    simp [sleepsOf]

set_option maxRecDepth 100000 in
/-- Witness of C12 in the scenario of the specification: in the teardown of
`demo` the deletion of the apply procedure is answered `Procedure busy` twice
and then accepted; with budget 5 it succeeds after three posts and two sleeps,
and Delete reports no error. -/
theorem retry_succeeds_after_busy_witness :
    (∃ ev, retryAPICall busyTwiceWorld demoResource (Delete.deleteProcedureApplyPayload "demo")
          "https://komodo.example/write" 5
          [Event.post ⟨"https://komodo.example/execute", Delete.runDestroyPayload "demo", "key",
            "secret"⟩, Event.sleep 5] =
        (none, [Event.post ⟨"https://komodo.example/execute", Delete.runDestroyPayload "demo",
          "key", "secret"⟩, Event.sleep 5] ++ ev) ∧
        requestsOf ev = List.replicate (2 + 1)
          ("https://komodo.example/write", Delete.deleteProcedureApplyPayload "demo") ∧
        (sleepsOf ev).length = 2) ∧
      (Delete busyTwiceWorld demoResource demoPlan).diags = [] ∧
      (requestsOf (Delete busyTwiceWorld demoResource demoPlan).trace).count
        ("https://komodo.example/write", Delete.deleteProcedureApplyPayload "demo") = 3 :=
  ⟨retry_succeeds_after_busy busyTwiceWorld demoResource
      (Delete.deleteProcedureApplyPayload "demo") "https://komodo.example/write" 5 2 _
      (by decide)
      (fun j hj =>
        match j, hj with
        | 0, _ =>
          ⟨"received non-OK HTTP status: 500 Internal Server Error, body: Procedure busy",
            by decide, by decide⟩
        | 1, _ =>
          ⟨"received non-OK HTTP status: 500 Internal Server Error, body: Procedure busy",
            by decide, by decide⟩
        | j + 2, h => absurd h (by omega))
      (by decide),
    by decide, by decide⟩

/-- C13: retries are bounded.  With a budget of at least one, retryAPICall
makes at least one and at most `maxRetries` attempts, whatever the responses;
when every attempt fails with the transient error it returns the error of the
last attempt after exactly `maxRetries` attempts; and in Delete every procedure
and sync deletion is attempted at most 5 times and the server deletion at most
3 times. -/
theorem retry_is_bounded (w : World) (r : komodoResource) (payload url : String)
    (maxRetries : Nat) (t : List Event) (hpos : 1 ≤ maxRetries) :
    (∃ ev k, (retryAPICall w r payload url maxRetries t).2 = t ++ ev ∧
        1 ≤ k ∧ k ≤ maxRetries ∧ requestsOf ev = List.replicate k (url, payload)) ∧
      ((∀ j < maxRetries, ∃ err,
          (makeAPICall w r payload url
            (retryHistory w ⟨url, payload, r.apiKey, r.apiSecret⟩ 0 j t)).1 = some err ∧
          Contains err "Procedure busy" = true) →
        ∃ ev, retryAPICall w r payload url maxRetries t =
            ((makeAPICall w r payload url
              (retryHistory w ⟨url, payload, r.apiKey, r.apiSecret⟩ 0 (maxRetries - 1) t)).1,
              t ++ ev) ∧
          requestsOf ev = List.replicate maxRetries (url, payload)) ∧
      ∀ data : KomodoModel, ∃ k1 k2 k3 k4 k5 k6,
        k1 ≤ 5 ∧ k2 ≤ 5 ∧ k3 ≤ 5 ∧ k4 ≤ 5 ∧ k5 ≤ 5 ∧ k6 ≤ 3 ∧
        requestsOf (Delete w r data).trace =
          [(r.endpoint ++ "execute", entityDocument "\t" "RunProcedure" "procedure"
              (data.Name.ValueString ++ "_ProcedureDestroy"))] ++
            List.replicate k1 (r.endpoint ++ "write", entityDocument "\t" "DeleteProcedure" "id"
              (data.Name.ValueString ++ "_ProcedureApply")) ++
            List.replicate k2 (r.endpoint ++ "write", entityDocument "\t" "DeleteProcedure" "id"
              (data.Name.ValueString ++ "_ProcedureDestroy")) ++
            List.replicate k3 (r.endpoint ++ "write", entityDocument "\t" "DeleteProcedure" "id"
              (data.Name.ValueString ++ "_ProcedureRestart")) ++
            List.replicate k4 (r.endpoint ++ "write",
              entityDocument "\t" "DeleteResourceSync" "id"
                (data.Name.ValueString ++ "_ResourceSetup")) ++
            List.replicate k5 (r.endpoint ++ "write",
              entityDocument "\t" "DeleteResourceSync" "id"
                (data.Name.ValueString ++ "_ContextWare")) ++
            List.replicate k6 (r.endpoint ++ "write", entityDocument "\t" "DeleteServer" "id"
              ("server-" ++ toLower data.Name.ValueString)) := by
  refine ⟨?_, ?_, ?_⟩
  · obtain ⟨ev, k, h1, h2, h3, h4⟩ := retryAPICall_trace w r payload url maxRetries t
    exact ⟨ev, k, h1, h3 (by omega), h2, h4.1⟩
  · intro hbusy
    obtain ⟨n, rfl⟩ : ∃ m, maxRetries = m + 1 := ⟨maxRetries - 1, by omega⟩
    obtain ⟨ev, h1, h2, _⟩ := retryHistory_shape w ⟨url, payload, r.apiKey, r.apiSecret⟩
      (n + 1) 0 t
    refine ⟨ev, ?_, h2⟩
    unfold retryAPICall
    rw [retryAPICallLoop_all_busy w r payload url n 0 none t hbusy, h1]
    rfl
  · intro data
    obtain ⟨c, k1, k2, k3, k4, k5, k6, htrace, h1, h2, h3, h4, h5, h6, hc⟩ :=
      Delete.trace_shape w r data
    refine ⟨k1, k2, k3, k4, k5, k6, h1.2, h2.2, h3.2, h4.2, h5.2, h6.2, ?_⟩
    rw [htrace, requestsOf_append, (gitHubDeleteEvents_setup w r _ c).1, List.append_nil]
    exact hc.1

set_option maxRecDepth 100000 in
/-- Witness of C13: on a control plane where every procedure is busy, the
server deletion of `demo` with budget 3 is three posts and returns the busy
error, and the teardown of `demo` reaches every budget: five posts for each
procedure and sync deletion and three for the server. -/
theorem retry_is_bounded_witness :
    (∃ ev, retryAPICall busyWorld demoResource (Delete.deleteServerPayload "server-demo")
          "https://komodo.example/write" 3 [] =
        (some "received non-OK HTTP status: 500 Internal Server Error, body: Procedure busy",
          [] ++ ev) ∧
        requestsOf ev = List.replicate 3
          ("https://komodo.example/write", Delete.deleteServerPayload "server-demo")) ∧
      requestsOf (Delete busyWorld demoResource demoPlan).trace =
        [("https://komodo.example/execute", Delete.runDestroyPayload "demo")] ++
          List.replicate 5
            ("https://komodo.example/write", Delete.deleteProcedureApplyPayload "demo") ++
          List.replicate 5
            ("https://komodo.example/write", Delete.deleteProcedureDestroyPayload "demo") ++
          List.replicate 5
            ("https://komodo.example/write", Delete.deleteProcedureRestartPayload "demo") ++
          List.replicate 5
            ("https://komodo.example/write", Delete.deleteResourceSetupSyncPayload "demo") ++
          List.replicate 5
            ("https://komodo.example/write", Delete.deleteContextWareSyncPayload "demo") ++
          List.replicate 3
            ("https://komodo.example/write", Delete.deleteServerPayload "server-demo") :=
  ⟨(retry_is_bounded busyWorld demoResource (Delete.deleteServerPayload "server-demo")
      "https://komodo.example/write" 3 [] (by decide)).2.1
      (fun j hj =>
        match j, hj with
        | 0, _ =>
          ⟨"received non-OK HTTP status: 500 Internal Server Error, body: Procedure busy",
            by decide, by decide⟩
        | 1, _ =>
          ⟨"received non-OK HTTP status: 500 Internal Server Error, body: Procedure busy",
            by decide, by decide⟩
        | 2, _ =>
          ⟨"received non-OK HTTP status: 500 Internal Server Error, body: Procedure busy",
            by decide, by decide⟩
        | j + 3, h => absurd h (by omega)),
    by decide⟩

/-! ## The readiness pollers -/

theorem Poller.wait_eq_loop (p : Poller) (w : World) (r : komodoResource) (serverName : String)
    (maxAttempts sleepDuration : Nat) (t : List Event) :
    p.wait w r serverName maxAttempts sleepDuration t =
      p.loop w r serverName maxAttempts sleepDuration maxAttempts t := by
  cases p <;> rfl

theorem Poller.loop_zero (p : Poller) (w : World) (r : komodoResource) (serverName : String)
    (maxAttempts sleepDuration : Nat) (t : List Event) :
    p.loop w r serverName maxAttempts sleepDuration 0 t =
      (some (p.timeoutError serverName maxAttempts), t) := by
  cases p <;> rfl

theorem Poller.loop_succ (p : Poller) (w : World) (r : komodoResource) (serverName : String)
    (maxAttempts sleepDuration n : Nat) (t : List Event) :
    p.loop w r serverName maxAttempts sleepDuration (n + 1) t =
      match p.verdict w (w.http t (p.request r serverName)) with
      | .error e => (some e, t ++ [Event.post (p.request r serverName)])
      | .ok true => (none, t ++ [Event.post (p.request r serverName)])
      | .ok false =>
        p.loop w r serverName maxAttempts sleepDuration n
          (t ++ [Event.post (p.request r serverName)] ++ [Event.sleep sleepDuration]) := by
  cases p
  · simp only [Poller.loop, Poller.request, Poller.verdict, Poller.isReady]
    rw [waitForServerAvailabilityLoop]
    cases w.http t ⟨r.endpoint ++ "read", getServerPayload serverName, r.apiKey, r.apiSecret⟩ with
    | requestError e => rfl
    | transportError e => rfl
    | response resp =>
      dsimp only
      by_cases h200 : resp.statusCode = 200
      · simp only [h200, if_true]
        cases resp.readErr with
        | some e => rfl
        | none =>
          dsimp only
          cases w.jsonUnmarshal resp.body with
          | error e => rfl
          | ok result =>
            dsimp only
            cases hasConfigAddress result <;> simp
      · simp only [h200, if_false]
  · simp only [Poller.loop, Poller.request, Poller.verdict, Poller.isReady]
    rw [waitForServerStateEnabledLoop]
    cases w.http t ⟨r.endpoint ++ "read", getServerStatePayload serverName, r.apiKey,
      r.apiSecret⟩ with
    | requestError e => rfl
    | transportError e => rfl
    | response resp =>
      dsimp only
      by_cases h200 : resp.statusCode = 200
      · simp only [h200, if_true]
        cases resp.readErr with
        | some e => rfl
        | none =>
          dsimp only
          cases w.jsonUnmarshal resp.body with
          | error e => rfl
          | ok result =>
            dsimp only
            cases hasStatusOk result <;> simp
      · simp only [h200, if_false]

theorem pollHistory_snoc (q : Request) (d j : Nat) (t : List Event) :
    pollHistory q d (j + 1) t = pollHistory q d j t ++ [Event.post q] ++ [Event.sleep d] := by
  induction j generalizing t with
  | zero => rfl
  | succ j ih =>
    rw [pollHistory, ih]
    rfl

theorem pollHistory_shape (q : Request) (d j : Nat) (t : List Event) :
    ∃ ev, pollHistory q d j t = t ++ ev ∧
      requestsOf ev = List.replicate j (q.url, q.payload) ∧
      sleepsOf ev = List.replicate j d ∧ (0 < j → ev.getLast? = some (Event.sleep d)) := by
  induction j with
  | zero =>
    exact ⟨[], by simp [pollHistory], by simp [requestsOf], by simp [sleepsOf],
      fun h => absurd h (by omega)⟩
  | succ j ih =>
    obtain ⟨ev, h1, h2, h3, _⟩ := ih
    refine ⟨ev ++ [Event.post q] ++ [Event.sleep d], ?_, ?_, ?_, ?_⟩
    · rw [pollHistory_snoc, h1]
      simp [List.append_assoc]
    · rw [requestsOf_append, requestsOf_append, h2]
      simp [requestsOf, List.replicate_succ']
    · rw [sleepsOf_append, sleepsOf_append, h3]
      simp [sleepsOf, List.replicate_succ']
    · intro _
      simp

theorem containsChars_middle (a b c : List Char) : containsChars (a ++ b ++ c) b = true := by
  unfold containsChars
  rw [List.any_eq_true]
  refine ⟨b ++ c, ?_, ?_⟩
  · rw [List.mem_tails, List.append_assoc]
    exact List.suffix_append a (b ++ c)
  · rw [List.isPrefixOf_iff_prefix]
    exact List.prefix_append b c

theorem Contains_middle (a b c : String) : Contains (a ++ b ++ c) b = true := by
  unfold Contains
  rw [String.data_append, String.data_append]
  exact containsChars_middle _ _ _

theorem Contains_end (a b : String) : Contains (a ++ b) b = true := by
  have h := containsChars_middle a.data b.data []
  unfold Contains
  rw [String.data_append]
  simpa using h

theorem Poller.loop_ready (p : Poller) (w : World) (r : komodoResource) (serverName : String)
    (maxAttempts sleepDuration m n : Nat) (t : List Event) (hm : m < n)
    (hfalse : ∀ j < m, p.verdict w
      (w.http (pollHistory (p.request r serverName) sleepDuration j t) (p.request r serverName)) =
        Except.ok false)
    (htrue : p.verdict w
      (w.http (pollHistory (p.request r serverName) sleepDuration m t) (p.request r serverName)) =
        Except.ok true) :
    p.loop w r serverName maxAttempts sleepDuration n t =
      (none, pollHistory (p.request r serverName) sleepDuration m t ++
        [Event.post (p.request r serverName)]) := by
  induction m generalizing n t with
  | zero =>
    obtain ⟨n, rfl⟩ : ∃ k, n = k + 1 := ⟨n - 1, by omega⟩
    rw [pollHistory] at htrue
    rw [Poller.loop_succ, htrue]
    rfl
  | succ m ih =>
    obtain ⟨n, rfl⟩ : ∃ k, n = k + 1 := ⟨n - 1, by omega⟩
    have h0 := hfalse 0 (by omega)
    rw [pollHistory] at h0
    rw [Poller.loop_succ, h0]
    dsimp only
    rw [ih n _ (by omega) (fun j hj => hfalse (j + 1) (by omega)) htrue]
    rfl

theorem Poller.loop_never_ready (p : Poller) (w : World) (r : komodoResource)
    (serverName : String) (maxAttempts sleepDuration n : Nat) (t : List Event)
    (hfalse : ∀ j < n, p.verdict w
      (w.http (pollHistory (p.request r serverName) sleepDuration j t) (p.request r serverName)) =
        Except.ok false) :
    p.loop w r serverName maxAttempts sleepDuration n t =
      (some (p.timeoutError serverName maxAttempts),
        pollHistory (p.request r serverName) sleepDuration n t) := by
  induction n generalizing t with
  | zero => rw [Poller.loop_zero, pollHistory]
  | succ n ih =>
    have h0 := hfalse 0 (by omega)
    rw [pollHistory] at h0
    rw [Poller.loop_succ, h0]
    dsimp only
    rw [ih _ (fun j hj => hfalse (j + 1) (by omega))]
    rfl

/-- C14: each poller returns success on the first attempt that finds the server
ready.  If the attempts before attempt `m + 1` find it not ready and attempt
`m + 1` finds it ready, with `m + 1` within `maxAttempts`, the poller returns
nil and what it adds to the trace is exactly `m + 1` posts of its request and
exactly `m` sleeps of the interval, the last event being the post of the
successful attempt. -/
theorem poller_returns_on_first_ready (p : Poller) (w : World) (r : komodoResource)
    (serverName : String) (maxAttempts sleepDuration m : Nat) (t : List Event)
    (hm : m < maxAttempts)
    (hfalse : ∀ j < m, p.verdict w
      (w.http (pollHistory (p.request r serverName) sleepDuration j t) (p.request r serverName)) =
        Except.ok false)
    (htrue : p.verdict w
      (w.http (pollHistory (p.request r serverName) sleepDuration m t) (p.request r serverName)) =
        Except.ok true) :
    ∃ ev, p.wait w r serverName maxAttempts sleepDuration t = (none, t ++ ev) ∧
      requestsOf ev = List.replicate (m + 1)
        ((p.request r serverName).url, (p.request r serverName).payload) ∧
      sleepsOf ev = List.replicate m sleepDuration ∧
      ev.getLast? = some (Event.post (p.request r serverName)) := by
  obtain ⟨ev, h1, h2, h3, _⟩ := pollHistory_shape (p.request r serverName) sleepDuration m t
  refine ⟨ev ++ [Event.post (p.request r serverName)], ?_, ?_, ?_, by simp⟩
  · rw [Poller.wait_eq_loop,
      Poller.loop_ready p w r serverName maxAttempts sleepDuration m maxAttempts t hm hfalse htrue,
      h1, List.append_assoc]
  · rw [requestsOf_append, h2]
    simp [requestsOf, List.replicate_succ']
  · rw [sleepsOf_append, h3]
    simp [sleepsOf]

/-- C15: when every attempt of a poller finds the server not ready, the poller
posts its request exactly `maxAttempts` times, sleeps the interval after every
attempt, the last one included (`maxAttempts` sleeps, the final event being a
sleep), and returns the timeout error, whose text holds `maxAttempts`. -/
theorem poller_times_out (p : Poller) (w : World) (r : komodoResource)
    (serverName : String) (maxAttempts sleepDuration : Nat) (t : List Event)
    (hfalse : ∀ j < maxAttempts, p.verdict w
      (w.http (pollHistory (p.request r serverName) sleepDuration j t) (p.request r serverName)) =
        Except.ok false) :
    (∃ ev, p.wait w r serverName maxAttempts sleepDuration t =
          (some (p.timeoutError serverName maxAttempts), t ++ ev) ∧
        requestsOf ev = List.replicate maxAttempts
          ((p.request r serverName).url, (p.request r serverName).payload) ∧
        sleepsOf ev = List.replicate maxAttempts sleepDuration ∧
        (0 < maxAttempts → ev.getLast? = some (Event.sleep sleepDuration))) ∧
      Contains (p.timeoutError serverName maxAttempts) (toString maxAttempts) = true ∧
      Contains (p.timeoutError serverName maxAttempts)
        (toString maxAttempts ++ " attempts") = true := by
  refine ⟨?_, ?_, ?_⟩
  · obtain ⟨ev, h1, h2, h3, h4⟩ :=
      pollHistory_shape (p.request r serverName) sleepDuration maxAttempts t
    refine ⟨ev, ?_, h2, h3, h4⟩
    rw [Poller.wait_eq_loop,
      Poller.loop_never_ready p w r serverName maxAttempts sleepDuration maxAttempts t hfalse, h1]
  · cases p <;> exact Contains_middle _ _ _
  · cases p
    · have := Contains_end ("server " ++ serverName ++ " did not become available after ")
        (toString maxAttempts ++ " attempts")
      simpa [Poller.timeoutError, String.append_assoc] using this
    · have := Contains_end ("server " ++ serverName ++ " did not reach OK state after ")
        (toString maxAttempts ++ " attempts")
      simpa [Poller.timeoutError, String.append_assoc] using this

set_option maxRecDepth 100000 in
/-- Witness of C14: the server of `demo` is ready from the third poll on; each
poller, allowed 30 attempts, returns nil after three posts and two sleeps. -/
theorem poller_returns_on_first_ready_witness :
    (∃ ev, Poller.availability.wait readyThirdWorld demoResource "server-demo" 30 10 [] =
          (none, [] ++ ev) ∧
        requestsOf ev = List.replicate (2 + 1)
          ((Poller.availability.request demoResource "server-demo").url,
            (Poller.availability.request demoResource "server-demo").payload) ∧
        sleepsOf ev = List.replicate 2 10 ∧
        ev.getLast? = some (Event.post (Poller.availability.request demoResource "server-demo"))) ∧
      (∃ ev, Poller.stateEnabled.wait readyThirdWorld demoResource "server-demo" 30 10 [] =
          (none, [] ++ ev) ∧
        requestsOf ev = List.replicate (2 + 1)
          ((Poller.stateEnabled.request demoResource "server-demo").url,
            (Poller.stateEnabled.request demoResource "server-demo").payload) ∧
        sleepsOf ev = List.replicate 2 10 ∧
        ev.getLast? = some (Event.post (Poller.stateEnabled.request demoResource "server-demo"))) :=
  ⟨poller_returns_on_first_ready Poller.availability readyThirdWorld demoResource "server-demo"
      30 10 2 [] (by decide)
      (fun j hj =>
        match j, hj with
        | 0, _ => rfl
        | 1, _ => rfl
        | j + 2, h => absurd h (by omega))
      rfl,
    poller_returns_on_first_ready Poller.stateEnabled readyThirdWorld demoResource "server-demo"
      30 10 2 [] (by decide)
      (fun j hj =>
        match j, hj with
        | 0, _ => rfl
        | 1, _ => rfl
        | j + 2, h => absurd h (by omega))
      rfl⟩

set_option maxRecDepth 100000 in
/-- Witness of C15: the server of `demo` never gets ready; the availability
poller, allowed 3 attempts of 10 seconds, posts three times, sleeps three
times and returns the timeout error. -/
theorem poller_times_out_witness :
    ∃ ev, Poller.availability.wait neverReadyWorld demoResource "server-demo" 3 10 [] =
        (some (Poller.availability.timeoutError "server-demo" 3), [] ++ ev) ∧
      requestsOf ev = List.replicate 3
        ((Poller.availability.request demoResource "server-demo").url,
          (Poller.availability.request demoResource "server-demo").payload) ∧
      sleepsOf ev = List.replicate 3 10 ∧
      (0 < 3 → ev.getLast? = some (Event.sleep 10)) :=
  (poller_times_out Poller.availability neverReadyWorld demoResource "server-demo" 3 10 []
    (fun j hj =>
      match j, hj with
      | 0, _ => rfl
      | 1, _ => rfl
      | 2, _ => rfl
      | j + 3, h => absurd h (by omega))).1

set_option maxRecDepth 100000 in
/-- C16 (counterexample): the control plane answers `200 OK` with a body that
is not JSON; each poller, allowed 30 attempts, returns the parse error after
its first post, without a sleep and without a second attempt. -/
theorem poller_aborts_on_first_malformed_body :
    waitForServerAvailability malformedWorld demoResource "server-demo" 30 10 [] =
        (some "error parsing response: invalid character '<' looking for beginning of value",
          [Event.post ⟨"https://komodo.example/read", getServerPayload "server-demo", "key",
            "secret"⟩]) ∧
      waitForServerStateEnabled malformedWorld demoResource "server-demo" 30 10 [] =
        (some "error parsing response: invalid character '<' looking for beginning of value",
          [Event.post ⟨"https://komodo.example/read", getServerStatePayload "server-demo", "key",
            "secret"⟩]) := by
  decide

/-- C16 (amended): in both pollers a transport failure or a status other than
200 consumes one attempt, and polling goes on after the sleep; a 200 response
whose body is not JSON does not: the poller returns `error parsing response`
with the decoder's text at once, after the post of that attempt, without a
sleep and whatever number of attempts is left. -/
theorem poller_aborts_on_malformed_body (p : Poller) (w : World) (r : komodoResource)
    (serverName : String) (maxAttempts sleepDuration remaining : Nat) (t : List Event)
    (resp : HttpResponse) (e : String)
    (hresp : w.http t (p.request r serverName) = CallOutcome.response resp)
    (h200 : resp.statusCode = 200) (hread : resp.readErr = none)
    (hparse : w.jsonUnmarshal resp.body = Except.error e) :
    p.loop w r serverName maxAttempts sleepDuration (remaining + 1) t =
        (some ("error parsing response: " ++ e), t ++ [Event.post (p.request r serverName)]) ∧
      p.wait w r serverName (remaining + 1) sleepDuration t =
        (some ("error parsing response: " ++ e), t ++ [Event.post (p.request r serverName)]) ∧
      ∀ t1 : List Event,
        ((∃ e1, w.http t1 (p.request r serverName) = CallOutcome.transportError e1) ∨
          ∃ resp1, w.http t1 (p.request r serverName) = CallOutcome.response resp1 ∧
            resp1.statusCode ≠ 200) →
        p.loop w r serverName maxAttempts sleepDuration (remaining + 1) t1 =
          p.loop w r serverName maxAttempts sleepDuration remaining
            (t1 ++ [Event.post (p.request r serverName)] ++ [Event.sleep sleepDuration]) := by
  have hverdict : p.verdict w (w.http t (p.request r serverName)) =
      Except.error ("error parsing response: " ++ e) := by
    rw [hresp]
    simp [Poller.verdict, h200, hread, hparse]
  refine ⟨?_, ?_, ?_⟩
  · rw [Poller.loop_succ, hverdict]
  · rw [Poller.wait_eq_loop, Poller.loop_succ, hverdict]
  · intro t1 h
    have hv : p.verdict w (w.http t1 (p.request r serverName)) = Except.ok false := by
      rcases h with ⟨e1, h1⟩ | ⟨resp1, h1, hne⟩
      · rw [h1]
        rfl
      · rw [h1]
        simp [Poller.verdict, hne]
    rw [Poller.loop_succ, hv]

set_option maxRecDepth 100000 in
/-- Witness of C16 (amended): the availability poller against the control
plane that answers `200 OK` with an HTML page. -/
theorem poller_aborts_on_malformed_body_witness :
    Poller.availability.wait malformedWorld demoResource "server-demo" (29 + 1) 10 [] =
      (some ("error parsing response: " ++
          "invalid character '<' looking for beginning of value"),
        [] ++ [Event.post (Poller.availability.request demoResource "server-demo")]) :=
  (poller_aborts_on_malformed_body Poller.availability malformedWorld demoResource "server-demo"
    30 10 29 [] ⟨200, "200 OK", "<html>", none⟩
    "invalid character '<' looking for beginning of value" rfl rfl rfl rfl).2.1

/-! ## The control-plane client -/

theorem makeAPICall_nil_iff (w : World) (r : komodoResource) (payload url : String)
    (t : List Event) :
    (makeAPICall w r payload url t).1 = none ↔
      ∃ resp, w.http t ⟨url, payload, r.apiKey, r.apiSecret⟩ = CallOutcome.response resp ∧
        resp.statusCode = 200 := by
  unfold makeAPICall
  dsimp only
  cases w.http t ⟨url, payload, r.apiKey, r.apiSecret⟩ with
  | requestError e => simp
  | transportError e => simp
  | response resp =>
    by_cases h : resp.statusCode = 200
    · simp [h]
    · simp [h]

theorem Step.errorDiag_err {st : Step} {e e1 : String}
    (h : Step.errorDiag st e = Step.errorDiag st e1) : e = e1 := by
  have hd := congrArg (fun d => d.detail.data) h
  apply String.ext
  cases st <;> simpa [Step.errorDiag, String.data_append] using hd

theorem Step.errorDiag_what (st : Step) (err : String) :
    (Step.errorDiag st err).severity = Severity.error ∧
      (Step.errorDiag st err).detail = st.what ++ err := by
  cases st <;> exact ⟨rfl, rfl⟩

theorem Create.body_error_origin (w : World) (r : komodoResource) (plan : KomodoModel)
    (st : Step) (err payload url : String)
    (hfail : (Create.body w r plan).diags = [Step.errorDiag st err])
    (hcall : Step.call r plan st = some (payload, url)) :
    ∃ t, (makeAPICall w r payload url t).1 = some err := by
  have key : ∀ (st1 : Step) (err1 p u : String) (t t1 : List Event),
      makeAPICall w r p u t = (some err1, t1) → Step.call r plan st1 = some (p, u) →
      [Step.errorDiag st1 err1] = [Step.errorDiag st err] →
      ∃ t, (makeAPICall w r payload url t).1 = some err := by
    intro st1 err1 p u t t1 hmake hcall1 hd
    have hd1 := List.singleton_inj.mp hd
    have hst := Step.errorDiag_step hd1
    subst hst
    have herr := Step.errorDiag_err hd1
    subst herr
    rw [hcall] at hcall1
    cases hcall1
    exact ⟨t, by rw [hmake]⟩
  have none_call : ∀ (st1 : Step) (err1 : String), Step.call r plan st1 = none →
      [Step.errorDiag st1 err1] = [Step.errorDiag st err] →
      ∃ t, (makeAPICall w r payload url t).1 = some err := by
    intro st1 err1 hnone hd
    have hst := Step.errorDiag_step (List.singleton_inj.mp hd)
    subst hst
    rw [hcall] at hnone
    cases hnone
  unfold Create.body at hfail
  dsimp only at hfail
  split at hfail
  · exact none_call .createRepository _ rfl hfail
  split at hfail
  · rename_i h
    exact key .createServer _ _ _ _ _ h rfl hfail
  split at hfail
  · exact none_call .waitAvailable _ rfl hfail
  split at hfail
  · rename_i h
    exact key .enableServer _ _ _ _ _ h rfl hfail
  split at hfail
  · exact none_call .waitReady _ rfl hfail
  split at hfail
  · rename_i h
    exact key .createSyncA _ _ _ _ _ h rfl hfail
  split at hfail
  · rename_i h
    exact key .runSyncA _ _ _ _ _ h rfl hfail
  split at hfail
  · rename_i h
    exact key .runSyncB _ _ _ _ _ h rfl hfail
  split at hfail
  · rename_i h
    exact key .runApply _ _ _ _ _ h rfl hfail
  · exact absurd hfail (by simp)

theorem retryAPICallLoop_error_origin (w : World) (r : komodoResource) (payload url : String)
    (n i : Nat) (lastErr : Option String) (t : List Event) (e : String)
    (h : (retryAPICallLoop w r payload url n i lastErr t).1 = some e) :
    lastErr = some e ∨ ∃ t1, (makeAPICall w r payload url t1).1 = some e := by
  induction n generalizing i lastErr t with
  | zero => exact Or.inl h
  | succ n ih =>
    unfold retryAPICallLoop at h
    rcases hc : makeAPICall w r payload url t with ⟨res, t1⟩
    rw [hc] at h
    cases res with
    | none => cases h
    | some err =>
      dsimp only at h
      split at h
      · rcases ih _ _ _ h with h1 | h1
        · cases h1
          exact Or.inr ⟨t, by rw [hc]⟩
        · exact Or.inr h1
      · cases h
        exact Or.inr ⟨t, by rw [hc]⟩

theorem attemptAll_diag_origin (steps : List TeardownStep) (s : Run) (d : Diag)
    (hd : d ∈ (attemptAll steps s).1.diags) :
    d ∈ s.diags ∨ ∃ step ∈ steps, ∃ t e, (step.run t).1 = some e ∧
      d = ⟨Severity.error, step.summary, step.what ++ e⟩ := by
  induction steps generalizing s with
  | nil => exact Or.inl hd
  | cons step rest ih =>
    simp only [attemptAll] at hd
    rcases ih _ hd with h | ⟨st, hst, t, e, h1, h2⟩
    · dsimp only at h
      cases hres : (step.run s.trace).1 with
      | none =>
        rw [hres] at h
        exact Or.inl h
      | some e =>
        rw [hres] at h
        simp only [reportError, AddError, List.mem_append, List.mem_singleton] at h
        rcases h with h | h
        · exact Or.inl h
        · exact Or.inr ⟨step, List.mem_cons_self _ _, s.trace, e, hres, h⟩
    · exact Or.inr ⟨st, List.mem_cons_of_mem _ hst, t, e, h1, h2⟩

theorem nonOKText_contains (resp : HttpResponse) :
    Contains (nonOKText resp) resp.status = true ∧
      Contains (nonOKText resp) resp.body = true := by
  constructor
  · have := Contains_middle "received non-OK HTTP status: " resp.status (", body: " ++ resp.body)
    simpa [nonOKText, String.append_assoc] using this
  · exact Contains_end _ _

theorem Create.diags_eq (w : World) (r : komodoResource) (plan : KomodoModel) :
    ∃ ws, (Create w r plan).diags = (Create.body w r plan).diags ++ ws ∧
      ∀ d ∈ ws, d.severity = Severity.warning := by
  unfold Create
  by_cases herr : HasError (Create.body w r plan).diags = true
  · simp only [herr, if_true]
    exact Create.runCleanup_diags w r plan.Name.ValueString _ ⟨_, _⟩
  · simp only [herr]
    exact ⟨[], by simp, by simp⟩

theorem Create.create_api_error_origin (w : World) (r : komodoResource) (plan : KomodoModel)
    (d : Diag) (hd : d ∈ (Create w r plan).diags) (hsev : d.severity = Severity.error)
    (hsum : d.summary = "API Error") :
    ∃ st payload url t err, Step.call r plan st = some (payload, url) ∧
      (makeAPICall w r payload url t).1 = some err ∧
      d = ⟨Severity.error, "API Error", st.what ++ err⟩ := by
  obtain ⟨ws, hds, hwarn⟩ := Create.diags_eq w r plan
  rw [hds, List.mem_append] at hd
  rcases hd with hd | hd
  · rcases Create.body_diags w r plan with h | ⟨st, err, h⟩
    · rw [h] at hd
      cases hd
    · rw [h, List.mem_singleton] at hd
      subst hd
      have hcall : ∃ payload url, Step.call r plan st = some (payload, url) := by
        cases st
        case createRepository => exact absurd hsum (by simp [Step.errorDiag])
        case waitAvailable => exact absurd hsum (by simp [Step.errorDiag])
        case waitReady => exact absurd hsum (by simp [Step.errorDiag])
        all_goals exact ⟨_, _, rfl⟩
      obtain ⟨payload, url, hcall⟩ := hcall
      obtain ⟨t, ht⟩ := Create.body_error_origin w r plan st err payload url h hcall
      refine ⟨st, payload, url, t, err, hcall, ht, ?_⟩
      cases st <;> first | rfl | exact absurd hsum (by simp [Step.errorDiag])
  · rw [hwarn d hd] at hsev
    cases hsev

theorem Delete.delete_api_error_origin (w : World) (r : komodoResource) (data : KomodoModel)
    (d : Diag) (hd : d ∈ (Delete w r data).diags) (hsum : d.summary = "API Error") :
    ∃ op ∈ Delete.operations r data.Name.ValueString, ∃ t err,
      (makeAPICall w r op.2.1 op.2.2 t).1 = some err ∧
      d = ⟨Severity.error, "API Error", op.1 ++ err⟩ := by
  rw [(Delete.eq_attemptAll w r data).2] at hd
  rcases attemptAll_diag_origin _ _ d hd with h | ⟨step, hstep, t, e, hrun, hdeq⟩
  · cases h
  · have retry : ∀ what payload url n,
        (what, payload, url) ∈ Delete.operations r data.Name.ValueString →
        (retryAPICall w r payload url n t).1 = some e →
        d = ⟨Severity.error, "API Error", what ++ e⟩ →
        ∃ op ∈ Delete.operations r data.Name.ValueString, ∃ t err,
          (makeAPICall w r op.2.1 op.2.2 t).1 = some err ∧
          d = ⟨Severity.error, "API Error", op.1 ++ err⟩ := by
      intro what payload url n hop hr hdd
      rcases retryAPICallLoop_error_origin w r payload url n 0 none t e hr with h | ⟨t1, h⟩
      · cases h
      · exact ⟨(what, payload, url), hop, t1, e, h, hdd⟩
    simp only [Delete.steps, List.mem_cons, List.mem_singleton, List.not_mem_nil,
      or_false] at hstep
    rcases hstep with h | h | h | h | h | h | h | h <;> subst h
    · exact ⟨("Error running destroy procedure: ",
        Delete.runDestroyPayload data.Name.ValueString, r.endpoint ++ "execute"),
        List.mem_cons_self _ _, t, e, hrun, hdeq⟩
    · exact retry _ _ _ _ (by simp [Delete.operations]) hrun hdeq
    · exact retry _ _ _ _ (by simp [Delete.operations]) hrun hdeq
    · exact retry _ _ _ _ (by simp [Delete.operations]) hrun hdeq
    · exact retry _ _ _ _ (by simp [Delete.operations]) hrun hdeq
    · exact retry _ _ _ _ (by simp [Delete.operations]) hrun hdeq
    · exact retry _ _ _ _ (by simp [Delete.operations]) hrun hdeq
    · rw [hdeq] at hsum
      exact absurd hsum (by simp)

theorem sentFrom_append (w : World) (before a b : List Event) :
    sentFrom w before (a ++ b) = sentFrom w before a ++ sentFrom w (before ++ a) b := by
  induction a generalizing before with
  | nil => simp [sentFrom]
  | cons e rest ih =>
    simp only [List.cons_append, sentFrom, List.append_assoc]
    congr 1
    have := ih (before ++ [e])
    simpa [List.append_assoc] using this

theorem sentRequests_post (w : World) (t : List Event) (q : Request) :
    sentRequests w (t ++ [Event.post q]) =
      sentRequests w t ++
        (match w.http t q with
          | .requestError _ => []
          | _ => [q]) := by
  unfold sentRequests
  rw [sentFrom_append]
  simp [sentFrom]

set_option maxRecDepth 100000 in
/-- C17 (counterexample): the endpoint `https://komodo example/` holds a
space, so no request can be built for its URLs.  makeAPICall returns the error
of `http.NewRequest` and sends nothing; the whole of Delete sends no request
at all. -/
theorem makeAPICall_sends_nothing_for_unparsable_url :
    makeAPICall spacedWorld spacedResource (Delete.runDestroyPayload "demo")
        "https://komodo example/execute" [] =
      (some "error creating request: parse \"https://komodo example/execute\": invalid character \" \" in host name",
        [Event.post ⟨"https://komodo example/execute", Delete.runDestroyPayload "demo", "key",
          "secret"⟩]) ∧
      sentRequests spacedWorld
        (makeAPICall spacedWorld spacedResource (Delete.runDestroyPayload "demo")
          "https://komodo example/execute" []).2 = [] ∧
      sentRequests spacedWorld (Delete spacedWorld spacedResource demoPlan).trace = [] := by
  decide

/-- C17 (amended): makeAPICall makes one attempt per invocation and never
retries: it sends at most one request.  When the request cannot be built it
returns `error creating request: ` followed by the cause and sends nothing;
otherwise it sends exactly one request.  Given a response it returns nil
exactly when the status code is 200; for any other status the error text is
`received non-OK HTTP status: <status>, body: <body>`, which contains the
status and the body verbatim.  Every `API Error` diagnostic of Create and of
Delete is the description of one of the operations of that hook followed by
the error text of a call of makeAPICall with the body and the URL of that same
operation. -/
theorem api_call_sends_at_most_one_request (w : World) (r : komodoResource) :
    (∀ payload url t,
        (makeAPICall w r payload url t).2 =
          t ++ [Event.post ⟨url, payload, r.apiKey, r.apiSecret⟩] ∧
        (∀ e, w.http t ⟨url, payload, r.apiKey, r.apiSecret⟩ = CallOutcome.requestError e →
          (makeAPICall w r payload url t).1 = some ("error creating request: " ++ e) ∧
            sentRequests w (makeAPICall w r payload url t).2 = sentRequests w t) ∧
        ((∀ e, w.http t ⟨url, payload, r.apiKey, r.apiSecret⟩ ≠ CallOutcome.requestError e) →
          sentRequests w (makeAPICall w r payload url t).2 =
            sentRequests w t ++ [⟨url, payload, r.apiKey, r.apiSecret⟩])) ∧
      (∀ payload url t resp,
        w.http t ⟨url, payload, r.apiKey, r.apiSecret⟩ = CallOutcome.response resp →
        ((makeAPICall w r payload url t).1 = none ↔ resp.statusCode = 200) ∧
          (resp.statusCode ≠ 200 →
            (makeAPICall w r payload url t).1 = some (nonOKText resp) ∧
              Contains (nonOKText resp) resp.status = true ∧
              Contains (nonOKText resp) resp.body = true)) ∧
      (∀ plan d, d ∈ (Create w r plan).diags → d.severity = Severity.error →
        d.summary = "API Error" →
        ∃ st payload url t err, Step.call r plan st = some (payload, url) ∧
          (makeAPICall w r payload url t).1 = some err ∧
          d = ⟨Severity.error, "API Error", st.what ++ err⟩) ∧
      (∀ data d, d ∈ (Delete w r data).diags → d.summary = "API Error" →
        ∃ op ∈ Delete.operations r data.Name.ValueString, ∃ t err,
          (makeAPICall w r op.2.1 op.2.2 t).1 = some err ∧
          d = ⟨Severity.error, "API Error", op.1 ++ err⟩) := by
  refine ⟨?_, ?_, Create.create_api_error_origin w r, Delete.delete_api_error_origin w r⟩
  · intro payload url t
    have htrace := makeAPICall_trace w r payload url t
    refine ⟨htrace, ?_, ?_⟩
    · intro e he
      constructor
      · unfold makeAPICall
        dsimp only
        rw [he]
      · rw [htrace, sentRequests_post, he]
        simp
    · intro hne
      rw [htrace, sentRequests_post]
      cases hout : w.http t ⟨url, payload, r.apiKey, r.apiSecret⟩ with
      | requestError e => exact absurd hout (hne e)
      | transportError e => rfl
      | response resp => rfl
  · intro payload url t resp hresp
    refine ⟨?_, ?_⟩
    · rw [makeAPICall_nil_iff, hresp]
      constructor
      · rintro ⟨resp1, h1, h2⟩
        cases h1
        exact h2
      · intro h
        exact ⟨resp, rfl, h⟩
    · intro hne
      rw [makeAPICall_refused w r payload url t resp hresp hne]
      exact ⟨rfl, nonOKText_contains resp⟩

set_option maxRecDepth 100000 in
/-- Witness of C17 (amended): on a control plane that answers every request
`404 Not Found`, the server creation of `demo` is one request that is sent, its
error text holds the status and the body, and the one error of Create is
`Error creating server: ` followed by that text. -/
theorem api_call_sends_at_most_one_request_witness :
    sentRequests goneWorld
        (makeAPICall goneWorld demoResource
          (Create.createServerPayload "server-demo" "10.0.0.5" "demo")
          "https://komodo.example/write" []).2 =
        sentRequests goneWorld [] ++ [⟨"https://komodo.example/write",
          Create.createServerPayload "server-demo" "10.0.0.5" "demo", demoResource.apiKey,
          demoResource.apiSecret⟩] ∧
      (makeAPICall goneWorld demoResource
        (Create.createServerPayload "server-demo" "10.0.0.5" "demo")
        "https://komodo.example/write" []).1 =
        some (nonOKText ⟨404, "404 Not Found", "not found", none⟩) ∧
      (Create goneWorld demoResource demoPlan).diags =
        [⟨Severity.error, "API Error",
          "Error creating server: received non-OK HTTP status: 404 Not Found, body: not found"⟩] :=
  ⟨((api_call_sends_at_most_one_request goneWorld demoResource).1 _ _ []).2.2
      (fun e h => by cases h),
    (((api_call_sends_at_most_one_request goneWorld demoResource).2.1 _ _ []
      ⟨404, "404 Not Found", "not found", none⟩ rfl).2 (by decide)).1,
    by decide⟩

set_option maxRecDepth 100000 in
/-- C18 (counterexample): with neither API key nor API secret configured,
makeAPICall posts the request with two empty header values and returns nil
when the control plane answers 200. -/
theorem makeAPICall_sends_without_secret :
    keylessResource.apiKey = "" ∧ keylessResource.apiSecret = "" ∧
      makeAPICall calmWorld keylessResource (Delete.runDestroyPayload "demo")
          "https://komodo.example/execute" [] =
        (none, [Event.post ⟨"https://komodo.example/execute", Delete.runDestroyPayload "demo",
          "", ""⟩]) := by
  decide

/-- C18 (amended): makeAPICall does not look at the configured key and secret.
When the secret is empty it still posts the request, with the empty string as
the secret header, and its result is nil exactly when the response has status
200; the same holds for an empty key. -/
theorem makeAPICall_ignores_empty_secret (w : World) (r : komodoResource)
    (payload url : String) (t : List Event) :
    (r.apiSecret = "" →
        (makeAPICall w r payload url t).2 = t ++ [Event.post ⟨url, payload, r.apiKey, ""⟩] ∧
        ((makeAPICall w r payload url t).1 = none ↔
          ∃ resp, w.http t ⟨url, payload, r.apiKey, ""⟩ = CallOutcome.response resp ∧
            resp.statusCode = 200)) ∧
      (r.apiKey = "" →
        (makeAPICall w r payload url t).2 = t ++ [Event.post ⟨url, payload, "", r.apiSecret⟩] ∧
        ((makeAPICall w r payload url t).1 = none ↔
          ∃ resp, w.http t ⟨url, payload, "", r.apiSecret⟩ = CallOutcome.response resp ∧
            resp.statusCode = 200)) := by
  constructor
  · intro h
    have h1 := makeAPICall_trace w r payload url t
    have h2 := makeAPICall_nil_iff w r payload url t
    rw [h] at h1 h2
    exact ⟨h1, h2⟩
  · intro h
    have h1 := makeAPICall_trace w r payload url t
    have h2 := makeAPICall_nil_iff w r payload url t
    rw [h] at h1 h2
    exact ⟨h1, h2⟩

/-- Witness of C18 (amended): the provider without key and secret in the calm
world. -/
theorem makeAPICall_ignores_empty_secret_witness :
    (makeAPICall calmWorld keylessResource (Delete.runDestroyPayload "demo")
        "https://komodo.example/execute" []).2 =
      [] ++ [Event.post ⟨"https://komodo.example/execute", Delete.runDestroyPayload "demo",
        keylessResource.apiKey, ""⟩] :=
  ((makeAPICall_ignores_empty_secret calmWorld keylessResource (Delete.runDestroyPayload "demo")
    "https://komodo.example/execute" []).1 rfl).1

/-! ## Repository names -/

set_option maxRecDepth 100000 in
theorem toLower_samples :
    toLower "ÉCOLE" = "école" ∧ toLower "Demo-1" = "demo-1" ∧ toLower "ΣΟΦΙΑ" = "σοφια" ∧
      toLower "Straße" = "straße" := by
  decide

theorem unicodeToLower_ascii (c : Char) (h : c.toNat < 128) : unicodeToLower c = c.toLower := by
  unfold unicodeToLower
  rw [if_pos h]

set_option maxRecDepth 100000 in
theorem lowerRanges_sound :
    ∀ e ∈ lowerRanges, 93 ≤ e.target ∧
      (e.target + (e.hi - e.lo) < 55296 ∨
        (57344 ≤ e.target ∧ e.target + (e.hi - e.lo) < 1114112)) := by
  decide

theorem toNat_ofNat_valid (n : Nat) (h : n.isValidChar) : (Char.ofNat n).toNat = n := by
  unfold Char.ofNat
  rw [dif_pos h]
  rfl

theorem unicodeToLower_nonascii (c : Char) (h : 128 ≤ c.toNat) :
    93 ≤ (unicodeToLower c).toNat := by
  unfold unicodeToLower
  rw [if_neg (by omega)]
  split
  · rename_i e he
    have hmem := List.mem_of_find?_eq_some he
    have hp := List.find?_some he
    simp only [Bool.and_eq_true, decide_eq_true_eq] at hp
    obtain ⟨⟨hlo, hhi⟩, _⟩ := hp
    obtain ⟨ht, hv⟩ := lowerRanges_sound e hmem
    have hvalid : (e.target + (c.toNat - e.lo)).isValidChar := by
      unfold Nat.isValidChar
      rcases hv with hv | ⟨hv1, hv2⟩
      · left
        omega
      · right
        omega
    rw [toNat_ofNat_valid _ hvalid]
    omega
  · omega

theorem char_le_iff (a b : Char) : a ≤ b ↔ a.toNat ≤ b.toNat := by
  show a.val ≤ b.val ↔ _
  rw [UInt32.le_def]
  rfl

theorem keptChar_toNat_le (c : Char) (h : keptChar c = true) : c.toNat ≤ 122 := by
  simp only [keptChar, Bool.or_eq_true, Bool.and_eq_true, decide_eq_true_eq, beq_iff_eq,
    char_le_iff] at h
  rcases h with ((((⟨_, h⟩ | ⟨_, h⟩) | ⟨_, h⟩) | h) | h) | h
  · exact h
  · exact le_trans h (by decide)
  · exact le_trans h (by decide)
  · subst h
    decide
  · subst h
    decide
  · subst h
    decide

set_option maxRecDepth 100000 in
theorem keptChar_toLower (c : Char) (h : keptChar c = true) :
    lowerKeptChar c.toLower = true ∧ c.toLower.utf8Size = 1 := by
  have hle := keptChar_toNat_le c h
  rw [← Char.ofNat_toNat c] at h ⊢
  generalize c.toNat = n at h hle
  revert h
  interval_cases n <;> decide

theorem sanitizeChar_some (c b : Char) (h : sanitizeChar c = some b) :
    lowerKeptChar b = true ∧ b.utf8Size = 1 := by
  unfold sanitizeChar at h
  split at h
  · cases h
    decide
  · split at h
    · rename_i hk
      cases h
      exact keptChar_toLower c hk
    · cases h

theorem sanitize_data (l : List Char) :
    ((l.map (fun c => if c = ' ' then '-' else c)).filter keptChar).map unicodeToLower =
      l.filterMap sanitizeChar := by
  induction l with
  | nil => rfl
  | cons c rest ih =>
    by_cases hs : c = ' '
    · subst hs
      rw [List.map_cons, List.filterMap_cons]
      have h1 : keptChar '-' = true := by decide
      simp only [if_true, List.filter_cons, h1, List.map_cons, ih]
      rfl
    · rw [List.map_cons, List.filterMap_cons]
      simp only [hs, if_false, List.filter_cons, sanitizeChar]
      by_cases hk : keptChar c = true
      · have hlow : unicodeToLower c = c.toLower :=
          unicodeToLower_ascii c (by have := keptChar_toNat_le c hk; omega)
        simp only [hk, if_true, List.map_cons, ih, hlow]
      · have hk1 : keptChar c = false := by simpa using hk
        simp [hk1, ih]

theorem utf8ByteSize_filterMap (l : List Char) :
    String.utf8ByteSize.go (l.filterMap sanitizeChar) ≤ String.utf8ByteSize.go l := by
  induction l with
  | nil => exact le_refl _
  | cons c rest ih =>
    rw [List.filterMap_cons]
    cases hc : sanitizeChar c with
    | none =>
      simp only [String.utf8ByteSize.go]
      omega
    | some b =>
      have hb := (sanitizeChar_some c b hc).2
      have hpos := Char.utf8Size_pos c
      simp only [String.utf8ByteSize.go, hb]
      omega

/-- C19: for every name, sanitizeRepoName gives, character by character, a
hyphen for a space, the lower-cased character for a character of
`[A-Za-z0-9-_.]` and nothing for any other character; so every character of
the result is in `[a-z0-9-_.]`, and the result is not longer than the name,
counted in characters and counted in bytes. -/
theorem sanitizeRepoName_spec (name : String) :
    sanitizeRepoName name = String.mk (name.data.filterMap sanitizeChar) ∧
      (∀ c ∈ (sanitizeRepoName name).data, lowerKeptChar c = true) ∧
      (sanitizeRepoName name).length ≤ name.length ∧
      (sanitizeRepoName name).utf8ByteSize ≤ name.utf8ByteSize := by
  have hdata : sanitizeRepoName name = String.mk (name.data.filterMap sanitizeChar) := by
    unfold sanitizeRepoName toLower
    dsimp only
    rw [sanitize_data]
  refine ⟨hdata, ?_, ?_, ?_⟩
  · intro c hc
    rw [hdata] at hc
    obtain ⟨a, _, ha⟩ := List.mem_filterMap.mp hc
    exact (sanitizeChar_some a c ha).1
  · rw [hdata]
    exact List.length_filterMap_le _ _
  · rw [hdata]
    exact utf8ByteSize_filterMap name.data

set_option maxRecDepth 100000 in
/-- C20 (counterexample): the name `!!!` sanitizes to the empty string, and
Create asks GitHub for the repository `_syncresources` as its first call;
no error is reported for the name. -/
theorem create_uses_bare_suffix_repository :
    sanitizeRepoName "!!!" = "" ∧
      (Create calmWorld demoResource strippedPlan).trace.head? =
        some (Event.ghCreateRepo "manidaecloud" "_syncresources") ∧
      (Create calmWorld demoResource strippedPlan).diags = [] := by
  decide

/-- C20 (amended): a name whose sanitized form is empty is not rejected.  With
a GitHub token configured, createGitHubRepository issues Repositories.Create
for the repository named `_syncresources` as its first call; the only check
before that call is that the token is not empty. -/
theorem empty_sanitized_name_is_not_rejected (w : World) (r : komodoResource)
    (repoName fileContents : String) (generateSSHKeys : Bool) (t : List Event)
    (hempty : sanitizeRepoName repoName = "") (htoken : r.githubToken ≠ "") :
    ∃ ev, (createGitHubRepository w r repoName fileContents generateSSHKeys t).2 =
      t ++ Event.ghCreateRepo r.githubOrgname "_syncresources" :: ev := by
  have hname : sanitizeRepoName repoName ++ "_syncresources" = "_syncresources" := by
    rw [hempty]
    rfl
  unfold createGitHubRepository
  dsimp only
  rw [hname]
  simp only [htoken, if_false]
  split
  · exact ⟨[], rfl⟩
  · split
    · split
      · exact ⟨_, by simp only [List.append_assoc, List.singleton_append]; rfl⟩
      · rename_i login _
        obtain ⟨ev, h1, _⟩ := createRepositoryKeys_trace w login "_syncresources" fileContents
          generateSSHKeys (t ++ [Event.ghCreateRepo r.githubOrgname "_syncresources"] ++
            [Event.sleep 2] ++ [Event.ghGetUser])
        exact ⟨_, by rw [h1]; simp only [List.append_assoc, List.singleton_append]; rfl⟩
    · obtain ⟨ev, h1, _⟩ := createRepositoryKeys_trace w r.githubOrgname "_syncresources"
        fileContents generateSSHKeys
        (t ++ [Event.ghCreateRepo r.githubOrgname "_syncresources"] ++ [Event.sleep 2])
      exact ⟨_, by rw [h1]; simp only [List.append_assoc, List.singleton_append]; rfl⟩

set_option maxRecDepth 100000 in
/-- Witness of C20 (amended): the name `!!!` under the provider of the
examples. -/
theorem empty_sanitized_name_is_not_rejected_witness :
    ∃ ev, (createGitHubRepository calmWorld demoResource "!!!" "" false []).2 =
      [] ++ Event.ghCreateRepo demoResource.githubOrgname "_syncresources" :: ev :=
  empty_sanitized_name_is_not_rejected calmWorld demoResource "!!!" "" false []
    (by decide) (by decide)

/-! ## The provider configuration and Update -/

theorem updateWithNewKeys_requests (w : World) (owner repoName fileContents : String)
    (t : List Event) :
    requestsOf (updateWithNewKeys w owner repoName fileContents t).2 = requestsOf t := by
  unfold updateWithNewKeys
  have hg := generateSSHKeyPair_trace w t
  rcases hgen : generateSSHKeyPair w t with ⟨res, t1⟩
  rw [hgen] at hg
  dsimp only at hg
  subst hg
  cases res with
  | error e => simp [requestsOf]
  | ok keys =>
    obtain ⟨privateKey, publicKey⟩ := keys
    dsimp only
    have hu := uploadDeployKey_trace w owner repoName publicKey
      ("terraform-deploy-key-" ++ toString (w.unixNow (t ++ [Event.generateKey]))) false
      (t ++ [Event.generateKey])
    rcases hup : uploadDeployKey w owner repoName publicKey
      ("terraform-deploy-key-" ++ toString (w.unixNow (t ++ [Event.generateKey]))) false
      (t ++ [Event.generateKey]) with ⟨res2, t2⟩
    rw [hup] at hu
    dsimp only at hu
    subst hu
    cases res2 <;> simp [requestsOf]

theorem updatedFileContents_requests (w : World) (owner repoName fileContents : String)
    (generateSSHKeys : Bool) (contents : ContentsOutcome) (t : List Event) :
    requestsOf (updatedFileContents w owner repoName fileContents generateSSHKeys contents t).2 =
      requestsOf t := by
  unfold updatedFileContents
  split
  · split
    · split
      · rfl
      · exact updateWithNewKeys_requests w owner repoName fileContents t
    · rfl
    · exact updateWithNewKeys_requests w owner repoName fileContents t
  · rfl

theorem updateFileInRepository_requests (w : World) (repoName owner fileContents : String)
    (generateSSHKeys : Bool) (t : List Event) :
    requestsOf (updateFileInRepository w repoName owner fileContents generateSSHKeys t).2 =
      requestsOf t := by
  unfold updateFileInRepository
  dsimp only
  split
  · simp [requestsOf]
  · rename_i branch _
    have h := updatedFileContents_requests w owner (repoName ++ "_syncresources") fileContents
      generateSSHKeys
      (w.ghGetContents (t ++ [Event.ghGetRepo owner (repoName ++ "_syncresources")]) owner
        (repoName ++ "_syncresources") "resources.toml" (branch.getD "main"))
      (t ++ [Event.ghGetRepo owner (repoName ++ "_syncresources")] ++
        [Event.ghGetContents owner (repoName ++ "_syncresources") "resources.toml"
          (branch.getD "main")])
    split
    · rename_i hres
      rw [hres] at h
      rw [h]
      simp [requestsOf]
    · rename_i hres
      rw [hres] at h
      split
      · rw [requestsOf_append, h]
        simp [requestsOf]
      · rw [requestsOf_append, h]
        simp [requestsOf]

theorem Update.calls_requests (w : World) (r : komodoResource) (state : KomodoModel)
    (t : List Event) :
    ∀ x ∈ requestsOf (Update.calls w r state t).trace,
      x ∈ requestsOf t ∨ x.1 = r.endpoint ++ "write" ∨ x.1 = r.endpoint ++ "execute" := by
  unfold Update.calls
  dsimp only
  have h1 := makeAPICall_trace w r (Update.createSyncPayload state.Name.ValueString
    state.Name.ValueString (toLower state.Name.ValueString)) (r.endpoint ++ "write") t
  rcases hc1 : makeAPICall w r (Update.createSyncPayload state.Name.ValueString
    state.Name.ValueString (toLower state.Name.ValueString)) (r.endpoint ++ "write") t
    with ⟨res1, t1⟩
  rw [hc1] at h1
  dsimp only at h1
  subst h1
  cases res1 with
  | some e =>
    intro x hx
    simp [requestsOf, List.filterMap_append] at hx
    rcases hx with hx | hx
    · exact Or.inl (by simpa [requestsOf] using hx)
    · exact Or.inr (Or.inl (by rw [hx]))
  | none =>
    dsimp only
    have h2 := makeAPICall_trace w r (Update.runSyncPayload state.Name.ValueString)
      (r.endpoint ++ "execute") (t ++ [Event.post ⟨r.endpoint ++ "write",
        Update.createSyncPayload state.Name.ValueString state.Name.ValueString
          (toLower state.Name.ValueString), r.apiKey, r.apiSecret⟩])
    rcases hc2 : makeAPICall w r (Update.runSyncPayload state.Name.ValueString)
      (r.endpoint ++ "execute") (t ++ [Event.post ⟨r.endpoint ++ "write",
        Update.createSyncPayload state.Name.ValueString state.Name.ValueString
          (toLower state.Name.ValueString), r.apiKey, r.apiSecret⟩]) with ⟨res2, t2⟩
    rw [hc2] at h2
    dsimp only at h2
    subst h2
    cases res2 with
    | some e =>
      intro x hx
      simp [requestsOf, List.filterMap_append] at hx
      rcases hx with hx | hx | hx
      · exact Or.inl (by simpa [requestsOf] using hx)
      · exact Or.inr (Or.inl (by rw [hx]))
      · exact Or.inr (Or.inr (by rw [hx]))
    | none =>
      dsimp only
      have h3 := makeAPICall_trace w r (Update.runProcedurePayload state.Name.ValueString)
        (r.endpoint ++ "execute") (t ++ [Event.post ⟨r.endpoint ++ "write",
          Update.createSyncPayload state.Name.ValueString state.Name.ValueString
            (toLower state.Name.ValueString), r.apiKey, r.apiSecret⟩] ++
          [Event.post ⟨r.endpoint ++ "execute",
            Update.runSyncPayload state.Name.ValueString, r.apiKey, r.apiSecret⟩])
      rcases hc3 : makeAPICall w r (Update.runProcedurePayload state.Name.ValueString)
        (r.endpoint ++ "execute") (t ++ [Event.post ⟨r.endpoint ++ "write",
          Update.createSyncPayload state.Name.ValueString state.Name.ValueString
            (toLower state.Name.ValueString), r.apiKey, r.apiSecret⟩] ++
          [Event.post ⟨r.endpoint ++ "execute",
            Update.runSyncPayload state.Name.ValueString, r.apiKey, r.apiSecret⟩])
        with ⟨res3, t3⟩
      rw [hc3] at h3
      dsimp only at h3
      subst h3
      cases res3 <;>
      · intro x hx
        simp [requestsOf, List.filterMap_append] at hx
        rcases hx with hx | hx | hx | hx
        · exact Or.inl (by simpa [requestsOf] using hx)
        · exact Or.inr (Or.inl (by rw [hx]))
        · exact Or.inr (Or.inr (by rw [hx]))
        · exact Or.inr (Or.inr (by rw [hx]))

theorem Update.requests_urls (w : World) (r : komodoResource) (oldState state : KomodoModel) :
    ∀ x ∈ requestsOf (Update w r oldState state).trace,
      x.1 = r.endpoint ++ "write" ∨ x.1 = r.endpoint ++ "execute" := by
  have hown : ∀ owner t, requestsOf t = [] →
      ∀ x ∈ requestsOf (Update.withOwner w r state owner t).trace,
        x.1 = r.endpoint ++ "write" ∨ x.1 = r.endpoint ++ "execute" := by
    intro owner t ht
    unfold Update.withOwner
    dsimp only
    have hf := updateFileInRepository_requests w (sanitizeRepoName state.Name.ValueString) owner
      state.FileContents.ValueString
      (if (!state.GenerateSSHKeys.IsNull) = true then state.GenerateSSHKeys.ValueBool else false) t
    split
    · rename_i hres
      rw [hres] at hf
      dsimp only at hf ⊢
      intro x hx
      rw [hf, ht] at hx
      cases hx
    · rename_i hres
      rw [hres] at hf
      dsimp only at hf
      intro x hx
      rcases Update.calls_requests w r state _ x hx with h | h
      · rw [hf, ht] at h
        cases h
      · exact h
  unfold Update
  split
  · split
    · exact hown _ _ rfl
    · split
      · intro x hx
        simp [requestsOf] at hx
      · exact hown _ _ rfl
  · intro x hx
    simp [requestsOf] at hx

theorem Create.create_documents_urls (r : komodoResource) (ids : EntityNames)
    (serverIP tag repoPath : String) :
    ∀ x ∈ Create.documents r ids serverIP tag repoPath,
      x.1 ∈ [r.endpoint ++ "write", r.endpoint ++ "read", r.endpoint ++ "execute"] := by
  intro x hx
  simp only [Create.documents, List.mem_cons, List.mem_singleton, List.not_mem_nil,
    or_false] at hx
  rcases hx with h | h | h | h | h | h | h | h | h | h | h | h | h | h <;> subst h <;> simp

theorem Delete.delete_documents_urls (r : komodoResource) (ids : EntityNames) :
    ∀ x ∈ Delete.documents r ids,
      x.1 ∈ [r.endpoint ++ "write", r.endpoint ++ "read", r.endpoint ++ "execute"] := by
  intro x hx
  simp only [Delete.documents, List.mem_cons, List.mem_singleton, List.not_mem_nil,
    or_false] at hx
  rcases hx with h | h | h | h | h | h | h <;> subst h <;> simp

theorem hasSuffix_append_slash (s : String) : HasSuffix (s ++ "/") "/" = true := by
  simp [HasSuffix, List.isSuffixOf, String.data_append]

/-- C21: for every endpoint of the provider configuration, the endpoint that
Configure stores ends with a slash: it is the input when the input ends with a
slash and the input followed by a slash otherwise, so configuring the stored
endpoint again gives the same endpoint.  The resource takes that endpoint, and
every request of Create, Update and Delete goes to the endpoint followed by
`write`, `read` or `execute`, three different addresses. -/
theorem configured_endpoint_ends_with_slash (w : World) (data : KomodoProviderModel)
    (apiKey apiSecret : String) :
    HasSuffix (KomodoProvider.Configure data).endpoint "/" = true ∧
      (HasSuffix data.Endpoint.ValueString "/" = true →
        (KomodoProvider.Configure data).endpoint = data.Endpoint.ValueString) ∧
      (HasSuffix data.Endpoint.ValueString "/" = false →
        (KomodoProvider.Configure data).endpoint = data.Endpoint.ValueString ++ "/") ∧
      (KomodoProvider.Configure
          ⟨TfString.value (KomodoProvider.Configure data).endpoint, data.GithubToken,
            data.GithubOrgname⟩).endpoint = (KomodoProvider.Configure data).endpoint ∧
      (komodoResource.Configure (KomodoProvider.Configure data) apiKey apiSecret).endpoint =
        (KomodoProvider.Configure data).endpoint ∧
      (∀ plan, ∀ x ∈ requestsOf
          (Create w (komodoResource.Configure (KomodoProvider.Configure data) apiKey apiSecret)
            plan).trace,
        x.1 ∈ [(KomodoProvider.Configure data).endpoint ++ "write",
          (KomodoProvider.Configure data).endpoint ++ "read",
          (KomodoProvider.Configure data).endpoint ++ "execute"]) ∧
      (∀ oldState state, ∀ x ∈ requestsOf
          (Update w (komodoResource.Configure (KomodoProvider.Configure data) apiKey apiSecret)
            oldState state).trace,
        x.1 ∈ [(KomodoProvider.Configure data).endpoint ++ "write",
          (KomodoProvider.Configure data).endpoint ++ "read",
          (KomodoProvider.Configure data).endpoint ++ "execute"]) ∧
      (∀ state, ∀ x ∈ requestsOf
          (Delete w (komodoResource.Configure (KomodoProvider.Configure data) apiKey apiSecret)
            state).trace,
        x.1 ∈ [(KomodoProvider.Configure data).endpoint ++ "write",
          (KomodoProvider.Configure data).endpoint ++ "read",
          (KomodoProvider.Configure data).endpoint ++ "execute"]) ∧
      (KomodoProvider.Configure data).endpoint ++ "write" ≠
        (KomodoProvider.Configure data).endpoint ++ "read" ∧
      (KomodoProvider.Configure data).endpoint ++ "write" ≠
        (KomodoProvider.Configure data).endpoint ++ "execute" ∧
      (KomodoProvider.Configure data).endpoint ++ "read" ≠
        (KomodoProvider.Configure data).endpoint ++ "execute" := by
  have hslash : HasSuffix (KomodoProvider.Configure data).endpoint "/" = true := by
    unfold KomodoProvider.Configure
    dsimp only
    by_cases h : HasSuffix data.Endpoint.ValueString "/" = true
    · simp [h]
    · simp [h, hasSuffix_append_slash]
  have hne : ∀ (e a b : String), a ≠ b → e ++ a ≠ e ++ b := by
    intro e a b hab h
    apply hab
    have := congrArg String.data h
    simp only [String.data_append, List.append_cancel_left_eq] at this
    exact String.ext this
  refine ⟨hslash, ?_, ?_, ?_, rfl, ?_, ?_, ?_, hne _ _ _ (by decide), hne _ _ _ (by decide),
    hne _ _ _ (by decide)⟩
  · intro h
    simp [KomodoProvider.Configure, h]
  · intro h
    simp [KomodoProvider.Configure, h]
  · have hfix : ∀ e, HasSuffix e "/" = true →
        (KomodoProvider.Configure
          ⟨TfString.value e, data.GithubToken, data.GithubOrgname⟩).endpoint = e := by
      intro e he
      simp [KomodoProvider.Configure, TfString.ValueString, he]
    exact hfix _ hslash
  · intro plan x hx
    exact Create.create_documents_urls _ _ _ _ _ x
      ((Create.create_uses_entityNames w _ plan).1 x hx)
  · intro oldState state x hx
    rcases Update.requests_urls w _ oldState state x hx with h | h
    · simp [h, komodoResource.Configure]
    · simp [h, komodoResource.Configure]
  · intro state x hx
    exact Delete.delete_documents_urls _ _ x ((Delete.delete_uses_entityNames w _ state).1 x hx)

/-- Witness of C21: the endpoint `https://komodo.example` is stored with a
slash added, and the server creation of `demo` goes to its `write` path. -/
theorem configured_endpoint_ends_with_slash_witness :
    (KomodoProvider.Configure
        ⟨TfString.value "https://komodo.example", TfString.value "token",
          TfString.value "manidaecloud"⟩).endpoint = "https://komodo.example" ++ "/" ∧
      (requestsOf (Create calmWorld demoResource demoPlan).trace).head? =
        some ("https://komodo.example/write",
          Create.createServerPayload "server-demo" "10.0.0.5" "demo") :=
  ⟨(configured_endpoint_ends_with_slash calmWorld
      ⟨TfString.value "https://komodo.example", TfString.value "token",
        TfString.value "manidaecloud"⟩ "key" "secret").2.2.1 (by decide),
    by decide⟩

/-! ## The SSH keys of the repository file -/

set_option maxRecDepth 1000000 in
/-- C22 (failing input): the file `stackToml` was written with the keys
`PRIVATE` and `ssh-ed25519 PUBLIC`.  The private key read back from it is
`PRIVATE`, but the public key read back is `ssh-ed25519 PUBLIC"""`: the group
of the public-key pattern runs to the end of the line and takes the closing
triple quote with it.  The update then writes a file that differs from the
existing one. -/
theorem update_reads_public_key_with_closing_quotes :
    existingSSHKeys (addSSHKeysToFileContents stackToml "PRIVATE" "ssh-ed25519 PUBLIC") =
        some ("PRIVATE", "ssh-ed25519 PUBLIC\"\"\"") ∧
      (updateFileInRepository keyedWorld "demo" "manidaecloud" stackToml true []).2 =
        [Event.ghGetRepo "manidaecloud" "demo_syncresources",
          Event.ghGetContents "manidaecloud" "demo_syncresources" "resources.toml" "main",
          Event.ghCreateFile "manidaecloud" "demo_syncresources" "resources.toml"
            "Update resources.toml via Terraform"
            (addSSHKeysToFileContents stackToml "PRIVATE" "ssh-ed25519 PUBLIC\"\"\"") "main"
            (some "3b18e512")] ∧
      addSSHKeysToFileContents stackToml "PRIVATE" "ssh-ed25519 PUBLIC\"\"\"" ≠
        addSSHKeysToFileContents stackToml "PRIVATE" "ssh-ed25519 PUBLIC" := by
  decide

/-! ## The rollback after a late failure -/

theorem registeredBefore_runSyncA :
    (Step.registeredBefore Step.runSyncA).reverse =
      [CleanupTask.contextWareSync, CleanupTask.server, CleanupTask.gitHubRepository] := by
  decide

theorem registeredBefore_runSyncB :
    (Step.registeredBefore Step.runSyncB).reverse =
      [CleanupTask.resourceSetupSync, CleanupTask.contextWareSync, CleanupTask.server,
        CleanupTask.gitHubRepository] := by
  decide

theorem registeredBefore_runApply :
    (Step.registeredBefore Step.runApply).reverse =
      [CleanupTask.procedures, CleanupTask.resourceSetupSync, CleanupTask.contextWareSync,
        CleanupTask.server, CleanupTask.gitHubRepository] := by
  decide

/-- C23: the deletion of sync B is registered once sync A has run, and the
deletion of the three procedures once sync B has run.  When running sync A
fails the rollback starts with the deletion of sync A; when running sync B
fails it starts with the deletion of sync B; when the apply procedure fails it
deletes the apply, destroy and restart procedures, sync B, sync A and the
server, in this order, and then the repository.  This is the order in which
Delete deletes the same entities, each request there repeated by the retry
wrapper, with the repository last. -/
theorem rollback_follows_teardown_order (w : World) (r : komodoResource) (plan : KomodoModel)
    (err : String) :
    ((Create.body w r plan).diags = [Step.errorDiag Step.runSyncA err] →
        (Create w r plan).trace = (Create.body w r plan).trace ++
          ((deletionOrder plan.Name.ValueString).drop 4).map
            (fun p => compensationPost r p.1 p.2) ++
          gitHubDeleteEvents w r plan.Name.ValueString ((Create.body w r plan).trace ++
            ((deletionOrder plan.Name.ValueString).drop 4).map
              (fun p => compensationPost r p.1 p.2))) ∧
      ((Create.body w r plan).diags = [Step.errorDiag Step.runSyncB err] →
        (Create w r plan).trace = (Create.body w r plan).trace ++
          ((deletionOrder plan.Name.ValueString).drop 3).map
            (fun p => compensationPost r p.1 p.2) ++
          gitHubDeleteEvents w r plan.Name.ValueString ((Create.body w r plan).trace ++
            ((deletionOrder plan.Name.ValueString).drop 3).map
              (fun p => compensationPost r p.1 p.2))) ∧
      ((Create.body w r plan).diags = [Step.errorDiag Step.runApply err] →
        (Create w r plan).trace = (Create.body w r plan).trace ++
          (deletionOrder plan.Name.ValueString).map (fun p => compensationPost r p.1 p.2) ++
          gitHubDeleteEvents w r plan.Name.ValueString ((Create.body w r plan).trace ++
            (deletionOrder plan.Name.ValueString).map (fun p => compensationPost r p.1 p.2))) ∧
      ∃ c ks, (Delete w r plan).trace = c ++ gitHubDeleteEvents w r plan.Name.ValueString c ∧
        ks.length = 6 ∧ (∀ k ∈ ks, 1 ≤ k) ∧
        requestsOf c =
          (r.endpoint ++ "execute", entityDocument "\t" "RunProcedure" "procedure"
              (plan.Name.ValueString ++ "_ProcedureDestroy")) ::
            ((deletionOrder plan.Name.ValueString).zip ks).flatMap (fun pk =>
              List.replicate pk.2 (r.endpoint ++ "write",
                entityDocument "\t" pk.1.1 "id" pk.1.2)) := by
  refine ⟨?_, ?_, ?_, ?_⟩
  · intro h
    rw [(Create.trace_of_failure w r plan _ err h).2, registeredBefore_runSyncA]
    simp [rollbackEvents, CleanupTask.events, deletionOrder, List.append_assoc]
  · intro h
    rw [(Create.trace_of_failure w r plan _ err h).2, registeredBefore_runSyncB]
    simp [rollbackEvents, CleanupTask.events, deletionOrder, List.append_assoc]
  · intro h
    rw [(Create.trace_of_failure w r plan _ err h).2, registeredBefore_runApply]
    simp [rollbackEvents, CleanupTask.events, deletionOrder, List.append_assoc]
  · obtain ⟨c, k1, k2, k3, k4, k5, k6, htrace, h1, h2, h3, h4, h5, h6, hc, _, _⟩ :=
      Delete.trace_shape w r plan
    refine ⟨c, [k1, k2, k3, k4, k5, k6], htrace, rfl, ?_, ?_⟩
    · intro k hk
      simp only [List.mem_cons, List.mem_singleton, List.not_mem_nil, or_false] at hk
      rcases hk with h | h | h | h | h | h <;> subst h <;> omega
    · rw [hc]
      simp [deletionOrder, List.flatMap, List.append_assoc]

set_option maxRecDepth 100000 in
/-- Witness of C23: the control plane refuses to run the apply procedure of
`demo`; the rollback is the six deletions in the order of the teardown and
then the deletion of the repository. -/
theorem rollback_follows_teardown_order_witness :
    (Create applyFailsWorld demoResource demoPlan).trace =
      (Create.body applyFailsWorld demoResource demoPlan).trace ++
        [compensationPost demoResource "DeleteProcedure" "demo_ProcedureApply",
          compensationPost demoResource "DeleteProcedure" "demo_ProcedureDestroy",
          compensationPost demoResource "DeleteProcedure" "demo_ProcedureRestart",
          compensationPost demoResource "DeleteResourceSync" "demo_ResourceSetup",
          compensationPost demoResource "DeleteResourceSync" "demo_ContextWare",
          compensationPost demoResource "DeleteServer" "server-demo"] ++
        [Event.ghDeleteRepo "manidaecloud" "demo_syncresources"] :=
  ((rollback_follows_teardown_order applyFailsWorld demoResource demoPlan
    "received non-OK HTTP status: 500 Internal Server Error, body: procedure failed").2.2.1
    (by decide)).trans (by decide)

/-! ## The backoff of the retry wrapper -/

theorem retryHistory_last (w : World) (q : Request) (k i : Nat) (t : List Event) :
    ∃ s, (retryHistory w q i (k + 1) t).getLast? = some (Event.sleep s) := by
  induction k generalizing i t with
  | zero =>
    exact ⟨3 * (i + 1) + w.randIntn (t ++ [Event.post q]) % 3, by simp [retryHistory]⟩
  | succ k ih =>
    rw [retryHistory]
    exact ih _ _

theorem retryHistory_sleeps (w : World) (q : Request) (k i : Nat) (t : List Event) :
    ∃ ev, retryHistory w q i k t = t ++ ev ∧ (sleepsOf ev).length = k ∧
      ∀ m d, (sleepsOf ev)[m]? = some d → 3 * (i + m + 1) ≤ d ∧ d ≤ 3 * (i + m + 1) + 2 := by
  induction k generalizing i t with
  | zero => exact ⟨[], by simp [retryHistory], by simp [sleepsOf], by simp [sleepsOf]⟩
  | succ k ih =>
    obtain ⟨ev, h1, h2, h3⟩ := ih (i + 1)
      (t ++ [Event.post q] ++ [Event.sleep (3 * (i + 1) + w.randIntn (t ++ [Event.post q]) % 3)])
    refine ⟨[Event.post q] ++ [Event.sleep (3 * (i + 1) + w.randIntn (t ++ [Event.post q]) % 3)]
      ++ ev, ?_, ?_, ?_⟩
    · rw [retryHistory, h1]
      simp [List.append_assoc]
    · rw [sleepsOf_append, List.length_append, h2]
      simp [sleepsOf]
      omega
    · intro m d hd
      have hs : sleepsOf ([Event.post q] ++
          [Event.sleep (3 * (i + 1) + w.randIntn (t ++ [Event.post q]) % 3)] ++ ev) =
          (3 * (i + 1) + w.randIntn (t ++ [Event.post q]) % 3) :: sleepsOf ev := by
        simp [sleepsOf]
      rw [hs] at hd
      cases m with
      | zero =>
        simp only [List.getElem?_cons_zero, Option.some.injEq] at hd
        have := Nat.mod_lt (w.randIntn (t ++ [Event.post q])) (by decide : 3 > 0)
        omega
      | succ m =>
        simp only [List.getElem?_cons_succ] at hd
        have := h3 m d hd
        omega

theorem retryAPICallLoop_history (w : World) (r : komodoResource) (payload url : String)
    (n i : Nat) (lastErr : Option String) (t : List Event) :
    ∃ k, k ≤ n ∧
      ((retryAPICallLoop w r payload url n i lastErr t).2 =
          retryHistory w ⟨url, payload, r.apiKey, r.apiSecret⟩ i k t ∨
        (retryAPICallLoop w r payload url n i lastErr t).2 =
          retryHistory w ⟨url, payload, r.apiKey, r.apiSecret⟩ i k t ++
            [Event.post ⟨url, payload, r.apiKey, r.apiSecret⟩]) := by
  induction n generalizing i lastErr t with
  | zero => exact ⟨0, le_refl _, Or.inl rfl⟩
  | succ n ih =>
    have htr := makeAPICall_trace w r payload url t
    rcases hc : makeAPICall w r payload url t with ⟨res, t1⟩
    rw [hc] at htr
    dsimp only at htr
    subst htr
    unfold retryAPICallLoop
    rw [hc]
    cases res with
    | none => exact ⟨0, by omega, Or.inr rfl⟩
    | some err =>
      dsimp only
      split
      · obtain ⟨k, hk, h⟩ := ih (i + 1) (some err)
          (t ++ [Event.post ⟨url, payload, r.apiKey, r.apiSecret⟩] ++
            [Event.sleep (3 * (i + 1) +
              w.randIntn (t ++ [Event.post ⟨url, payload, r.apiKey, r.apiSecret⟩]) % 3)])
        exact ⟨k + 1, by omega, by rw [retryHistory]; exact h⟩
      · exact ⟨0, by omega, Or.inr rfl⟩

set_option maxRecDepth 100000 in
/-- C24 (counterexample): with a budget of three attempts against a control
plane that always answers `Procedure busy`, retryAPICall sleeps three times,
not twice, and the last thing it does before returning the error is the sleep
after the third attempt. -/
theorem retry_sleeps_after_final_attempt :
    sleepsOf (retryAPICall busyWorld demoResource (Delete.deleteProcedureApplyPayload "demo")
        "https://komodo.example/write" 3 []).2 = [3, 6, 9] ∧
      (retryAPICall busyWorld demoResource (Delete.deleteProcedureApplyPayload "demo")
        "https://komodo.example/write" 3 []).2.getLast? = some (Event.sleep 9) ∧
      (retryAPICall busyWorld demoResource (Delete.deleteProcedureApplyPayload "demo")
        "https://komodo.example/write" 3 []).1 =
        some "received non-OK HTTP status: 500 Internal Server Error, body: Procedure busy" := by
  decide

/-- C24 (amended): in retryAPICall a sleep follows every attempt that fails with
the transient error, the final permitted attempt included.  When all
`maxRetries` attempts fail with the transient error, the run is `maxRetries`
requests and exactly `maxRetries` sleeps, the last event is the sleep after the
final attempt, and the error of that attempt is returned after it. -/
theorem retry_sleeps_after_every_busy_attempt (w : World) (r : komodoResource)
    (payload url : String) (maxRetries : Nat) (t : List Event) (hpos : 1 ≤ maxRetries)
    (hbusy : ∀ j < maxRetries, ∃ err,
      (makeAPICall w r payload url
        (retryHistory w ⟨url, payload, r.apiKey, r.apiSecret⟩ 0 j t)).1 = some err ∧
      Contains err "Procedure busy" = true) :
    ∃ ev s, retryAPICall w r payload url maxRetries t =
        ((makeAPICall w r payload url
          (retryHistory w ⟨url, payload, r.apiKey, r.apiSecret⟩ 0 (maxRetries - 1) t)).1,
          t ++ ev) ∧
      requestsOf ev = List.replicate maxRetries (url, payload) ∧
      (sleepsOf ev).length = maxRetries ∧
      (t ++ ev).getLast? = some (Event.sleep s) := by
  obtain ⟨n, rfl⟩ : ∃ n, maxRetries = n + 1 := ⟨maxRetries - 1, by omega⟩
  obtain ⟨ev, h1, h2, h3⟩ :=
    retryHistory_shape w ⟨url, payload, r.apiKey, r.apiSecret⟩ (n + 1) 0 t
  obtain ⟨s, hs⟩ := retryHistory_last w ⟨url, payload, r.apiKey, r.apiSecret⟩ n 0 t
  refine ⟨ev, s, ?_, h2, h3, ?_⟩
  · unfold retryAPICall
    rw [retryAPICallLoop_all_busy w r payload url n 0 none t hbusy, h1]
    rfl
  · rw [← h1]
    exact hs

set_option maxRecDepth 100000 in
/-- Witness of C24 (amended): three attempts against the control plane that
always answers `Procedure busy`. -/
theorem retry_sleeps_after_every_busy_attempt_witness :
    ∃ ev s, retryAPICall busyWorld demoResource (Delete.deleteProcedureApplyPayload "demo")
          "https://komodo.example/write" 3 [] =
        ((makeAPICall busyWorld demoResource (Delete.deleteProcedureApplyPayload "demo")
          "https://komodo.example/write"
          (retryHistory busyWorld ⟨"https://komodo.example/write",
            Delete.deleteProcedureApplyPayload "demo", demoResource.apiKey,
            demoResource.apiSecret⟩ 0 (3 - 1) [])).1, [] ++ ev) ∧
      requestsOf ev = List.replicate 3 ("https://komodo.example/write",
        Delete.deleteProcedureApplyPayload "demo") ∧
      (sleepsOf ev).length = 3 ∧
      ([] ++ ev).getLast? = some (Event.sleep s) :=
  retry_sleeps_after_every_busy_attempt busyWorld demoResource
    (Delete.deleteProcedureApplyPayload "demo") "https://komodo.example/write" 3 []
    (by decide)
    (fun j hj =>
      match j, hj with
      | 0, _ =>
        ⟨"received non-OK HTTP status: 500 Internal Server Error, body: Procedure busy",
          by decide, by decide⟩
      | 1, _ =>
        ⟨"received non-OK HTTP status: 500 Internal Server Error, body: Procedure busy",
          by decide, by decide⟩
      | 2, _ =>
        ⟨"received non-OK HTTP status: 500 Internal Server Error, body: Procedure busy",
          by decide, by decide⟩
      | j + 3, h => absurd h (by omega))

/-- C25: in every run of retryAPICall, whatever the answers and whatever the
jitter drawn, the sleep after the 0-based attempt `m` lasts `3 * (m + 1) + j`
seconds with `j` one of 0, 1 and 2, and each sleep is strictly longer than the
one before it. -/
theorem backoff_delays_increase (w : World) (r : komodoResource) (payload url : String)
    (maxRetries : Nat) (t : List Event) :
    ∃ ev, (retryAPICall w r payload url maxRetries t).2 = t ++ ev ∧
      (∀ m d, (sleepsOf ev)[m]? = some d → ∃ j, j < 3 ∧ d = 3 * (m + 1) + j) ∧
      ∀ m d1 d2, (sleepsOf ev)[m]? = some d1 → (sleepsOf ev)[m + 1]? = some d2 → d1 < d2 := by
  obtain ⟨k, _, hk⟩ := retryAPICallLoop_history w r payload url maxRetries 0 none t
  obtain ⟨ev, h1, _, h3⟩ := retryHistory_sleeps w ⟨url, payload, r.apiKey, r.apiSecret⟩ k 0 t
  have key : ∃ ev1, (retryAPICall w r payload url maxRetries t).2 = t ++ ev1 ∧
      sleepsOf ev1 = sleepsOf ev := by
    unfold retryAPICall
    rcases hk with hk | hk
    · exact ⟨ev, by rw [hk, h1], rfl⟩
    · exact ⟨ev ++ [Event.post ⟨url, payload, r.apiKey, r.apiSecret⟩],
        by rw [hk, h1, List.append_assoc], by simp [sleepsOf, List.filterMap_append]⟩
  obtain ⟨ev1, he1, hs⟩ := key
  refine ⟨ev1, he1, ?_, ?_⟩
  · intro m d hd
    rw [hs] at hd
    have := h3 m d hd
    exact ⟨d - 3 * (m + 1), by omega, by omega⟩
  · intro m d1 d2 hd1 hd2
    rw [hs] at hd1 hd2
    have a := h3 m d1 hd1
    have b := h3 (m + 1) d2 hd2
    omega

set_option maxRecDepth 100000 in
/-- C26 (failing input): five attempts against a control plane that always
answers `Procedure busy`, with no jitter drawn.  The delays are 3, 6, 9, 12
and 15 seconds: each is 3 seconds more than the one before, and no constant
factor takes 3 to 6 and 6 to 9. -/
theorem backoff_is_linear :
    sleepsOf (retryAPICall busyWorld demoResource (Delete.deleteProcedureApplyPayload "demo")
        "https://komodo.example/write" 5 []).2 = [3, 6, 9, 12, 15] ∧
      ¬ ∃ c : ℚ, 1 < c ∧ (6 : ℚ) = c * 3 ∧ (9 : ℚ) = c * 6 := by
  refine ⟨by decide, ?_⟩
  rintro ⟨c, _, h1, h2⟩
  linarith

/-! ## The readiness test of the availability poller -/

theorem hasConfigAddress_iff (result : List (String × JsonValue)) :
    hasConfigAddress result = true ↔
      ∃ config, result.lookup "config" = some (JsonValue.object config) ∧
        (config.lookup "address").isSome = true := by
  unfold hasConfigAddress
  split
  · rename_i config h
    constructor
    · intro ha
      exact ⟨config, h, ha⟩
    · rintro ⟨config1, h1, ha⟩
      rw [h] at h1
      cases h1
      exact ha
  · rename_i hne
    constructor
    · intro h
      cases h
    · rintro ⟨config, h1, _⟩
      exact absurd h1 (hne config)

theorem availability_verdict_true_iff (w : World) (outcome : CallOutcome) :
    Poller.availability.verdict w outcome = Except.ok true ↔
      ∃ resp result, outcome = CallOutcome.response resp ∧ resp.statusCode = 200 ∧
        resp.readErr = none ∧ w.jsonUnmarshal resp.body = Except.ok result ∧
        hasConfigAddress result = true := by
  constructor
  · intro h
    unfold Poller.verdict at h
    split at h
    · cases h
    · cases h
    · rename_i resp
      split at h
      · rename_i h200
        split at h
        · cases h
        · rename_i hread
          split at h
          · cases h
          · rename_i result hjson
            refine ⟨resp, result, rfl, h200, hread, hjson, ?_⟩
            simpa [Poller.isReady] using h
      · cases h
  · rintro ⟨resp, result, rfl, h200, hread, hjson, hready⟩
    simp [Poller.verdict, h200, hread, hjson, Poller.isReady, hready]

/-- C27: an attempt of waitForServerAvailability succeeds, that is, the
function returns nil right after the request of that attempt, if and only if
the response has status 200 and its body is read and decoded to a JSON object
whose `config` member is an object with an `address` member.  After a response
with another status, and after a 200 response whose object lacks
`config.address`, the attempt has failed: the poller sleeps and goes on with
the attempts that remain. -/
theorem availability_attempt_succeeds_iff (w : World) (r : komodoResource)
    (serverName : String) (maxAttempts sleepDuration remaining : Nat) (t : List Event) :
    (waitForServerAvailabilityLoop w r serverName maxAttempts sleepDuration (remaining + 1) t =
          (none, t ++ [Event.post ⟨r.endpoint ++ "read", getServerPayload serverName, r.apiKey,
            r.apiSecret⟩]) ↔
        ∃ resp result config,
          w.http t ⟨r.endpoint ++ "read", getServerPayload serverName, r.apiKey, r.apiSecret⟩ =
            CallOutcome.response resp ∧
          resp.statusCode = 200 ∧ resp.readErr = none ∧
          w.jsonUnmarshal resp.body = Except.ok result ∧
          result.lookup "config" = some (JsonValue.object config) ∧
          (config.lookup "address").isSome = true) ∧
      (∀ resp,
        w.http t ⟨r.endpoint ++ "read", getServerPayload serverName, r.apiKey, r.apiSecret⟩ =
          CallOutcome.response resp →
        resp.statusCode ≠ 200 →
        waitForServerAvailabilityLoop w r serverName maxAttempts sleepDuration (remaining + 1) t =
          waitForServerAvailabilityLoop w r serverName maxAttempts sleepDuration remaining
            (t ++ [Event.post ⟨r.endpoint ++ "read", getServerPayload serverName, r.apiKey,
              r.apiSecret⟩] ++ [Event.sleep sleepDuration])) ∧
      (∀ resp result,
        w.http t ⟨r.endpoint ++ "read", getServerPayload serverName, r.apiKey, r.apiSecret⟩ =
          CallOutcome.response resp →
        resp.statusCode = 200 → resp.readErr = none →
        w.jsonUnmarshal resp.body = Except.ok result →
        (∀ config, result.lookup "config" = some (JsonValue.object config) →
          (config.lookup "address").isSome = false) →
        waitForServerAvailabilityLoop w r serverName maxAttempts sleepDuration (remaining + 1) t =
          waitForServerAvailabilityLoop w r serverName maxAttempts sleepDuration remaining
            (t ++ [Event.post ⟨r.endpoint ++ "read", getServerPayload serverName, r.apiKey,
              r.apiSecret⟩] ++ [Event.sleep sleepDuration])) := by
  have hsucc := Poller.loop_succ Poller.availability w r serverName maxAttempts sleepDuration
    remaining t
  simp only [Poller.loop, Poller.request] at hsucc
  refine ⟨?_, ?_, ?_⟩
  · constructor
    · intro h
      rw [hsucc] at h
      have hv : Poller.availability.verdict w (w.http t
          ⟨r.endpoint ++ "read", getServerPayload serverName, r.apiKey, r.apiSecret⟩) =
          Except.ok true := by
        split at h
        · cases h
        · assumption
        · obtain ⟨ev, k, htr, _⟩ := waitForServerAvailabilityLoop_trace w r serverName
            maxAttempts sleepDuration remaining
            (t ++ [Event.post ⟨r.endpoint ++ "read", getServerPayload serverName, r.apiKey,
              r.apiSecret⟩] ++ [Event.sleep sleepDuration])
          rw [h] at htr
          have hl := congrArg List.length htr
          simp at hl
      obtain ⟨resp, result, hresp, h200, hread, hjson, hready⟩ :=
        (availability_verdict_true_iff w _).mp hv
      obtain ⟨config, hc, ha⟩ := (hasConfigAddress_iff result).mp hready
      exact ⟨resp, result, config, hresp, h200, hread, hjson, hc, ha⟩
    · rintro ⟨resp, result, config, hresp, h200, hread, hjson, hc, ha⟩
      have hv := (availability_verdict_true_iff w _).mpr
        ⟨resp, result, hresp, h200, hread, hjson, (hasConfigAddress_iff result).mpr ⟨config, hc, ha⟩⟩
      rw [hsucc, hv]
  · intro resp hresp hne
    rw [hsucc, hresp]
    simp [Poller.verdict, hne]
  · intro resp result hresp h200 hread hjson hno
    have hfalse : hasConfigAddress result = false := by
      cases hr : hasConfigAddress result with
      | false => rfl
      | true =>
        obtain ⟨config, hc, ha⟩ := (hasConfigAddress_iff result).mp hr
        rw [hno config hc] at ha
        cases ha
    rw [hsucc, hresp]
    simp [Poller.verdict, h200, hread, hjson, Poller.isReady, hfalse]

set_option maxRecDepth 100000 in
/-- Witness of C27: in the calm world the first attempt for `server-demo`
finds the address and the poller returns nil after one request; against the
control plane that answers `404 Not Found` the attempt fails and the poller
goes on after a sleep. -/
theorem availability_attempt_succeeds_iff_witness :
    waitForServerAvailabilityLoop calmWorld demoResource "server-demo" 30 10 (29 + 1) [] =
        (none, [] ++ [Event.post ⟨demoResource.endpoint ++ "read", getServerPayload "server-demo",
          demoResource.apiKey, demoResource.apiSecret⟩]) ∧
      waitForServerAvailabilityLoop goneWorld demoResource "server-demo" 30 10 (29 + 1) [] =
        waitForServerAvailabilityLoop goneWorld demoResource "server-demo" 30 10 29
          ([] ++ [Event.post ⟨demoResource.endpoint ++ "read", getServerPayload "server-demo",
            demoResource.apiKey, demoResource.apiSecret⟩] ++ [Event.sleep 10]) :=
  ⟨(availability_attempt_succeeds_iff calmWorld demoResource "server-demo" 30 10 29 []).1.mpr
      ⟨⟨200, "200 OK", "", none⟩,
        [("config", .object [("address", .string "https://10.0.0.5:8120")]),
          ("status", .string "Ok")],
        [("address", .string "https://10.0.0.5:8120")], rfl, rfl, rfl, rfl, rfl, rfl⟩,
    (availability_attempt_succeeds_iff goneWorld demoResource "server-demo" 30 10 29 []).2.1
      ⟨404, "404 Not Found", "not found", none⟩ rfl (by decide)⟩

/-! ## The body of the server creation as a JSON text -/

theorem lex_plain (tokens : List Token) (acc cs : List Char)
    (h : ∀ c ∈ cs, jsonPlain c = true) :
    cs.foldl lexStep ⟨tokens, .string acc⟩ = ⟨tokens, .string (acc ++ cs)⟩ := by
  induction cs generalizing acc with
  | nil => simp
  | cons c cs ih =>
    have hc := h c (List.mem_cons_self _ _)
    simp only [jsonPlain, Bool.and_eq_true, bne_iff_ne, ne_eq, decide_eq_true_eq] at hc
    obtain ⟨⟨h1, h2⟩, h3⟩ := hc
    have hstep : lexStep ⟨tokens, .string acc⟩ c = ⟨tokens, .string (acc ++ [c])⟩ := by
      simp [lexStep, h1, h2, Nat.not_lt.mpr h3]
    rw [List.foldl_cons, hstep, ih _ (fun x hx => h x (List.mem_cons_of_mem _ hx))]
    simp

theorem lex_createServer_head :
    "\x7b\n\t\t\"type\": \"CreateServer\",\n\t\t\"params\": \x7b\n\t\t\t\"name\": \"".data.foldl
        lexStep ⟨[], .outside⟩ =
      ⟨[.lbrace, .string "type".data, .colon, .string "CreateServer".data, .comma,
        .string "params".data, .colon, .lbrace, .string "name".data, .colon], .string []⟩ := by
  decide

theorem lex_createServer_config (tokens : List Token) (serverName : List Char) :
    "\",\n\t\t\t\"config\": \x7b\n\t\t\t\t\"address\": \"https://".data.foldl lexStep
        ⟨tokens, .string serverName⟩ =
      ⟨tokens ++ [.string serverName] ++ [.comma] ++ [.string "config".data] ++ [.colon] ++
        [.lbrace] ++ [.string "address".data] ++ [.colon], .string "https://".data⟩ := by
  rfl

theorem lex_createServer_tags (tokens : List Token) (address : List Char) :
    ":8120\"\n\t\t\t\x7d,\n\t\t\t\"tags\": [\"".data.foldl lexStep ⟨tokens, .string address⟩ =
      ⟨tokens ++ [.string (address ++ [':'] ++ ['8'] ++ ['1'] ++ ['2'] ++ ['0'])] ++ [.rbrace] ++
        [.comma] ++ [.string "tags".data] ++ [.colon] ++ [.lbrack], .string []⟩ := by
  rfl

theorem lex_createServer_tail (tokens : List Token) (tag : List Char) :
    "\"]\n\t\t\x7d\n\t\x7d".data.foldl lexStep ⟨tokens, .string tag⟩ =
      ⟨tokens ++ [.string tag] ++ [.rbrack] ++ [.rbrace] ++ [.rbrace], .outside⟩ := by
  rfl

theorem createServerPayload_tokens (serverName serverIP name : String)
    (h1 : ∀ c ∈ serverName.data, jsonPlain c = true)
    (h2 : ∀ c ∈ serverIP.data, jsonPlain c = true)
    (h3 : ∀ c ∈ name.data, jsonPlain c = true) :
    jsonTokens (Create.createServerPayload serverName serverIP name) =
      some (createServerTokens serverName ("https://" ++ serverIP ++ ":8120") name) := by
  unfold jsonTokens Create.createServerPayload
  simp only [String.data_append, List.foldl_append]
  rw [lex_createServer_head, lex_plain _ _ _ h1, lex_createServer_config, lex_plain _ _ _ h2,
    lex_createServer_tags, lex_plain _ _ _ h3, lex_createServer_tail]
  simp [createServerTokens, String.data_append, List.append_assoc]

theorem jsonPlain_of_toNat (c : Char) (h : 93 ≤ c.toNat) : jsonPlain c = true := by
  have h1 : c ≠ '"' := by
    intro hc
    rw [hc] at h
    exact absurd h (by decide)
  have h2 : c ≠ '\\' := by
    intro hc
    rw [hc] at h
    exact absurd h (by decide)
  simp only [jsonPlain, Bool.and_eq_true, bne_iff_ne, ne_eq, decide_eq_true_eq]
  exact ⟨⟨h1, h2⟩, by omega⟩

theorem jsonPlain_toLower (c : Char) (h : jsonPlain c = true) :
    jsonPlain (unicodeToLower c) = true := by
  by_cases hascii : c.toNat < 128
  · rw [unicodeToLower_ascii c hascii]
    by_cases hu : 65 ≤ c.toNat ∧ c.toNat ≤ 90
    · obtain ⟨ha, hb⟩ := hu
      rw [← Char.ofNat_toNat c]
      generalize c.toNat = n at ha hb
      interval_cases n <;> decide
    · have : c.toLower = c := by
        simp only [Char.toLower]
        rw [if_neg]
        simpa using hu
      rw [this]
      exact h
  · exact jsonPlain_of_toNat _ (unicodeToLower_nonascii c (by omega))

theorem jsonPlain_serverName (name : String) (h : ∀ c ∈ name.data, jsonPlain c = true) :
    ∀ c ∈ ("server-" ++ toLower name).data, jsonPlain c = true := by
  intro c hc
  simp only [String.data_append, toLower, List.mem_append, List.mem_map] at hc
  rcases hc with hc | ⟨b, hb, rfl⟩
  · have hall : ∀ x ∈ "server-".data, jsonPlain x = true := by decide
    exact hall c hc
  · exact jsonPlain_toLower b (h b hb)

set_option maxRecDepth 100000 in
/-- C28 (counterexample): the name is put between the quotes as it is.  For
the name `my "demo"` the first quote of the name ends the string early: where
the document has the one string of the tag, the body that Create sends has the
string `my `, the bare word `demo` and an empty string, which is no JSON
document.  For the name `demo\` the final backslash escapes the closing quote
and the body is not a JSON text at all. -/
theorem create_server_body_is_not_escaped :
    (∃ body, Step.call demoResource quotedPlan Step.createServer =
        some (body, "https://komodo.example/write") ∧
      jsonTokens body =
        some [.lbrace, .string "type".data, .colon, .string "CreateServer".data, .comma,
          .string "params".data, .colon, .lbrace, .string "name".data, .colon,
          .string "server-my ".data, .scalar "demo".data, .string "".data, .comma,
          .string "config".data, .colon, .lbrace, .string "address".data, .colon,
          .string "https://10.0.0.5:8120".data, .rbrace, .comma, .string "tags".data, .colon,
          .lbrack, .string "my ".data, .scalar "demo".data, .string "".data, .rbrack, .rbrace,
          .rbrace] ∧
      jsonTokens body ≠
        some (createServerTokens "server-my \"demo\"" "https://10.0.0.5:8120" "my \"demo\"")) ∧
      (∃ body, Step.call demoResource backslashPlan Step.createServer =
        some (body, "https://komodo.example/write") ∧ jsonTokens body = none) ∧
      (requestsOf (Create calmWorld demoResource quotedPlan).trace).head? =
        some ("https://komodo.example/write",
          Create.createServerPayload "server-my \"demo\"" "10.0.0.5" "my \"demo\"") := by
  refine ⟨⟨_, rfl, by decide, by decide⟩, ⟨_, rfl, by decide⟩, by decide⟩

/-- C28 (amended): the body of the server creation is the template of the
source with the server id, the node address and the name inserted as they are,
without JSON escaping.  For every name and every node address that hold no
double quote, no backslash and no control character it is a JSON text whose
tokens are those of the document of type CreateServer with `params.name`
`server-` followed by the lower-cased name, `params.config.address`
`https://<nodeAddress>:8120` and `params.tags` the one-element list of the
name. -/
theorem create_server_body_is_json_for_plain_names (r : komodoResource) (plan : KomodoModel)
    (hname : ∀ c ∈ plan.Name.ValueString.data, jsonPlain c = true)
    (hip : ∀ c ∈ plan.ServerIP.ValueString.data, jsonPlain c = true) :
    ∃ body, Step.call r plan Step.createServer = some (body, r.endpoint ++ "write") ∧
      body = Create.createServerPayload ("server-" ++ toLower plan.Name.ValueString)
        plan.ServerIP.ValueString plan.Name.ValueString ∧
      jsonTokens body =
        some (createServerTokens ("server-" ++ toLower plan.Name.ValueString)
          ("https://" ++ plan.ServerIP.ValueString ++ ":8120") plan.Name.ValueString) :=
  ⟨_, rfl, rfl, createServerPayload_tokens _ _ _
    (jsonPlain_serverName plan.Name.ValueString hname) hip hname⟩

set_option maxRecDepth 100000 in
/-- Witness of C28 (amended): the plan `ÉCOLE` with the node address
`10.0.0.5`, whose server id is `server-école`. -/
theorem create_server_body_is_json_for_plain_names_witness :
    "server-" ++ toLower ecolePlan.Name.ValueString = "server-école" ∧
      ∃ body, Step.call demoResource ecolePlan Step.createServer =
          some (body, demoResource.endpoint ++ "write") ∧
        body = Create.createServerPayload ("server-" ++ toLower ecolePlan.Name.ValueString)
          ecolePlan.ServerIP.ValueString ecolePlan.Name.ValueString ∧
        jsonTokens body =
          some (createServerTokens ("server-" ++ toLower ecolePlan.Name.ValueString)
            ("https://" ++ ecolePlan.ServerIP.ValueString ++ ":8120")
            ecolePlan.Name.ValueString) :=
  ⟨by decide,
    create_server_body_is_json_for_plain_names demoResource ecolePlan (by decide) (by decide)⟩

/-! ## The environment sections of the repository file -/

theorem envOpening_no_border (k : Nat) (h1 : 1 ≤ k) (h2 : k < 17) :
    (envOpening.drop k).isPrefixOf envOpening = false := by
  interval_cases k <;> decide

theorem containsChars_cons (c : Char) (cs needle : List Char) :
    containsChars (c :: cs) needle = (needle.isPrefixOf (c :: cs) || containsChars cs needle) := by
  simp [containsChars, List.tails]

theorem envOpening_not_prefix (text after : List Char) (hne : text ≠ [])
    (htext : containsChars text envOpening = false)
    (hafter : after = [] ∨ envOpening <+: after) :
    envOpening.isPrefixOf (text ++ after) = false := by
  by_contra hcon
  have hp : envOpening <+: text ++ after := by
    rw [← List.isPrefixOf_iff_prefix]
    simpa using hcon
  have htp : text <+: text ++ after := List.prefix_append _ _
  by_cases hlen : envOpening.length ≤ text.length
  · have h1 : envOpening <+: text := List.prefix_of_prefix_length_le hp htp hlen
    have h2 : envOpening.isPrefixOf text = true := List.isPrefixOf_iff_prefix.mpr h1
    cases text with
    | nil => exact hne rfl
    | cons c cs =>
      rw [containsChars_cons, h2] at htext
      simp at htext
  · have hlt : text.length < 17 := by
      have : envOpening.length = 17 := by decide
      omega
    have h1 : text <+: envOpening := List.prefix_of_prefix_length_le htp hp (by omega)
    obtain ⟨rest, hrest⟩ := h1
    have hdrop : rest = envOpening.drop text.length := by
      rw [← hrest, List.drop_left]
    have hpos : 1 ≤ text.length := by
      cases text with
      | nil => exact absurd rfl hne
      | cons c cs => simp
    have hr : rest <+: after := by
      rw [← hrest] at hp
      exact (List.prefix_append_right_inj text).mp hp
    have hborder := envOpening_no_border text.length hpos hlt
    rw [← hdrop] at hborder
    rcases hafter with h | h
    · subst h
      have : rest = [] := List.prefix_nil.mp hr
      rw [this] at hborder
      simp [envOpening, List.isPrefixOf] at hborder
    · have hrl : rest.length ≤ envOpening.length := by
        rw [hdrop, List.length_drop]
        omega
      have : rest <+: envOpening := List.prefix_of_prefix_length_le hr h hrl
      rw [List.isPrefixOf_iff_prefix.mpr this] at hborder
      cases hborder

theorem replaceEnvironments_nil (keys : List Char) (fuel : Nat) :
    replaceEnvironments keys fuel [] = [] := by
  cases fuel with
  | zero => rfl
  | succ n => simp [replaceEnvironments, matchEnvironment, envOpening]

theorem takeWhile_value (value rest : List Char) (h : '"' ∉ value) :
    (value ++ '"' :: rest).takeWhile (fun c => c != '"') = value ∧
      (value ++ '"' :: rest).dropWhile (fun c => c != '"') = '"' :: rest := by
  induction value with
  | nil => simp
  | cons c cs ih =>
    have hc : c ≠ '"' := fun hc => h (by simp [hc])
    have hcs : '"' ∉ cs := fun hcs => h (by simp [hcs])
    obtain ⟨h1, h2⟩ := ih hcs
    simp [List.takeWhile_cons, List.dropWhile_cons, hc, h1, h2]

theorem matchEnvironment_section (value rest : List Char) (h : '"' ∉ value) :
    matchEnvironment (envOpening ++ value ++ ['"', '"', '"'] ++ rest) = some (value, rest) := by
  have hp : envOpening.isPrefixOf (envOpening ++ value ++ ['"', '"', '"'] ++ rest) = true := by
    rw [List.isPrefixOf_iff_prefix, List.append_assoc, List.append_assoc]
    exact List.prefix_append _ _
  have hd : (envOpening ++ value ++ ['"', '"', '"'] ++ rest).drop envOpening.length =
      value ++ '"' :: ('"' :: '"' :: rest) := by
    rw [List.append_assoc, List.append_assoc, List.drop_left]
    simp
  obtain ⟨h1, h2⟩ := takeWhile_value value ('"' :: '"' :: rest) h
  unfold matchEnvironment
  rw [if_pos hp]
  simp only [hd, h1, h2]
  simp [List.isPrefixOf]

theorem matchEnvironment_some (cs value rest : List Char)
    (h : matchEnvironment cs = some (value, rest)) :
    '"' ∉ value ∧ cs = envOpening ++ value ++ ['"', '"', '"'] ++ rest := by
  unfold matchEnvironment at h
  split at h
  · rename_i hp
    dsimp only at h
    split at h
    · rename_i hq
      simp only [Option.some.injEq, Prod.mk.injEq] at h
      obtain ⟨hv, hr⟩ := h
      obtain ⟨t, ht⟩ := List.isPrefixOf_iff_prefix.mp hp
      obtain ⟨u, hu⟩ := List.isPrefixOf_iff_prefix.mp hq
      have hdrop : cs.drop envOpening.length = t := by
        rw [← ht, List.drop_left]
      rw [hdrop] at hv hr hu
      constructor
      · intro hmem
        rw [← hv] at hmem
        have := List.mem_takeWhile_imp hmem
        simp at this
      · have hsplit := List.takeWhile_append_dropWhile (fun c => c != '"') t
        rw [← hu] at hr
        rw [← ht, ← hsplit, hv, ← hu, ← hr]
        simp [List.append_assoc]
    · cases h
  · cases h

theorem matchEnvironment_none (cs : List Char) (h : ¬ IsSectionAt cs) :
    matchEnvironment cs = none := by
  cases hm : matchEnvironment cs with
  | none => rfl
  | some p =>
    obtain ⟨value, rest⟩ := p
    obtain ⟨h1, h2⟩ := matchEnvironment_some cs value rest hm
    exact absurd ⟨value, rest, h1, h2⟩ h

theorem noSectionStarts_tail {c : Char} {cs after : List Char}
    (h : NoSectionStarts (c :: cs) after) : NoSectionStarts cs after := by
  intro a x b hcs
  exact h (c :: a) x b (by rw [hcs]; rfl)

theorem noSectionStarts_cons {c : Char} {cs after : List Char}
    (hhead : ¬ IsSectionAt (c :: (cs ++ after))) (h : NoSectionStarts cs after) :
    NoSectionStarts (c :: cs) after := by
  intro a x b hcs
  cases a with
  | nil =>
    simp only [List.nil_append, List.cons.injEq] at hcs
    obtain ⟨rfl, rfl⟩ := hcs
    exact hhead
  | cons y a1 =>
    simp only [List.cons_append, List.cons.injEq] at hcs
    exact h a1 x b hcs.2

theorem replaceEnvironments_text (keys text after : List Char) (fuel : Nat)
    (htext : NoSectionStarts text after) :
    replaceEnvironments keys (text.length + fuel) (text ++ after) =
      text ++ replaceEnvironments keys fuel after := by
  induction text with
  | nil => simp
  | cons c cs ih =>
    have hm : matchEnvironment (c :: (cs ++ after)) = none :=
      matchEnvironment_none _ (htext [] c cs rfl)
    have hfuel : (c :: cs).length + fuel = (cs.length + fuel) + 1 := by
      simp only [List.length_cons]
      omega
    rw [hfuel, List.cons_append]
    simp only [replaceEnvironments, hm]
    rw [ih (noSectionStarts_tail htext)]
    rfl

theorem replaceEnvironments_layout (keys : List Char) (parts : List (List Char × List Char))
    (last : List Char) (fuel : Nat) (hread : WellRead parts last)
    (hfuel : (layout [] parts last).length ≤ fuel) :
    replaceEnvironments keys fuel (layout [] parts last) = layout keys parts last := by
  induction parts generalizing fuel with
  | nil =>
    simp only [layout] at hfuel ⊢
    obtain ⟨f, rfl⟩ : ∃ f, fuel = last.length + f := ⟨fuel - last.length, by omega⟩
    have := replaceEnvironments_text keys last [] f hread
    rw [List.append_nil] at this
    rw [this, replaceEnvironments_nil, List.append_nil]
  | cons p rest ih =>
    obtain ⟨text, value⟩ := p
    obtain ⟨ht, hv, hrest⟩ := hread
    simp only [layout, List.append_nil, List.length_append] at hfuel ⊢
    obtain ⟨f, rfl⟩ : ∃ f, fuel = text.length + (f + 1) := ⟨fuel - text.length - 1, by
      have : envOpening.length = 17 := by decide
      simp only [List.length_cons, List.length_nil] at hfuel
      omega⟩
    have hf : (layout [] rest last).length ≤ f := by
      simp only [List.length_cons, List.length_nil] at hfuel
      omega
    have hsplit : text ++ envOpening ++ value ++ ['"', '"', '"'] ++ layout [] rest last =
        text ++ (envOpening ++ value ++ ['"', '"', '"'] ++ layout [] rest last) := by
      simp only [List.append_assoc]
    rw [hsplit, replaceEnvironments_text keys text _ (f + 1) ht]
    simp only [replaceEnvironments, matchEnvironment_section value _ hv]
    rw [ih f hrest hf]
    simp only [List.append_assoc]

theorem containsChars_suffix (a l needle : List Char)
    (h : containsChars (a ++ l) needle = false) : containsChars l needle = false := by
  induction a with
  | nil => exact h
  | cons c cs ih =>
    rw [List.cons_append, containsChars_cons] at h
    simp only [Bool.or_eq_false_iff] at h
    exact ih h.2

theorem noSectionStarts_of_plain (text after : List Char)
    (htext : containsChars text envOpening = false)
    (hafter : after = [] ∨ envOpening <+: after) : NoSectionStarts text after := by
  intro a c b hsplit hsec
  obtain ⟨value, rest, _, heq⟩ := hsec
  have hcb : containsChars (c :: b) envOpening = false :=
    containsChars_suffix a (c :: b) envOpening (by rw [← hsplit]; exact htext)
  have hnp := envOpening_not_prefix (c :: b) after (by simp) hcb hafter
  have hp : envOpening.isPrefixOf (c :: b ++ after) = true := by
    rw [List.isPrefixOf_iff_prefix, heq, List.append_assoc, List.append_assoc]
    exact List.prefix_append _ _
  rw [hp] at hnp
  cases hnp

theorem layout_exists (n : Nat) (cs : List Char) (hn : cs.length ≤ n) :
    ∃ parts last, WellRead parts last ∧ cs = layout [] parts last := by
  induction n generalizing cs with
  | zero =>
    have : cs = [] := List.length_eq_zero.mp (by omega)
    subst this
    exact ⟨[], [], fun a c b h => by simp at h, rfl⟩
  | succ n ih =>
    cases cs with
    | nil => exact ⟨[], [], fun a c b h => by simp at h, rfl⟩
    | cons c cs1 =>
      by_cases hs : IsSectionAt (c :: cs1)
      · obtain ⟨value, rest, hv, heq⟩ := hs
        have hlen : rest.length ≤ n := by
          have h1 := congrArg List.length heq
          simp only [List.length_cons, List.length_append, List.length_nil] at h1 hn
          omega
        obtain ⟨parts, last, hread, hrest⟩ := ih rest hlen
        refine ⟨([], value) :: parts, last, ⟨fun a x b h => by simp at h, hv, hread⟩, ?_⟩
        rw [heq, hrest]
        simp [layout]
      · obtain ⟨parts, last, hread, hrest⟩ := ih cs1 (by simpa using hn)
        cases parts with
        | nil =>
          simp only [layout] at hrest
          subst hrest
          exact ⟨[], c :: cs1, noSectionStarts_cons (by simpa using hs) hread, rfl⟩
        | cons p rest =>
          obtain ⟨text, value⟩ := p
          obtain ⟨ht, hv, hr⟩ := hread
          refine ⟨(c :: text, value) :: rest, last, ⟨noSectionStarts_cons ?_ ht, hv, hr⟩, ?_⟩
          · have : c :: (text ++ (envOpening ++ value ++ ['"', '"', '"'] ++ layout [] rest last)) =
                c :: cs1 := by
              rw [hrest]
              simp [layout, List.append_assoc]
            rw [this]
            exact hs
          · rw [hrest]
            simp [layout, List.append_assoc]

/-- C29: addSSHKeysToFileContents puts the keys into every environment section,
before its closing triple quote, and leaves the rest of the file as it is.
Read the contents from left to right as texts and environment sections
`environment = """E"""` whose value `E` holds no double quote, no section
beginning inside a text.  The result is the same texts and sections with every
section turned into `environment = """E` followed by a newline,
`SSH_PRIVATE_KEY=` and the private key with each newline written as backslash
and `n`, a newline, `SSH_PUBLIC_KEY=` and the public key, and the closing
`"""`.  Every contents can be read in this way. -/
theorem keys_go_before_closing_quotes (parts : List (List Char × List Char))
    (last : List Char) (privateKey publicKey : String) (hread : WellRead parts last) :
    addSSHKeysToFileContents (String.mk (layout [] parts last)) privateKey publicKey =
        String.mk (layout
          ("\nSSH_PRIVATE_KEY=" ++ escapeNewlines privateKey ++ "\nSSH_PUBLIC_KEY=" ++
            publicKey).data parts last) ∧
      (escapeNewlines privateKey).data =
        privateKey.data.flatMap (fun c => if c = '\n' then ['\\', 'n'] else [c]) ∧
      ∀ fileContents : String, ∃ parts1 last1, WellRead parts1 last1 ∧
        fileContents = String.mk (layout [] parts1 last1) := by
  refine ⟨?_, rfl, ?_⟩
  · unfold addSSHKeysToFileContents
    dsimp only
    rw [replaceEnvironments_layout _ parts last _ hread (by simp [String.length])]
  · intro fileContents
    obtain ⟨parts1, last1, h1, h2⟩ := layout_exists fileContents.data.length fileContents.data
      (le_refl _)
    exact ⟨parts1, last1, h1, String.ext h2⟩

set_option maxRecDepth 100000 in
/-- Witness of C29: the contents `stackToml`, one environment section with
the value `A=1` on a line of its own, and the keys `PRIVATE` and
`ssh-ed25519 PUBLIC`. -/
theorem keys_go_before_closing_quotes_witness :
    String.mk (layout [] stackTomlParts "\n".data) = stackToml ∧
      addSSHKeysToFileContents (String.mk (layout [] stackTomlParts "\n".data)) "PRIVATE"
          "ssh-ed25519 PUBLIC" =
        String.mk (layout
          ("\nSSH_PRIVATE_KEY=" ++ escapeNewlines "PRIVATE" ++ "\nSSH_PUBLIC_KEY=" ++
            "ssh-ed25519 PUBLIC").data stackTomlParts "\n".data) ∧
      addSSHKeysToFileContents stackToml "PRIVATE" "ssh-ed25519 PUBLIC" =
        "[[stack]]\nname = \"demo\"\n[stack.config]\nenvironment = \"\"\"\nA=1\n\nSSH_PRIVATE_KEY=PRIVATE\nSSH_PUBLIC_KEY=ssh-ed25519 PUBLIC\"\"\"\n" :=
  ⟨by decide,
    (keys_go_before_closing_quotes stackTomlParts "\n".data "PRIVATE" "ssh-ed25519 PUBLIC"
      ⟨noSectionStarts_of_plain _ _ (by decide) (Or.inr ⟨_, rfl⟩), by decide,
        noSectionStarts_of_plain _ _ (by decide) (Or.inl rfl)⟩).1,
    by decide⟩

/-! ## The repository of sync A -/

theorem filterMap_sanitizeChar_eq_map_iff (l : List Char) :
    l.filterMap sanitizeChar = l.map unicodeToLower ↔ ∀ c ∈ l, keptChar c = true := by
  induction l with
  | nil => simp
  | cons c l ih =>
    constructor
    · intro h
      rw [List.filterMap_cons, List.map_cons] at h
      cases hc : sanitizeChar c with
      | none =>
        rw [hc] at h
        have hlen := congrArg List.length h
        have hle := List.length_filterMap_le sanitizeChar l
        simp only [List.length_cons, List.length_map] at hlen
        omega
      | some b =>
        rw [hc] at h
        simp only [List.cons.injEq] at h
        obtain ⟨hb, htail⟩ := h
        have hk : keptChar c = true := by
          unfold sanitizeChar at hc
          split at hc
          · rename_i hspace
            subst hspace
            simp only [Option.some.injEq] at hc
            rw [← hc] at hb
            exact absurd hb (by decide)
          · split at hc
            · assumption
            · cases hc
        intro x hx
        rcases List.mem_cons.mp hx with rfl | hx
        · exact hk
        · exact ih.mp htail x hx
    · intro h
      have hk := h c (List.mem_cons_self _ _)
      have hne : c ≠ ' ' := by
        intro hs
        rw [hs] at hk
        exact absurd hk (by decide)
      have hlow : unicodeToLower c = c.toLower :=
        unicodeToLower_ascii c (by have := keptChar_toNat_le c hk; omega)
      rw [List.filterMap_cons, List.map_cons]
      simp only [sanitizeChar, hne, if_false, hk, if_true, hlow]
      rw [← hlow, ih.mpr (fun x hx => h x (List.mem_cons_of_mem _ hx))]

/-- C30: the repository that Create names in the definition of sync A,
the lower-cased name followed by `_syncresources`, is the repository that
createGitHubRepository creates, the sanitized name followed by
`_syncresources`, exactly when every character of the name is one of
`[A-Za-z0-9-_.]`.  Every GitHub call of Create addresses the second, and the
body of the sync A request holds the first; so for a name with a space or any
other character outside that set the two differ. -/
theorem sync_repository_matches_iff (w : World) (r : komodoResource) (plan : KomodoModel) :
    (toLower plan.Name.ValueString ++ "_syncresources" =
        sanitizeRepoName plan.Name.ValueString ++ "_syncresources" ↔
      ∀ c ∈ plan.Name.ValueString.data, keptChar c = true) ∧
      (∀ n ∈ repositoryNames (Create w r plan).trace,
        n = sanitizeRepoName plan.Name.ValueString ++ "_syncresources") ∧
      Step.call r plan Step.createSyncA =
        some (contextWareDocument (plan.Name.ValueString ++ "_ContextWare")
          (plan.Name.ValueString ++ "_ResourceSetup")
          (toLower plan.Name.ValueString ++ "_syncresources"), r.endpoint ++ "write") := by
  refine ⟨?_, (Create.create_uses_entityNames w r plan).2, ?_⟩
  · have hdata : (sanitizeRepoName plan.Name.ValueString).data =
        plan.Name.ValueString.data.filterMap sanitizeChar := by
      unfold sanitizeRepoName toLower
      dsimp only
      rw [sanitize_data]
    rw [← filterMap_sanitizeChar_eq_map_iff, ← hdata]
    constructor
    · intro h
      have := congrArg String.data h
      simp only [String.data_append, List.append_cancel_right_eq] at this
      rw [← this]
      rfl
    · intro h
      apply String.ext
      simp only [String.data_append, List.append_cancel_right_eq]
      rw [h]
      rfl
  · simp only [Step.call]
    rw [createContextWarePayload_eq]

set_option maxRecDepth 100000 in
/-- Witness of C30: for the name `my demo` Create makes the repository
`my-demo_syncresources` and points sync A at `my demo_syncresources`. -/
theorem sync_repository_matches_iff_witness :
    sanitizeRepoName "my demo" ++ "_syncresources" = "my-demo_syncresources" ∧
      toLower "my demo" ++ "_syncresources" = "my demo_syncresources" ∧
      ¬ (toLower (TfString.value "my demo").ValueString ++ "_syncresources" =
        sanitizeRepoName (TfString.value "my demo").ValueString ++ "_syncresources") :=
  ⟨by decide, by decide,
    fun h => absurd
      ((sync_repository_matches_iff calmWorld demoResource
        ⟨.value "1", .value "my demo", .null, .value "10.0.0.5", .null⟩).1.mp h ' '
        (by decide))
      (by decide)⟩

end Komodo
